import Mathlib

/-!
# CLM automation: the contract repository (`ContractModel.js`) and its routes

A shallow embedding of `backend/src/models/ContractModel.js`, of the routes of
`backend/src/routes/contractRoutes.js` as `backend/src/app.js` mounts them, and
of the routes of `backend/complete-server.js` and `backend/minimal-server.js`
that the claims are about.

* JavaScript values are the type `JVal`; a plain object is the list of its
  own properties in `Object.keys` order (`Obj`).
* A `Date` is represented by its time value, an integer number of
  milliseconds since the epoch.  Dates are valid dates away from the two ends
  of the ECMAScript time range, so that `new Date(t)` has the time value `t`.
* An `async` method that talks to the database is a function
  `Db → Except Err α × Db`: the outcome (a returned value or a thrown error)
  together with the database as the call leaves it.  Statements are not
  wrapped in a transaction, so what was written before a throw stays written.
* PostgreSQL is the store `Db`: three tables, and one interpreting function
  for each statement of the repository (`Db.insertContract`,
  `Db.updateContracts`, ...).  SQL fragments that the code assembles at run
  time (`WHERE` conditions, `SET` items) are small syntax trees whose `text`
  is the string the code writes; the store interprets the tree.  A `SET`
  target is the key the code pastes into the text: one written as a plain
  identifier names the column PostgreSQL reads it as (in lower case), and
  what PostgreSQL makes of any other text is a field of `Env`; a statement
  the store rejects makes `db.query` throw.
* There are two databases.  `ContractModel` talks to the one on port 5432,
  whose table definitions are not among the sources; `complete-server.js` and
  `minimal-server.js` talk to the one on port 5433, whose table `contracts`
  `test-db.js` creates, with integers for ids.
* Values the code obtains from outside (`uuidv4()`, `NOW()`,
  `CURRENT_DATE`, `Math.random()`, the year, the full-text match) are fields
  of `Env`.  Numbers are whole numbers; the one computation in doubles,
  `generateContractNumber`, is carried out with the rounding of doubles.
-/

namespace CLM

/-! ## JavaScript values -/

/-- A JavaScript value as the repository sees it: `num` is an integer-valued
number, `date` a `Date` object given by its time value in milliseconds,
`strs` an array of strings (the `tags` column). -/
inductive JVal where
  | undefined
  | null
  | bool (b : Bool)
  | num (n : Int)
  | str (s : String)
  | date (t : Int)
  | strs (xs : List String)
  deriving DecidableEq, Repr

/-- JavaScript truthiness (`if (v)`, `v || w`, `!v`). -/
def JVal.truthy : JVal → Bool
  | .undefined => false
  | .null => false
  | .bool b => b
  | .num n => n != 0
  | .str s => s != ""
  | .date _ => true
  | .strs _ => true

/-- The JavaScript expression `a || b`. -/
def JVal.or (a b : JVal) : JVal := if a.truthy then a else b

/-- A plain object: its own enumerable properties, in `Object.keys` order. -/
abbrev Obj := List (String × JVal)

/-- Property access `o.k` (`undefined` when the object has no such key). -/
def Obj.get (o : Obj) (k : String) : JVal := (o.lookup k).getD JVal.undefined

/-- The object spread `{...o, k: v}`: an existing key keeps its place and
takes the new value, a new key goes last. -/
def Obj.set (o : Obj) (k : String) (v : JVal) : Obj :=
  if o.any (fun p => p.1 == k) then o.map (fun p => if p.1 == k then (p.1, v) else p)
  else o ++ [(k, v)]

/-- What a call can throw. -/
inductive Err where
  | typeError (msg : String)
  | error (msg : String)
  | dbError (msg : String)
  deriving DecidableEq, Repr

/-- The method call `v.getTime()`: the time value of a `Date`; `undefined` and
`null` have no properties, and on any other value the property `getTime` is
not a function: the call throws. -/
def JVal.getTime : JVal → Except Err Int
  | .date t => .ok t
  | .undefined =>
    .error (.typeError "Cannot read properties of undefined (reading 'getTime')")
  | .null => .error (.typeError "Cannot read properties of null (reading 'getTime')")
  | _ => .error (.typeError "expirationDate.getTime is not a function")

/-! ## The store -/

/-- A row of `contracts`: column name and value, in column order. -/
abbrev Row := List (String × JVal)

/-- The value of column `c` of a row (`row.c` in JavaScript). -/
def Row.get (r : Row) (c : String) : JVal := (r.lookup c).getD JVal.undefined

/-- The row with column `c` set to `v`. -/
def Row.set (r : Row) (c : String) (v : JVal) : Row :=
  if r.any (fun p => p.1 == c) then r.map (fun p => if p.1 = c then (p.1, v) else p)
  else r ++ [(c, v)]

/-- A row of `contract_milestones`. -/
structure Milestone where
  id : JVal
  contract_id : JVal
  milestone_type : JVal
  name : JVal
  due_date : JVal
  assignee_email : JVal
  notes : JVal
  deriving DecidableEq, Repr

/-- The `details` object of an audit entry: `{action}`, `{action, details}`
or `{action, changes}`. -/
structure AuditDetails where
  action : String
  details : Option Obj
  changes : Option Obj
  deriving DecidableEq, Repr

/-- A row of `audit_logs`; `created_at` is filled by the store. -/
structure AuditEntry where
  contract_id : JVal
  action : JVal
  user_id : JVal
  details : AuditDetails
  created_at : Int
  deriving DecidableEq, Repr

/-- The database: the three tables, each in insertion order. -/
structure Db where
  contracts : List Row
  contract_milestones : List Milestone
  audit_logs : List AuditEntry
  deriving DecidableEq, Repr

/-- What the code reads from its surroundings during one call, and what
PostgreSQL does where the store below does not decide it. -/
structure Env where
  /-- The values successive calls of `uuidv4()` return. -/
  uuid : Nat → String
  /-- The time value of `NOW()`. -/
  now : Int
  /-- The time value of `CURRENT_DATE`. -/
  today : Int
  /-- The value of `new Date().getFullYear()`. -/
  year : Nat
  /-- The draw `Math.random()` returns, as numerator over `2 ^ 53`: the engine
  of Node makes a draw from at most 53 random bits, so every draw is a
  multiple of `2 ^ (-53)`, below 1 when the numerator is below `2 ^ 53`. -/
  random : Nat
  /-- Whether `search_vector @@ plainto_tsquery('english', q)` holds of a row. -/
  ftsMatch : Row → JVal → Bool
  /-- What PostgreSQL makes of an `UPDATE contracts SET ...` some `SET` target
  of which is not written as a plain identifier: given the `SET` items as
  written, the placeholder of the id, the parameters and the table, the error
  it raises, or the rows it returns and the table it leaves. -/
  foreignUpdate : List String → Nat → List JVal → List Row → Except Err (List Row × List Row)
  /-- The length in milliseconds of `$1 * INTERVAL '1 day'` for a parameter
  that is a text other than a whole number: what PostgreSQL reads the text as
  (`double precision`) times one day; `none` when it rejects the text. -/
  daysInterval : String → Option Rat
  /-- What the database of `complete-server.js` and `minimal-server.js` makes
  of an `INSERT INTO contracts (<columns>) VALUES ($1, ...) RETURNING *`: given
  the columns, the parameters and the table, the error it raises (a value that
  does not fit its column, a missing value for a `NOT NULL` column), or the
  row it adds. -/
  legacyInsert : List String → List JVal → List Row → Except Err Row
  /-- What the version of PostgreSQL in use reads a parameter for an `integer`
  column as when the text begins, after blanks and a sign, with a digit and is
  not a decimal numeral (later versions read `0x1F` and `1_000` as numbers):
  the number, or `none` when it rejects the text. -/
  integerText : String → Option Int

/-- How the driver sends a parameter: `undefined` goes out as `NULL`. -/
def prepareValue : JVal → JVal
  | .undefined => .null
  | v => v

/-- The statement `INSERT INTO contract_milestones (id, contract_id,
milestone_type, name, due_date, assignee_email, notes) VALUES ($1, ..., $7)
RETURNING *` with its seven parameters. -/
def Db.insertMilestone (db : Db) (values : List JVal) : Except Err (List Milestone) × Db :=
  match values.map prepareValue with
  | [i, c, t, n, d, a, s] =>
    let m : Milestone := ⟨i, c, t, n, d, a, s⟩
    (.ok [m], { db with contract_milestones := db.contract_milestones ++ [m] })
  | _ => (.error (.dbError "bind message supplies the wrong number of parameters"), db)

/-! ## `ContractModel`: milestones -/

/-- The method `createMilestone(milestoneData)`; `uid` is what `uuidv4()`
returns. -/
def createMilestone (uid : String) (milestoneData : Obj) (db : Db) :
    Except Err (List Milestone) × Db :=
  let values := [
    JVal.str uid,
    milestoneData.get "contract_id",
    milestoneData.get "milestone_type",
    milestoneData.get "name",
    milestoneData.get "due_date",
    (milestoneData.get "assignee_email").or JVal.null,
    (milestoneData.get "notes").or JVal.null
  ]
  db.insertMilestone values

/-- The loop `for (const milestone of milestones) await this.createMilestone(
{contract_id: contractId, ...milestone})`; the `k`-th call of `uuidv4()` gives
`uuids k`. -/
def createMilestones (uuids : Nat → String) (contractId : JVal) :
    Nat → List Obj → Db → Except Err Unit × Db
  | _, [], db => (.ok (), db)
  | k, milestone :: rest, db =>
    match createMilestone (uuids k) (("contract_id", contractId) :: milestone) db with
    | (.ok _, db1) => createMilestones uuids contractId (k + 1) rest db1
    | (.error e, db1) => (.error e, db1)

/-- The method `createDefaultMilestones(contractId, expirationDate)`. -/
def createDefaultMilestones (uuids : Nat → String) (contractId expirationDate : JVal)
    (db : Db) : Except Err Unit × Db :=
  match expirationDate.getTime with
  | .error e => (.error e, db)
  | .ok t =>
    let milestones : List Obj := [
      [("milestone_type", JVal.str "review"),
       ("name", JVal.str "90-Day Review"),
       ("due_date", JVal.date (t - 90 * 24 * 60 * 60 * 1000))],
      [("milestone_type", JVal.str "renewal"),
       ("name", JVal.str "60-Day Renewal Notice"),
       ("due_date", JVal.date (t - 60 * 24 * 60 * 60 * 1000))],
      [("milestone_type", JVal.str "expiration"),
       ("name", JVal.str "Contract Expiration"),
       ("due_date", expirationDate)]
    ]
    createMilestones uuids contractId 0 milestones db

/-! ## The store: `contracts` and `audit_logs` -/

/-- The columns the `INSERT` of `create` names, in its order. -/
def insertColumns : List String :=
  ["id", "contract_number", "title", "description", "counterparty_name",
   "counterparty_email", "counterparty_address", "owner_user_id", "owner_department",
   "status", "type", "category", "effective_date", "expiration_date",
   "contract_value", "currency", "payment_terms", "tags"]

/-- Modelled from the spec: the table definition of `contracts` in the
database of `ContractModel` (port 5432) is not among the sources.  Its columns
are those the `INSERT` names and the two timestamps `created_at` and
`updated_at` of the data model, which the store fills with the current time
on insertion. -/
def contractColumns : List String := insertColumns ++ ["created_at", "updated_at"]

/-- The row an `INSERT` of the given values creates: the named columns take
the values, the timestamps the current time. -/
def insertedRow (now : Int) (values : List JVal) : Row :=
  insertColumns.zip (values.map prepareValue)
    ++ [("created_at", JVal.date now), ("updated_at", JVal.date now)]

/-- The statement `INSERT INTO contracts (id, ..., tags) VALUES ($1, ..., $18)
RETURNING *` with its parameters. -/
def Db.insertContract (db : Db) (now : Int) (values : List JVal) : Except Err (List Row) × Db :=
  if values.length = insertColumns.length then
    let row : Row := insertedRow now values
    (.ok [row], { db with contracts := db.contracts ++ [row] })
  else (.error (.dbError "bind message supplies the wrong number of parameters"), db)

/-- The statement `INSERT INTO audit_logs (contract_id, action, user_id,
details) VALUES ($1, $2, $3, $4)`. -/
def Db.insertAudit (db : Db) (now : Int) (contractId action userId : JVal)
    (details : AuditDetails) : Except Err Unit × Db :=
  let e : AuditEntry := ⟨prepareValue contractId, prepareValue action, prepareValue userId,
    details, now⟩
  (.ok (), { db with audit_logs := db.audit_logs ++ [e] })

/-- One item `key = $n` of a `SET` list. -/
structure SetItem where
  key : String
  param : Nat
  deriving DecidableEq, Repr

/-- The text the code writes for a `SET` item. -/
def SetItem.text (f : SetItem) : String := f.key ++ " = $" ++ toString f.param

/-- The value bound to the placeholder `$n` (numbered from 1). -/
def paramAt (values : List JVal) (n : Nat) : Option JVal :=
  if n = 0 then none else (values.get? (n - 1)).map prepareValue

/-- All assignments of a `SET` list applied to one row. -/
def applySets (values : List JVal) (fields : List SetItem) (r : Row) : Row :=
  fields.foldl (fun acc f => acc.set f.key ((paramAt values f.param).getD JVal.null)) r

/-- The statement `UPDATE contracts SET <fields>, updated_at = NOW() WHERE
id = $<idParam> RETURNING *` when every target names a column as the table
spells it.  The store rejects the statement when a target is not a column of
the table, when a column is assigned twice (`updated_at` counts: the
statement assigns it itself) or when a placeholder has no value. -/
def Db.assignColumns (db : Db) (now : Int) (fields : List SetItem) (idParam : Nat)
    (values : List JVal) : Except Err (List Row) × Db :=
  let targets := fields.map SetItem.key ++ ["updated_at"]
  if ¬ targets.all (fun c => contractColumns.contains c) then
    (.error (.dbError "column of relation contracts does not exist"), db)
  else if ¬ targets.Nodup then
    (.error (.dbError "multiple assignments to same column"), db)
  else if ¬ fields.all (fun f => (paramAt values f.param).isSome) then
    (.error (.dbError "there is no parameter"), db)
  else
    match paramAt values idParam with
    | none => (.error (.dbError "there is no parameter"), db)
    | some idv =>
      let upd : Row → Row := fun r =>
        (applySets values fields r).set "updated_at" (JVal.date now)
      let hit : Row → Bool := fun r => idv != JVal.null && r.get "id" == idv
      (.ok ((db.contracts.filter hit).map upd),
       { db with contracts := db.contracts.map (fun r => if hit r then upd r else r) })

/-- Whether a key is written as a plain SQL identifier: an ASCII letter or an
underscore, followed by ASCII letters, digits, underscores and dollar signs. -/
def plainIdentifier (key : String) : Bool :=
  match key.data with
  | [] => false
  | ch :: rest =>
    (ch.isAlpha || ch == '_') && rest.all (fun d => d.isAlphanum || d == '_' || d == '$')

/-- The name PostgreSQL reads a plain identifier as: its letters in lower
case. -/
def foldIdentifier (key : String) : String := ⟨key.data.map Char.toLower⟩

/-- A `SET` item with its target as PostgreSQL reads it. -/
def SetItem.folded (f : SetItem) : SetItem := ⟨foldIdentifier f.key, f.param⟩

/-- The statement `UPDATE contracts SET <fields>, updated_at = NOW() WHERE
id = $<idParam> RETURNING *`, the keys of `fields` being pasted into the text
as they are.  When every key is a plain identifier the targets are the
columns the keys name in lower case; otherwise the text is whatever the keys
make of it and the outcome is what PostgreSQL makes of that text
(`env.foreignUpdate`).  A statement that fails changes nothing. -/
def Db.updateContracts (db : Db) (env : Env) (fields : List SetItem) (idParam : Nat)
    (values : List JVal) : Except Err (List Row) × Db :=
  if fields.all (fun f => plainIdentifier f.key) then
    db.assignColumns env.now (fields.map SetItem.folded) idParam values
  else
    match env.foreignUpdate (fields.map SetItem.text) idParam values db.contracts with
    | .error e => (.error e, db)
    | .ok (rows, contracts) => (.ok rows, { db with contracts := contracts })

/-- The statement `UPDATE contracts SET status = 'terminated', updated_at =
NOW() WHERE id = $1 RETURNING *`. -/
def Db.terminateContract (db : Db) (now : Int) (id : JVal) : Except Err (List Row) × Db :=
  let idv := prepareValue id
  let upd : Row → Row := fun r =>
    (r.set "status" (JVal.str "terminated")).set "updated_at" (JVal.date now)
  let hit : Row → Bool := fun r => idv != JVal.null && r.get "id" == idv
  (.ok ((db.contracts.filter hit).map upd),
   { db with contracts := db.contracts.map (fun r => if hit r then upd r else r) })

/-! ## `ContractModel`: mutations -/

/-- The method `logAudit(contractId, action, userId, details)`. -/
def logAudit (env : Env) (contractId action userId : JVal) (details : AuditDetails)
    (db : Db) : Except Err Unit × Db :=
  db.insertAudit env.now contractId action userId details

/-- The number of bits by which a natural number is longer than the 53 bits of
the significand of a double (`fuel` bounds the search). -/
def excessBits : Nat → Nat → Nat
  | 0, _ => 0
  | fuel + 1, n => if n < 2 ^ 53 then 0 else excessBits fuel (n / 2) + 1

/-- The double nearest to `n / 2 ^ 53`, as a numerator over `2 ^ 53`: the
result of an arithmetic operation whose exact value is `n / 2 ^ 53` (rounding
to nearest, ties to the even significand; the values here are far from
overflow). -/
def roundDouble (n : Nat) : Nat :=
  let shift := excessBits n n
  let m := n / 2 ^ shift
  let rem := n % 2 ^ shift
  if 2 ^ shift < 2 * rem ∨ (2 * rem = 2 ^ shift ∧ m % 2 = 1) then (m + 1) * 2 ^ shift
  else m * 2 ^ shift

/-- The expression `Math.floor(1000 + Math.random() * 9000)` for the draw
`k / 2 ^ 53`: the product and the sum are each rounded to a double. -/
def randomSuffixOf (k : Nat) : Nat :=
  roundDouble (1000 * 2 ^ 53 + roundDouble (k * 9000)) / 2 ^ 53

/-- The method `generateContractNumber()`: `Math.random()` is
`env.random / 2 ^ 53`. -/
def generateContractNumber (env : Env) : String :=
  let random := randomSuffixOf env.random
  "CON" ++ "-" ++ toString env.year ++ "-" ++ toString random

/-- The array `values` of `create`. -/
def createValues (env : Env) (contractData : Obj) : List JVal :=
  let contractId := JVal.str (env.uuid 0)
  let contractNumber :=
    (contractData.get "contract_number").or (JVal.str (generateContractNumber env))
  [
    contractId,
    contractNumber,
    contractData.get "title",
    (contractData.get "description").or JVal.null,
    contractData.get "counterparty_name",
    (contractData.get "counterparty_email").or JVal.null,
    (contractData.get "counterparty_address").or JVal.null,
    contractData.get "owner_user_id",
    (contractData.get "owner_department").or JVal.null,
    (contractData.get "status").or (JVal.str "draft"),
    (contractData.get "type").or (JVal.str "Other"),
    (contractData.get "category").or JVal.null,
    (contractData.get "effective_date").or JVal.null,
    (contractData.get "expiration_date").or JVal.null,
    (contractData.get "contract_value").or JVal.null,
    (contractData.get "currency").or (JVal.str "USD"),
    (contractData.get "payment_terms").or JVal.null,
    (contractData.get "tags").or (JVal.strs [])
  ]

/-- The method `create(contractData)`. -/
def create (env : Env) (contractData : Obj) (db : Db) : Except Err (Option Row) × Db :=
  let contractId := JVal.str (env.uuid 0)
  let values := createValues env contractData
  match db.insertContract env.now values with
  | (.error e, db1) => (.error e, db1)
  | (.ok rows, db1) =>
    let milestones : Except Err Unit × Db :=
      if (contractData.get "expiration_date").truthy then
        createDefaultMilestones (fun k => env.uuid (k + 1)) contractId
          (contractData.get "expiration_date") db1
      else (.ok (), db1)
    match milestones with
    | (.error e, db2) => (.error e, db2)
    | (.ok _, db2) =>
      match logAudit env contractId (JVal.str "CREATE")
          ((contractData.get "created_by").or (JVal.str "system"))
          ⟨"contract_created", some contractData, none⟩ db2 with
      | (.error e, db3) => (.error e, db3)
      | (.ok _, db3) => (.ok rows.head?, db3)

/-- The state of the loop `Object.keys(updateData).forEach(...)` of `update`. -/
structure UpdateAcc where
  fields : List SetItem
  values : List JVal
  paramCount : Nat
  deriving DecidableEq, Repr

/-- One turn of the loop of `update`, for the key `p.1` with value `p.2`. -/
def updateStep (acc : UpdateAcc) (p : String × JVal) : UpdateAcc :=
  if p.1 ≠ "id" ∧ p.2 ≠ JVal.undefined then
    ⟨acc.fields ++ [⟨p.1, acc.paramCount + 1⟩], acc.values ++ [p.2], acc.paramCount + 1⟩
  else acc

/-- The loop of `update` over all keys of the patch. -/
def updateFields (updateData : Obj) : UpdateAcc :=
  updateData.foldl updateStep ⟨[], [], 0⟩

/-- The text of the query `update` sends; `Db.updateContracts` interprets it. -/
def updateQueryText (fields : List SetItem) (paramCount : Nat) : String :=
  "\n            UPDATE contracts \n            SET "
    ++ ", ".intercalate (fields.map SetItem.text)
    ++ ", updated_at = NOW()\n            WHERE id = $" ++ toString paramCount
    ++ "\n            RETURNING *\n        "

/-- The method `update(id, updateData, userId)`. -/
def update (env : Env) (id : JVal) (updateData : Obj) (userId : JVal) (db : Db) :
    Except Err (Option Row) × Db :=
  let acc := updateFields updateData
  if acc.fields.length = 0 then
    (.error (.error "No fields to update"), db)
  else
    let paramCount := acc.paramCount + 1
    let values := acc.values ++ [id]
    match db.updateContracts env acc.fields paramCount values with
    | (.error e, db1) => (.error e, db1)
    | (.ok rows, db1) =>
      match logAudit env id (JVal.str "UPDATE") (userId.or (JVal.str "system"))
          ⟨"contract_updated", none, some updateData⟩ db1 with
      | (.error e, db2) => (.error e, db2)
      | (.ok _, db2) => (.ok rows.head?, db2)

/-- The method `delete(id, userId)`. -/
def delete (env : Env) (id userId : JVal) (db : Db) : Except Err (Option Row) × Db :=
  match db.terminateContract env.now id with
  | (.error e, db1) => (.error e, db1)
  | (.ok rows, db1) =>
    match logAudit env id (JVal.str "DELETE") (userId.or (JVal.str "system"))
        ⟨"contract_terminated", none, none⟩ db1 with
    | (.error e, db2) => (.error e, db2)
    | (.ok _, db2) => (.ok rows.head?, db2)

/-! ## The store: queries -/

/-- One condition of a `WHERE` clause of `findAll`, with its placeholder. -/
inductive Cond where
  | status (param : Nat)
  | type (param : Nat)
  | search (param : Nat)
  deriving DecidableEq, Repr

/-- The text the code writes for a condition. -/
def Cond.text : Cond → String
  | .status n => "status = $" ++ toString n
  | .type n => "type = $" ++ toString n
  | .search n => "search_vector @@ plainto_tsquery('english', $" ++ toString n ++ ")"

/-- The placeholder of a condition. -/
def Cond.param : Cond → Nat
  | .status n => n
  | .type n => n
  | .search n => n

/-- Whether a row satisfies a condition; a comparison with `NULL` is never
true. -/
def Cond.holds (env : Env) (values : List JVal) (r : Row) : Cond → Bool
  | .status n =>
    match paramAt values n with
    | some v => v != JVal.null && r.get "status" == v
    | none => false
  | .type n =>
    match paramAt values n with
    | some v => v != JVal.null && r.get "type" == v
    | none => false
  | .search n =>
    match paramAt values n with
    | some v => v != JVal.null && env.ftsMatch r v
    | none => false

/-- The rows of `contracts` that satisfy every condition of a `WHERE` clause
(all rows when there is no condition). -/
def Db.matching (db : Db) (env : Env) (conds : List Cond) (values : List JVal) : List Row :=
  db.contracts.filter (fun r => conds.all (fun c => c.holds env values r))

/-- The statement `SELECT COUNT(*) as total FROM contracts <where>`. -/
def Db.countContracts (db : Db) (env : Env) (conds : List Cond) (values : List JVal) :
    Except Err Nat :=
  if conds.all (fun c => (paramAt values c.param).isSome) then
    .ok (db.matching env conds values).length
  else .error (.dbError "there is no parameter")

/-- The key a value sorts by (`NULL` and values without a time have none). -/
def JVal.sortKey : JVal → Option Int
  | .date t => some t
  | .num n => some n
  | _ => none

/-- The order of `ORDER BY ... ASC`: `NULL` counts as larger than any value. -/
def nullsLargeLe : Option Int → Option Int → Bool
  | _, none => true
  | none, some _ => false
  | some a, some b => decide (a ≤ b)

/-- A contract row as a `SELECT *, EXTRACT(EPOCH FROM (expiration_date -
CURRENT_DATE)) / 86400 as days_until_expiry` returns it. -/
structure ContractView where
  row : Row
  days_until_expiry : Option Rat
  deriving DecidableEq, Repr

/-- The computed column `days_until_expiry`: seconds between `CURRENT_DATE`
and the expiration date, divided by 86400; `NULL` without an expiration date. -/
def daysUntilExpiry (env : Env) (r : Row) : Option Rat :=
  match r.get "expiration_date" with
  | .date t => some ((((t - env.today : Int) : Rat) / 1000) / 86400)
  | _ => none

/-- The select list of the contract queries applied to one row. -/
def ContractView.ofRow (env : Env) (r : Row) : ContractView := ⟨r, daysUntilExpiry env r⟩

/-- The rows in the order of `ORDER BY created_at DESC`. -/
def orderByCreatedDesc (rows : List Row) : List Row :=
  rows.insertionSort
    (fun a b => nullsLargeLe (b.get "created_at").sortKey (a.get "created_at").sortKey = true)

/-- The statement `SELECT *, ... FROM contracts <where> ORDER BY created_at
DESC LIMIT $<limitParam> OFFSET $<offsetParam>`; a negative `LIMIT` or
`OFFSET` is rejected. -/
def Db.selectContracts (db : Db) (env : Env) (conds : List Cond) (limitParam offsetParam : Nat)
    (values : List JVal) : Except Err (List ContractView) :=
  if conds.all (fun c => (paramAt values c.param).isSome) then
    match paramAt values limitParam, paramAt values offsetParam with
    | some (.num l), some (.num o) =>
      if l < 0 then .error (.dbError "LIMIT must not be negative")
      else if o < 0 then .error (.dbError "OFFSET must not be negative")
      else .ok ((((orderByCreatedDesc (db.matching env conds values)).drop o.toNat).take
        l.toNat).map (ContractView.ofRow env))
    | _, _ => .error (.dbError "invalid input syntax for type bigint")
  else .error (.dbError "there is no parameter")

/-- The statement `SELECT *, ... FROM contracts WHERE id = $1`. -/
def Db.contractById (db : Db) (env : Env) (id : JVal) : List ContractView :=
  (db.contracts.filter
    (fun r => prepareValue id != JVal.null && r.get "id" == prepareValue id)).map
    (ContractView.ofRow env)

/-- The statement `SELECT * FROM contract_milestones WHERE contract_id = $1
ORDER BY due_date ASC`. -/
def Db.milestonesOf (db : Db) (id : JVal) : List Milestone :=
  (db.contract_milestones.filter
    (fun m => prepareValue id != JVal.null && m.contract_id == prepareValue id)).insertionSort
    (fun a b => nullsLargeLe a.due_date.sortKey b.due_date.sortKey = true)

/-- The statement `SELECT * FROM audit_logs WHERE contract_id = $1 ORDER BY
created_at DESC LIMIT 10`. -/
def Db.auditOf (db : Db) (id : JVal) : List AuditEntry :=
  ((db.audit_logs.filter
    (fun e => prepareValue id != JVal.null && e.contract_id == prepareValue id)).insertionSort
    (fun a b => b.created_at ≤ a.created_at)).take 10

/-! ## `ContractModel`: queries -/

/-- The state `findAll` builds while it looks at its filters. -/
structure FindAcc where
  whereClauses : List Cond
  values : List JVal
  paramCount : Nat
  deriving DecidableEq, Repr

/-- The three blocks `if (filter) { paramCount++; whereClauses.push(...);
values.push(filter) }` of `findAll`. -/
def findAllFilters (status type search : JVal) : FindAcc :=
  let a0 : FindAcc := ⟨[], [], 0⟩
  let a1 : FindAcc :=
    if status.truthy then
      ⟨a0.whereClauses ++ [Cond.status (a0.paramCount + 1)], a0.values ++ [status],
        a0.paramCount + 1⟩
    else a0
  let a2 : FindAcc :=
    if type.truthy then
      ⟨a1.whereClauses ++ [Cond.type (a1.paramCount + 1)], a1.values ++ [type],
        a1.paramCount + 1⟩
    else a1
  if search.truthy then
    ⟨a2.whereClauses ++ [Cond.search (a2.paramCount + 1)], a2.values ++ [search],
      a2.paramCount + 1⟩
  else a2

/-- The string `whereClause` of `findAll`. -/
def whereClauseText (whereClauses : List Cond) : String :=
  if whereClauses.length > 0 then "WHERE " ++ " AND ".intercalate (whereClauses.map Cond.text)
  else ""

/-- The string `countQuery` of `findAll`; `Db.countContracts` interprets it. -/
def countQueryText (whereClauses : List Cond) : String :=
  "\n            SELECT COUNT(*) as total \n            FROM contracts \n            "
    ++ whereClauseText whereClauses ++ "\n        "

/-- The string `dataQuery` of `findAll`; `Db.selectContracts` interprets it. -/
def dataQueryText (whereClauses : List Cond) (paramCount : Nat) : String :=
  "\n            SELECT *,\n            EXTRACT(EPOCH FROM (expiration_date - CURRENT_DATE)) / 86400 as days_until_expiry\n            FROM contracts \n            "
    ++ whereClauseText whereClauses
    ++ "\n            ORDER BY created_at DESC\n            LIMIT $" ++ toString (paramCount + 1)
    ++ " OFFSET $" ++ toString (paramCount + 2) ++ "\n        "

/-- The `pagination` object `findAll` returns; `totalPages` is `none` when
the quotient `total / limit` is not a finite number. -/
structure Pagination where
  page : Int
  limit : Int
  total : Int
  totalPages : Option Int
  deriving DecidableEq, Repr

/-- What `findAll` returns. -/
structure FindAllResult where
  contracts : List ContractView
  pagination : Pagination
  deriving DecidableEq, Repr

/-- The expression `Math.ceil(total / limit)`. -/
def totalPagesOf (total : Nat) (limit : Int) : Option Int :=
  if limit = 0 then none else some (Int.ceil ((total : Rat) / (limit : Rat)))

/-- The method `findAll({ page = 1, limit = 20, status, type, search })`;
`none` is an omitted `page` or `limit`. -/
def findAll (env : Env) (page limit : Option Int) (status type search : JVal) (db : Db) :
    Except Err FindAllResult × Db :=
  let page := page.getD 1
  let limit := limit.getD 20
  let offset := (page - 1) * limit
  let acc := findAllFilters status type search
  let values := acc.values ++ [JVal.num limit, JVal.num offset]
  match db.countContracts env acc.whereClauses (values.take acc.paramCount),
      db.selectContracts env acc.whereClauses (acc.paramCount + 1) (acc.paramCount + 2)
        values with
  | .ok total, .ok rows =>
    (.ok ⟨rows, ⟨page, limit, total, totalPagesOf total limit⟩⟩, db)
  | .error e, _ => (.error e, db)
  | _, .error e => (.error e, db)

/-- What `findById` returns when the contract exists: the row with
`milestones` and `audit_logs` attached. -/
structure ContractDetail where
  row : Row
  days_until_expiry : Option Rat
  milestones : List Milestone
  audit_logs : List AuditEntry
  deriving DecidableEq, Repr

/-- The method `findById(id)`; `none` is the JavaScript `null`. -/
def findById (env : Env) (id : JVal) (db : Db) : Except Err (Option ContractDetail) × Db :=
  let contractResult := db.contractById env id
  let milestonesResult := db.milestonesOf id
  let auditResult := db.auditOf id
  match contractResult with
  | [] => (.ok none, db)
  | contract :: _ =>
    (.ok (some ⟨contract.row, contract.days_until_expiry, milestonesResult, auditResult⟩), db)

/-- The whole number a text is the decimal numeral of: an optional minus
sign and digits. -/
def wholeNumber (text : String) : Option Int :=
  let value : List Char → Nat := fun ds => ds.foldl (fun acc d => acc * 10 + (d.toNat - 48)) 0
  match text.data with
  | '-' :: ds =>
    if !ds.isEmpty && ds.all Char.isDigit then some (-(value ds : Int)) else none
  | ds => if !ds.isEmpty && ds.all Char.isDigit then some (value ds : Int) else none

/-- The whole number of days a parameter stands for in `$1 * INTERVAL '1
day'`: a number (numbers are whole numbers here), or a text that is the
numeral of one. -/
def daysParam : JVal → Option Int
  | .num n => some n
  | .str s => wholeNumber s
  | _ => none

/-- The condition `status = 'active' AND expiration_date BETWEEN CURRENT_DATE
AND CURRENT_DATE + days * INTERVAL '1 day'` on a row; it is not true of a row
without an expiration date. -/
def expiresWithin (env : Env) (days : Int) (r : Row) : Bool :=
  r.get "status" == JVal.str "active"
    && match r.get "expiration_date" with
      | .date t => decide (env.today ≤ t) && decide (t ≤ env.today + days * 86400000)
      | _ => false

/-- The same condition when the interval is given by its length in
milliseconds. -/
def expiresBy (env : Env) (interval : Rat) (r : Row) : Bool :=
  r.get "status" == JVal.str "active"
    && match r.get "expiration_date" with
      | .date t => decide (env.today ≤ t) && decide ((t : Rat) ≤ (env.today : Rat) + interval)
      | _ => false

/-- The rows in the order of `ORDER BY expiration_date ASC`. -/
def orderByExpirationAsc (rows : List Row) : List Row :=
  rows.insertionSort
    (fun a b =>
      nullsLargeLe (a.get "expiration_date").sortKey (b.get "expiration_date").sortKey = true)

/-- The statement `SELECT *, ... as days_until_expiry FROM contracts WHERE
status = 'active' AND expiration_date BETWEEN CURRENT_DATE AND CURRENT_DATE +
$1 * INTERVAL '1 day' ORDER BY expiration_date ASC`; with `NULL` for `$1` no
row qualifies; a text that is no whole number is read by PostgreSQL
(`env.daysInterval`), and a parameter that is no number is rejected. -/
def Db.selectExpiring (db : Db) (env : Env) (values : List JVal) :
    Except Err (List ContractView) :=
  match paramAt values 1 with
  | none => .error (.dbError "there is no parameter")
  | some .null => .ok []
  | some v =>
    match daysParam v with
    | some days =>
      .ok ((orderByExpirationAsc (db.contracts.filter (expiresWithin env days))).map
        (ContractView.ofRow env))
    | none =>
      match v with
      | .str s =>
        match env.daysInterval s with
        | some interval =>
          .ok ((orderByExpirationAsc (db.contracts.filter (expiresBy env interval))).map
            (ContractView.ofRow env))
        | none => .error (.dbError "invalid input syntax for type double precision")
      | _ => .error (.dbError "invalid input syntax for type double precision")

/-- The method `getExpiringSoon(days = 30)`; `undefined` is an omitted
argument. -/
def getExpiringSoon (env : Env) (days : JVal) (db : Db) :
    Except Err (List ContractView) × Db :=
  let days := if days = JVal.undefined then JVal.num 30 else days
  match db.selectExpiring env [days] with
  | .ok rows => (.ok rows, db)
  | .error e => (.error e, db)

/-- The rows of `SELECT col, COUNT(*) FROM contracts GROUP BY col`: each value
of the column, `NULL` included, with the number of rows that have it. -/
def groupCount (values : List JVal) : List (JVal × Nat) :=
  values.dedup.map (fun v => (v, values.count v))

/-- What `getDashboardStats` returns. -/
structure DashboardStats where
  total : Int
  active : Int
  expiringSoon : Int
  byType : List (JVal × Nat)
  byStatus : List (JVal × Nat)
  deriving DecidableEq, Repr

/-- The method `getDashboardStats()`: the five queries `total`, `active`,
`expiringSoon`, `byType` and `byStatus`, none of which takes a parameter. -/
def getDashboardStats (env : Env) (db : Db) : Except Err DashboardStats × Db :=
  let total : Nat := db.contracts.length
  let active : Nat := (db.contracts.filter (fun r => r.get "status" == JVal.str "active")).length
  let expiringSoon : Nat := (db.contracts.filter (expiresWithin env 30)).length
  let byType := groupCount (db.contracts.map (fun r => prepareValue (r.get "type")))
  let byStatus := groupCount (db.contracts.map (fun r => prepareValue (r.get "status")))
  (.ok ⟨total, active, expiringSoon, byType, byStatus⟩, db)

/-! ## The queries as `db.query` receives them -/

/-- A call `db.query(text, values)`. -/
structure Query where
  text : String
  values : List JVal
  deriving DecidableEq, Repr

/-- The two calls `db.query(countQuery, values.slice(0, paramCount))` and
`db.query(dataQuery, values)` of `findAll`. -/
def findAllQueries (page limit : Option Int) (status type search : JVal) : Query × Query :=
  let page := page.getD 1
  let limit := limit.getD 20
  let offset := (page - 1) * limit
  let acc := findAllFilters status type search
  let values := acc.values ++ [JVal.num limit, JVal.num offset]
  (⟨countQueryText acc.whereClauses, values.take acc.paramCount⟩,
   ⟨dataQueryText acc.whereClauses acc.paramCount, values⟩)

/-- The call `db.query(query, values)` of `update`; `none` when `update`
throws before it has a query. -/
def updateQuery (id : JVal) (updateData : Obj) : Option Query :=
  let acc := updateFields updateData
  if acc.fields.length = 0 then none
  else some ⟨updateQueryText acc.fields (acc.paramCount + 1), acc.values ++ [id]⟩

/-- The formula `floor(1000 + 9000 * r)` for a draw `r`, in exact
arithmetic. -/
def randomSuffix (r : Rat) : Int := Int.floor (1000 + r * 9000)

/-! ## The route `POST /api/contracts` -/

/-- One entry of the `errors` array of a failed validation. -/
structure ValidationError where
  path : String
  msg : String
  deriving DecidableEq, Repr

/-- The string the validators of `express-validator` look at (a JSON body
holds no `Date`; one is given by its time value here); an array is its
elements joined by commas. -/
def validatorString : JVal → String
  | .undefined => ""
  | .null => ""
  | .bool b => if b then "true" else "false"
  | .num n => toString n
  | .str s => s
  | .date t => toString t
  | .strs xs => ",".intercalate xs

/-- The values a standard validator of `express-validator` is run on: the
elements of an array, each by itself, and any other value as it is. -/
def validatedValues : JVal → List JVal
  | .strs xs => xs.map JVal.str
  | v => [v]

/-- The chain `body(path).notEmpty().withMessage(msg)`: one error for each
value that is empty. -/
def checkNotEmpty (body : Obj) (path msg : String) : List ValidationError :=
  ((validatedValues (body.get path)).filter (fun v => validatorString v = "")).map
    (fun _ => ⟨path, msg⟩)

/-- The chain `body(path).optional().isDate().withMessage(msg)`: a field that
is `undefined` is skipped; `isDate` is the library predicate on strings; one
error for each value that is no date. -/
def checkOptionalDate (isDate : String → Bool) (body : Obj) (path msg : String) :
    List ValidationError :=
  if body.get path = JVal.undefined then []
  else
    ((validatedValues (body.get path)).filter (fun v => !isDate (validatorString v))).map
      (fun _ => ⟨path, msg⟩)

/-- The middleware list `validateContract` run on a request body. -/
def validateContract (isDate : String → Bool) (body : Obj) : List ValidationError :=
  checkNotEmpty body "title" "Title is required"
    ++ checkNotEmpty body "counterparty_name" "Counterparty name is required"
    ++ checkNotEmpty body "owner_user_id" "Owner is required"
    ++ checkNotEmpty body "type" "Contract type is required"
    ++ checkOptionalDate isDate body "effective_date" "Invalid effective date"
    ++ checkOptionalDate isDate body "expiration_date" "Invalid expiration date"

/-- The JSON body of a response, by its shape: `errors` is `{errors}`,
`created` is `{success: true, data, message}`, `failure` is `{success: false,
error}`, `page` is `{success: true, data, pagination}`, `stats`, `contracts`,
`contract` and `row` are `{success: true, data}`, `message` is `{success:
true, message}`, `health` and `unhealthy` are the bodies of `/health`,
`apiDocs` the body of `/api-docs`, and `notFound` is `{success: false, error}`
with or without `availableRoutes`, and `failureWith` is `{success: false,
error}` with or without `details`; `csv` is a body that is no JSON but the
text `res.send` is given. -/
inductive ResBody where
  | errors (errors : List ValidationError)
  | created (data : Option Row) (message : String)
  | failure (error : String)
  | page (data : List ContractView) (pagination : Pagination)
  | stats (data : DashboardStats)
  | contracts (data : List ContractView)
  | contract (data : ContractDetail)
  | row (data : Row)
  | message (message : String)
  | health (status : String) (timestamp : Int) (database : String) (version : String)
      (error : Option String)
  | unhealthy (timestamp : Int) (error : String)
  | apiDocs
  | notFound (error : String) (availableRoutes : Option (List String))
  | failureWith (error : String) (details : Option String)
  | csv (text : String)
  deriving DecidableEq, Repr

/-- An HTTP response: status code and JSON body. -/
structure Response where
  status : Nat
  body : ResBody
  deriving DecidableEq, Repr

/-- The handler of `router.post('/', validateContract, ...)`; `xUserId` is
the header `x-user-id` (`undefined` when the request has none). -/
def postContract (isDate : String → Bool) (env : Env) (xUserId : JVal) (body : Obj) (db : Db) :
    Response × Db :=
  let errors := validateContract isDate body
  if ¬ errors.isEmpty then (⟨400, .errors errors⟩, db)
  else
    let userId := xUserId.or (JVal.str "anonymous")
    match create env (body.set "created_by" userId) db with
    | (.ok contract, db1) => (⟨201, .created contract "Contract created successfully"⟩, db1)
    | (.error _, db1) => (⟨500, .failure "Failed to create contract"⟩, db1)

/-! ## Requests, routes and the contract routes of `contractRoutes.js`

A request is what the handlers read of it.  Middleware that answers by
itself before the routes are tried (CORS, the rate limiter) is not part of the
model, and neither is the `OPTIONS` method, which Express answers without a
handler. -/

/-- The top-level fields of the JSON body as it is sent: a field whose value
is `undefined` is left out by `JSON.stringify`. -/
def ResBody.fields : ResBody → List String
  | .errors _ => ["errors"]
  | .created data _ => ["success"] ++ (if data.isSome then ["data"] else []) ++ ["message"]
  | .failure _ => ["success", "error"]
  | .page _ _ => ["success", "data", "pagination"]
  | .stats _ => ["success", "data"]
  | .contracts _ => ["success", "data"]
  | .contract _ => ["success", "data"]
  | .row _ => ["success", "data"]
  | .message _ => ["success", "message"]
  | .health _ _ _ _ error =>
    ["status", "timestamp", "database", "version"] ++ (if error.isSome then ["error"] else [])
  | .unhealthy _ _ => ["status", "timestamp", "error"]
  | .apiDocs => ["message", "endpoints", "version"]
  | .notFound _ availableRoutes =>
    ["success", "error"] ++ (if availableRoutes.isSome then ["availableRoutes"] else [])
  | .failureWith _ details =>
    ["success", "error"] ++ (if details.isSome then ["details"] else [])
  | .csv _ => []

/-- The value of the field `success` of the body, when it has one. -/
def ResBody.success : ResBody → Option Bool
  | .errors _ => none
  | .created _ _ => some true
  | .failure _ => some false
  | .page _ _ => some true
  | .stats _ => some true
  | .contracts _ => some true
  | .contract _ => some true
  | .row _ => some true
  | .message _ => some true
  | .health _ _ _ _ _ => none
  | .unhealthy _ _ => none
  | .apiDocs => none
  | .notFound _ _ => some false
  | .failureWith _ _ => some false
  | .csv _ => none

/-- The value of the field `error` of the body, when it has one. -/
def ResBody.error : ResBody → Option String
  | .failure error => some error
  | .health _ _ _ _ error => error
  | .unhealthy _ error => some error
  | .notFound error _ => some error
  | .failureWith error _ => some error
  | _ => none

/-- The property `message` of a thrown error. -/
def Err.message : Err → String
  | .typeError msg => msg
  | .error msg => msg
  | .dbError msg => msg

/-- The request methods that reach a handler. -/
inductive Method where
  | GET
  | HEAD
  | POST
  | PUT
  | DELETE
  | PATCH
  deriving DecidableEq, Repr

/-- An HTTP request: method, the segments of the path, `req.query`, the
header `x-user-id` (`undefined` without one), `req.body`, and the error the
body parser raises when it cannot read the body. -/
structure Request where
  method : Method
  path : List String
  query : Obj
  xUserId : JVal
  body : Obj
  parseError : Option Err

/-- A handler: the response, and the database as the handler leaves it. -/
abbrev Handler := Request → Db → Response × Db

/-- A segment of a route path: a fixed word or a parameter such as `:id`. -/
inductive Seg where
  | lit (s : String)
  | param
  deriving DecidableEq, Repr

/-- A registered route: `app.get(path, ...)`, `router.post(path, ...)`, ... -/
structure Route where
  method : Method
  pattern : List Seg
  deriving DecidableEq, Repr

/-- Whether a path segment fits a route segment; fixed words are compared
without regard to case. -/
def Seg.fits : Seg → String → Bool
  | .lit s, x => s.data.map Char.toLower == x.data.map Char.toLower
  | .param, x => x != ""

/-- Whether the segments of a path fit a route path, one by one. -/
def fitsAll : List Seg → List String → Bool
  | [], [] => true
  | sg :: segs, x :: xs => sg.fits x && fitsAll segs xs
  | _, _ => false

/-- Whether a route takes a request: the method is that of the route (a `GET`
route takes `HEAD` too) and the path fits. -/
def Route.takes (r : Route) (method : Method) (path : List String) : Bool :=
  (r.method == method || (r.method == Method.GET && method == Method.HEAD))
    && fitsAll r.pattern path

/-- The position of the first registered route that takes the request. -/
def firstMatch (routes : List Route) (method : Method) (path : List String) : Option Nat :=
  routes.findIdx? (fun r => r.takes method path)

/-- An application: the routes in the order of registration with their
handlers, and the handler `app.use('*', ...)` registered after them. -/
def serve (routes : List Route) (handlers : Nat → Handler) (fallback : Handler) : Handler :=
  fun req db =>
    match firstMatch routes req.method req.path with
    | some i => handlers i req db
    | none => fallback req db

/-- The functions of `express-validator` the routes use: `isDate`, `isUUID`,
`isInt` with its bounds `min` and `max`, and the sanitizer `toInt`. -/
structure Lib where
  isDate : String → Bool
  isUUID : String → Bool
  isInt : Option Int → Option Int → String → Bool
  toInt : String → Int

/-- The methods of `ContractModel` the routes call; whatever makes a call fail
shows as a thrown error. -/
structure Repo where
  findAll : Option Int → Option Int → JVal → JVal → JVal → Db → Except Err FindAllResult × Db
  getDashboardStats : Db → Except Err DashboardStats × Db
  getExpiringSoon : JVal → Db → Except Err (List ContractView) × Db
  findById : JVal → Db → Except Err (Option ContractDetail) × Db
  create : Obj → Db → Except Err (Option Row) × Db
  update : JVal → Obj → JVal → Db → Except Err (Option Row) × Db
  delete : JVal → JVal → Db → Except Err (Option Row) × Db

/-- The module `ContractModel` itself. -/
def contractModel (env : Env) : Repo :=
  ⟨findAll env, getDashboardStats env, getExpiringSoon env, findById env, create env,
    update env, delete env⟩

/-- The chain `query(path).optional().isInt({min, max})`: one error for each
value that is no such integer. -/
def checkOptionalInt (lib : Lib) (query : Obj) (path : String) (min max : Option Int) :
    List ValidationError :=
  if query.get path = JVal.undefined then []
  else
    ((validatedValues (query.get path)).filter
      (fun v => !lib.isInt min max (validatorString v))).map (fun _ => ⟨path, "Invalid value"⟩)

/-- The chain `query(path).optional().isString()`. -/
def checkOptionalString (query : Obj) (path : String) : List ValidationError :=
  match query.get path with
  | .undefined => []
  | .str _ => []
  | _ => [⟨path, "Invalid value"⟩]

/-- A query parameter after the sanitizer `toInt()`; `none` when the request
has no such parameter. -/
def sanitizedInt (lib : Lib) (query : Obj) (path : String) : Option Int :=
  if query.get path = JVal.undefined then none
  else some (lib.toInt (validatorString (query.get path)))

/-- The chain `param('id').isUUID().withMessage('Invalid contract ID')`. -/
def checkId (lib : Lib) (id : String) : List ValidationError :=
  if lib.isUUID id then [] else [⟨"id", "Invalid contract ID"⟩]

/-- The handler of `router.get('/', ...)`. -/
def routeList (lib : Lib) (repo : Repo) : Handler := fun req db =>
  let errors := checkOptionalInt lib req.query "page" (some 1) none
    ++ checkOptionalInt lib req.query "limit" (some 1) (some 100)
    ++ checkOptionalString req.query "status"
    ++ checkOptionalString req.query "type"
    ++ checkOptionalString req.query "search"
  if ¬ errors.isEmpty then (⟨400, .errors errors⟩, db)
  else
    match repo.findAll (sanitizedInt lib req.query "page") (sanitizedInt lib req.query "limit")
        (req.query.get "status") (req.query.get "type") (req.query.get "search") db with
    | (.ok result, db1) => (⟨200, .page result.contracts result.pagination⟩, db1)
    | (.error _, db1) => (⟨500, .failure "Failed to fetch contracts"⟩, db1)

/-- The handler of `router.get('/stats', ...)`. -/
def routeStats (repo : Repo) : Handler := fun _ db =>
  match repo.getDashboardStats db with
  | (.ok stats, db1) => (⟨200, .stats stats⟩, db1)
  | (.error _, db1) => (⟨500, .failure "Failed to fetch statistics"⟩, db1)

/-- The handler of `router.get('/expiring-soon', ...)`. -/
def routeExpiring (repo : Repo) : Handler := fun req db =>
  let days := (req.query.get "days").or (JVal.num 30)
  match repo.getExpiringSoon days db with
  | (.ok contracts, db1) => (⟨200, .contracts contracts⟩, db1)
  | (.error _, db1) => (⟨500, .failure "Failed to fetch expiring contracts"⟩, db1)

/-- The handler of `router.get('/:id', ...)`; `id` is `req.params.id`. -/
def routeGetById (lib : Lib) (repo : Repo) (id : String) : Handler := fun _ db =>
  let errors := checkId lib id
  if ¬ errors.isEmpty then (⟨400, .errors errors⟩, db)
  else
    match repo.findById (JVal.str id) db with
    | (.ok (some contract), db1) => (⟨200, .contract contract⟩, db1)
    | (.ok none, db1) => (⟨404, .failure "Contract not found"⟩, db1)
    | (.error _, db1) => (⟨500, .failure "Failed to fetch contract"⟩, db1)

/-- The handler of `router.post('/', validateContract, ...)`. -/
def routePost (lib : Lib) (repo : Repo) : Handler := fun req db =>
  let errors := validateContract lib.isDate req.body
  if ¬ errors.isEmpty then (⟨400, .errors errors⟩, db)
  else
    let userId := req.xUserId.or (JVal.str "anonymous")
    match repo.create (req.body.set "created_by" userId) db with
    | (.ok contract, db1) => (⟨201, .created contract "Contract created successfully"⟩, db1)
    | (.error _, db1) => (⟨500, .failure "Failed to create contract"⟩, db1)

/-- The handler of `router.put('/:id', ...)`. -/
def routePut (lib : Lib) (repo : Repo) (id : String) : Handler := fun req db =>
  let errors := checkId lib id
  if ¬ errors.isEmpty then (⟨400, .errors errors⟩, db)
  else
    let userId := req.xUserId.or (JVal.str "anonymous")
    match repo.update (JVal.str id) req.body userId db with
    | (.ok (some updatedContract), db1) =>
      (⟨200, .created (some updatedContract) "Contract updated successfully"⟩, db1)
    | (.ok none, db1) => (⟨404, .failure "Contract not found"⟩, db1)
    | (.error _, db1) => (⟨500, .failure "Failed to update contract"⟩, db1)

/-- The handler of `router.delete('/:id', ...)`. -/
def routeDelete (lib : Lib) (repo : Repo) (id : String) : Handler := fun req db =>
  let errors := checkId lib id
  if ¬ errors.isEmpty then (⟨400, .errors errors⟩, db)
  else
    let userId := req.xUserId.or (JVal.str "anonymous")
    match repo.delete (JVal.str id) userId db with
    | (.ok (some _), db1) => (⟨200, .message "Contract terminated successfully"⟩, db1)
    | (.ok none, db1) => (⟨404, .failure "Contract not found"⟩, db1)
    | (.error _, db1) => (⟨500, .failure "Failed to delete contract"⟩, db1)

/-! ## The modular server (`app.js`) -/

/-- The method `healthCheck()` of `utils/db.js`: `healthy`, and the message of
the error when the probe `SELECT 1` throws; `ping` is the outcome of the
probe. -/
def healthCheck (ping : Except Err Unit) : Bool × Option String :=
  match ping with
  | .ok _ => (true, none)
  | .error e => (false, some e.message)

/-- The handler of `app.get('/health', ...)`; `now` is the clock. -/
def routeHealth (ping : Except Err Unit) (now : Int) : Handler := fun _ db =>
  let dbHealth := healthCheck ping
  (⟨200, .health "healthy" now (if dbHealth.1 then "connected" else "disconnected") "1.0.0"
    dbHealth.2⟩, db)

/-- The handler of `app.get('/api-docs', ...)`. -/
def routeApiDocs : Handler := fun _ db => (⟨200, .apiDocs⟩, db)

/-- The 404 handler `app.use('*', ...)` of `app.js`. -/
def notFoundModular : Handler := fun _ db => (⟨404, .notFound "Route not found" none⟩, db)

/-- The error handler `app.use((err, req, res, next) => ...)` of `app.js`;
`nodeEnv` is `process.env.NODE_ENV`. -/
def errorHandler (nodeEnv : JVal) (err : Err) : Response :=
  ⟨500, .failure (if nodeEnv = JVal.str "development" then err.message
    else "Internal server error")⟩

/-- The routes of the modular server in the order of registration: `/health`,
`/api-docs`, then the contract routes mounted at `/api/contracts`. -/
def modularRoutes : List Route :=
  [⟨.GET, [.lit "health"]⟩,
   ⟨.GET, [.lit "api-docs"]⟩,
   ⟨.GET, [.lit "api", .lit "contracts"]⟩,
   ⟨.GET, [.lit "api", .lit "contracts", .lit "stats"]⟩,
   ⟨.GET, [.lit "api", .lit "contracts", .lit "expiring-soon"]⟩,
   ⟨.GET, [.lit "api", .lit "contracts", .param]⟩,
   ⟨.POST, [.lit "api", .lit "contracts"]⟩,
   ⟨.PUT, [.lit "api", .lit "contracts", .param]⟩,
   ⟨.DELETE, [.lit "api", .lit "contracts", .param]⟩]

/-- The handlers of the contract routes, by their position in
`modularRoutes`; the parameter `:id` is the last segment of the path. -/
def contractHandlers (lib : Lib) (repo : Repo) : Nat → Handler
  | 2 => routeList lib repo
  | 3 => routeStats repo
  | 4 => routeExpiring repo
  | 5 => fun req => routeGetById lib repo (req.path.getLastD "") req
  | 6 => routePost lib repo
  | 7 => fun req => routePut lib repo (req.path.getLastD "") req
  | 8 => fun req => routeDelete lib repo (req.path.getLastD "") req
  | _ => notFoundModular

/-- The handlers of `modularRoutes`, by position. -/
def modularHandlers (lib : Lib) (repo : Repo) (ping : Except Err Unit) (now : Int) :
    Nat → Handler
  | 0 => routeHealth ping now
  | 1 => routeApiDocs
  | i => contractHandlers lib repo i

/-- The modular server: a request whose body the parser cannot read goes to
the error handler, any other request to the first route that takes it, and
to the 404 handler when none does. -/
def modularServer (lib : Lib) (repo : Repo) (ping : Except Err Unit) (nodeEnv : JVal)
    (now : Int) : Handler := fun req db =>
  match req.parseError with
  | some err => (errorHandler nodeEnv err, db)
  | none => serve modularRoutes (modularHandlers lib repo ping now) notFoundModular req db

/-- The contract routes of `contractRoutes.js` alone: the response of the
route that takes the request, `none` when the request is not for one of
them. -/
def contractRouter (lib : Lib) (repo : Repo) (req : Request) (db : Db) :
    Option (Response × Db) :=
  match firstMatch modularRoutes req.method req.path with
  | none => none
  | some 0 => none
  | some 1 => none
  | some i => some (contractHandlers lib repo i req db)

/-! ## `complete-server.js` and `minimal-server.js` -/

/-- A destructuring default such as `status = 'draft'`: the default stands in
for `undefined` only. -/
def JVal.orDefault (v d : JVal) : JVal := if v = JVal.undefined then d else v

/-- The columns of `contracts` in the database of `complete-server.js` and
`minimal-server.js` (port 5433), as `test-db.js` creates the table; `id` is
`SERIAL`, an integer the database numbers the rows with. -/
def legacyColumns : List String :=
  ["id", "contract_number", "title", "description", "counterparty_name",
   "counterparty_email", "owner_user_id", "status", "type", "effective_date",
   "expiration_date", "contract_value", "currency", "document_url", "created_at",
   "updated_at"]

/-- The characters the input functions of PostgreSQL skip as blanks. -/
def isBlank (ch : Char) : Bool :=
  ch == ' ' || ch.toNat == 9 || ch.toNat == 10 || ch.toNat == 11 || ch.toNat == 12
    || ch.toNat == 13

/-- The number PostgreSQL reads a parameter for an `integer` column as: blanks,
an optional sign, decimal digits, blanks give the number, when it is within
the range of `integer`; a text that does not begin with a digit after the
blanks and the sign is rejected; what is made of any other text depends on
the version (`env.integerText`).  With `none` the statement fails with
`invalid input syntax` or `out of range`. -/
def pgInteger (env : Env) (text : String) : Option Int :=
  let body := ((text.data.dropWhile isBlank).reverse.dropWhile isBlank).reverse
  let signed : Bool × List Char :=
    match body with
    | '-' :: rest => (true, rest)
    | '+' :: rest => (false, rest)
    | rest => (false, rest)
  match signed.2 with
  | [] => none
  | first :: _ =>
    if signed.2.all Char.isDigit then
      let v : Nat := signed.2.foldl (fun acc d => acc * 10 + (d.toNat - 48)) 0
      let n : Int := if signed.1 then -(v : Int) else (v : Int)
      if -2147483648 ≤ n ∧ n ≤ 2147483647 then some n else none
    else if first.isDigit then env.integerText text
    else none

/-- The statement `INSERT INTO contracts (<columns>) VALUES ($1, ...)
RETURNING *` in the database of `complete-server.js` and `minimal-server.js`:
the row is the one the database makes of the values (`env.legacyInsert`). -/
def Db.insertInto (db : Db) (env : Env) (columns : List String) (values : List JVal) :
    Except Err (List Row) × Db :=
  match env.legacyInsert columns (values.map prepareValue) db.contracts with
  | .error e => (.error e, db)
  | .ok row => (.ok [row], { db with contracts := db.contracts ++ [row] })

/-- The statement `SELECT * FROM contracts WHERE id = $1` in the database of
`complete-server.js`, where `id` is an integer: a parameter that does not read
as an integer makes the statement fail. -/
def Db.selectById (db : Db) (env : Env) (id : String) : Except Err (List Row) :=
  match pgInteger env id with
  | none => .error (.dbError "invalid input syntax for type integer")
  | some n => .ok (db.contracts.filter (fun r => r.get "id" == JVal.num n))

/-- The statement `UPDATE contracts SET status = 'terminated', updated_at =
NOW() WHERE id = $1 RETURNING *` in the database of `complete-server.js`,
where `id` is an integer. -/
def Db.terminateById (db : Db) (env : Env) (id : String) : Except Err (List Row) × Db :=
  match pgInteger env id with
  | none => (.error (.dbError "invalid input syntax for type integer"), db)
  | some n =>
    let upd : Row → Row := fun r =>
      (r.set "status" (JVal.str "terminated")).set "updated_at" (JVal.date env.now)
    let hit : Row → Bool := fun r => r.get "id" == JVal.num n
    (.ok ((db.contracts.filter hit).map upd),
     { db with contracts := db.contracts.map (fun r => if hit r then upd r else r) })

/-- The handler of `app.post('/api/contracts', ...)` of `complete-server.js`. -/
def completePost (env : Env) : Handler := fun req db =>
  let title := req.body.get "title"
  let counterparty_name := req.body.get "counterparty_name"
  let owner_user_id := req.body.get "owner_user_id"
  let description := req.body.get "description"
  let counterparty_email := req.body.get "counterparty_email"
  let status := (req.body.get "status").orDefault (JVal.str "draft")
  let type := (req.body.get "type").orDefault (JVal.str "Other")
  let effective_date := req.body.get "effective_date"
  let expiration_date := req.body.get "expiration_date"
  let contract_value := req.body.get "contract_value"
  let currency := (req.body.get "currency").orDefault (JVal.str "USD")
  if !title.truthy || !counterparty_name.truthy || !owner_user_id.truthy then
    (⟨400, .failure "Missing required fields: title, counterparty_name, owner_user_id"⟩, db)
  else
    let values := [
      title,
      description.or JVal.null,
      counterparty_name,
      counterparty_email.or JVal.null,
      owner_user_id,
      status,
      type,
      effective_date.or JVal.null,
      expiration_date.or JVal.null,
      contract_value.or JVal.null,
      currency
    ]
    match db.insertInto env
        ["title", "description", "counterparty_name", "counterparty_email", "owner_user_id",
         "status", "type", "effective_date", "expiration_date", "contract_value", "currency"]
        values with
    | (.ok rows, db1) => (⟨201, .created rows.head? "Contract created successfully"⟩, db1)
    | (.error _, db1) => (⟨500, .failure "Failed to create contract"⟩, db1)

/-- The handler of `app.get('/api/contracts/:id', ...)` of
`complete-server.js`. -/
def completeGetById (env : Env) (id : String) : Handler := fun _ db =>
  match db.selectById env id with
  | .ok [] => (⟨404, .failure "Contract not found"⟩, db)
  | .ok (row :: _) => (⟨200, .row row⟩, db)
  | .error _ => (⟨500, .failure "Failed to fetch contract"⟩, db)

/-- The handler of `app.delete('/api/contracts/:id', ...)` of
`complete-server.js`. -/
def completeDelete (env : Env) (id : String) : Handler := fun _ db =>
  match db.terminateById env id with
  | (.ok [], db1) => (⟨404, .failure "Contract not found"⟩, db1)
  | (.ok (row :: _), db1) => (⟨200, .created (some row) "Contract terminated successfully"⟩, db1)
  | (.error _, db1) => (⟨500, .failure "Failed to delete contract"⟩, db1)

/-- The 404 handler `app.use('*', ...)` of `complete-server.js`. -/
def notFoundComplete : Handler := fun _ db =>
  (⟨404, .notFound "Route not found" (some [
    "GET /health",
    "GET /api-docs",
    "GET /api/contracts",
    "GET /api/contracts/:id",
    "POST /api/contracts",
    "PUT /api/contracts/:id",
    "DELETE /api/contracts/:id",
    "GET /api/contracts/stats",
    "GET /api/contracts/search",
    "GET /api/contracts/filter",
    "GET /api/contracts/upcoming-reviews",
    "GET /api/contracts/export/csv",
    "GET /api/contracts/expiring-soon"])⟩, db)

/-- The routes of `complete-server.js` in the order of registration. -/
def completeRoutes : List Route :=
  [⟨.GET, [.lit "health"]⟩,
   ⟨.GET, [.lit "api", .lit "contracts"]⟩,
   ⟨.POST, [.lit "api", .lit "contracts"]⟩,
   ⟨.GET, [.lit "api", .lit "contracts", .lit "stats"]⟩,
   ⟨.GET, [.lit "api", .lit "contracts", .lit "expiring-soon"]⟩,
   ⟨.GET, [.lit "api", .lit "contracts", .lit "search"]⟩,
   ⟨.GET, [.lit "api", .lit "contracts", .lit "filter"]⟩,
   ⟨.GET, [.lit "api", .lit "contracts", .lit "upcoming-reviews"]⟩,
   ⟨.GET, [.lit "api", .lit "contracts", .lit "export", .lit "csv"]⟩,
   ⟨.PUT, [.lit "api", .lit "contracts", .param]⟩,
   ⟨.GET, [.lit "api", .lit "contracts", .param]⟩,
   ⟨.DELETE, [.lit "api", .lit "contracts", .param]⟩,
   ⟨.GET, [.lit "api-docs"]⟩]

/-- The handlers of `completeRoutes`, by position: the three given here, and
`others` for the remaining routes. -/
def completeHandlers (env : Env) (others : Nat → Handler) : Nat → Handler
  | 2 => completePost env
  | 10 => fun req => completeGetById env (req.path.getLastD "") req
  | 11 => fun req => completeDelete env (req.path.getLastD "") req
  | i => others i

/-- The server of `complete-server.js`. -/
def completeServer (env : Env) (others : Nat → Handler) : Handler :=
  serve completeRoutes (completeHandlers env others) notFoundComplete

/-- The handler of `app.post('/api/contracts', ...)` of `minimal-server.js`. -/
def minimalPost (env : Env) (nodeEnv : JVal) : Handler := fun req db =>
  let title := req.body.get "title"
  let counterparty_name := req.body.get "counterparty_name"
  let owner_user_id := req.body.get "owner_user_id"
  let type := (req.body.get "type").orDefault (JVal.str "Other")
  let status := (req.body.get "status").orDefault (JVal.str "draft")
  if !title.truthy || !counterparty_name.truthy || !owner_user_id.truthy then
    (⟨400, .failure "Missing required fields: title, counterparty_name, owner_user_id"⟩, db)
  else
    match db.insertInto env
        ["title", "counterparty_name", "owner_user_id", "type", "status"]
        [title, counterparty_name, owner_user_id, type, status] with
    | (.ok rows, db1) => (⟨201, .created rows.head? "Contract created successfully"⟩, db1)
    | (.error e, db1) =>
      (⟨500, .failureWith "Failed to create contract"
        (if nodeEnv = JVal.str "development" then some e.message else none)⟩, db1)

/-- The 404 handler `app.use('*', ...)` of `minimal-server.js`. -/
def notFoundMinimal : Handler := fun _ db =>
  (⟨404, .notFound "Route not found"
    (some ["/health", "/api/contracts", "/api/contracts/stats"])⟩, db)

/-- The routes of `minimal-server.js` in the order of registration. -/
def minimalRoutes : List Route :=
  [⟨.GET, [.lit "health"]⟩,
   ⟨.GET, [.lit "api", .lit "contracts"]⟩,
   ⟨.POST, [.lit "api", .lit "contracts"]⟩,
   ⟨.GET, [.lit "api", .lit "contracts", .lit "stats"]⟩]

/-- The handlers of `minimalRoutes`, by position: the one given here, and
`others` for the remaining routes. -/
def minimalHandlers (env : Env) (nodeEnv : JVal) (others : Nat → Handler) : Nat → Handler
  | 2 => minimalPost env nodeEnv
  | i => others i

/-- The server of `minimal-server.js`. -/
def minimalServer (env : Env) (nodeEnv : JVal) (others : Nat → Handler) : Handler :=
  serve minimalRoutes (minimalHandlers env nodeEnv others) notFoundMinimal

/-- The double quote character. -/
def quoteChar : Char := Char.ofNat 34

/-- The line feed character. -/
def newlineChar : Char := Char.ofNat 10

/-- The text `Array.prototype.join` writes for an element: nothing for
`undefined` and `null`, the string itself, and for any other value its
`toString()`; an array of strings is its elements joined by commas, and
`dateText` is `Date.prototype.toString` on a time value. -/
def joinText (dateText : Int → String) : JVal → String
  | .undefined => ""
  | .null => ""
  | .bool b => if b then "true" else "false"
  | .num n => toString n
  | .str s => s
  | .date t => dateText t
  | .strs xs => ",".intercalate xs

/-- The callback `value => typeof value === 'string' && value.includes(',') ?
"value" in double quotes : value` of the CSV export. -/
def csvValue : JVal → JVal
  | .str s =>
    if ',' ∈ s.data then .str (String.singleton quoteChar ++ s ++ String.singleton quoteChar)
    else .str s
  | v => v

/-- The string `csv` of the CSV export: `headers` are the keys of the first
row, `rows` the values of each row, quoted by `csvValue` and joined by commas;
all joined by line feeds. -/
def csvText (dateText : Int → String) (first : Row) (rows : List Row) : String :=
  let headers := ",".intercalate (first.map Prod.fst)
  let lines := rows.map (fun row =>
    ",".intercalate ((row.map Prod.snd).map (fun value => joinText dateText (csvValue value))))
  (String.singleton newlineChar).intercalate (headers :: lines)

/-- The handler of `app.get('/api/contracts/export/csv', ...)` of
`complete-server.js`; the statement is `SELECT * FROM contracts ORDER BY
created_at DESC`. -/
def completeExportCsv (dateText : Int → String) : Handler := fun _ db =>
  match orderByCreatedDesc db.contracts with
  | [] => (⟨404, .failure "No contracts to export"⟩, db)
  | first :: rest => (⟨200, .csv (csvText dateText first (first :: rest))⟩, db)

/-! ## The claims' own words -/

/-- The entries of a patch whose key is not `id` and whose value is defined. -/
def eligible (updateData : Obj) : Obj :=
  updateData.filter (fun p => decide (p.1 ≠ "id" ∧ p.2 ≠ JVal.undefined))

/-- The items `key = $(k+1)`, `key = $(k+2)`, ... for the entries of a list,
in the order of the list. -/
def numberFrom (k : Nat) : Obj → List SetItem
  | [] => []
  | p :: rest => ⟨p.1, k + 1⟩ :: numberFrom (k + 1) rest

/-- A patch with its keys as PostgreSQL reads plain identifiers: in lower
case. -/
def foldKeys (l : Obj) : Obj := l.map (fun p => (foldIdentifier p.1, p.2))

/-- The conjunction of the provided filters: a filter that is not provided
(its value is falsy) puts no condition on the row. -/
def filterSpec (env : Env) (status type search : JVal) (r : Row) : Bool :=
  (!status.truthy || r.get "status" == status)
    && (!type.truthy || r.get "type" == type)
    && (!search.truthy || env.ftsMatch r search)

/-- The `WHERE` clause for each of the eight combinations of provided filters
(`status`, `type`, `search`). -/
def expectedWhere : Bool → Bool → Bool → String
  | false, false, false => ""
  | true, false, false => "WHERE status = $1"
  | false, true, false => "WHERE type = $1"
  | false, false, true => "WHERE search_vector @@ plainto_tsquery('english', $1)"
  | true, true, false => "WHERE status = $1 AND type = $2"
  | true, false, true =>
    "WHERE status = $1 AND search_vector @@ plainto_tsquery('english', $2)"
  | false, true, true =>
    "WHERE type = $1 AND search_vector @@ plainto_tsquery('english', $2)"
  | true, true, true =>
    "WHERE status = $1 AND type = $2 AND search_vector @@ plainto_tsquery('english', $3)"

/-- A mutating operation of the repository. -/
inductive Op where
  | create (contractData : Obj)
  | update (id : JVal) (updateData : Obj) (userId : JVal)
  | delete (id userId : JVal)
  deriving DecidableEq, Repr

/-- The database an operation leaves behind, whether it returns or throws. -/
def Op.run (env : Env) : Op → Db → Db
  | .create contractData, db => (CLM.create env contractData db).2
  | .update id updateData userId, db => (CLM.update env id updateData userId db).2
  | .delete id userId, db => (CLM.delete env id userId db).2

/-- Whether an operation is a call of `delete`. -/
def Op.isDelete : Op → Bool
  | .delete _ _ => true
  | _ => false

/-! ## Auxiliary definitions -/

/-- The audit entry `create` writes. -/
def createAudit (env : Env) (contractData : Obj) : AuditEntry :=
  ⟨JVal.str (env.uuid 0), JVal.str "CREATE",
    prepareValue ((contractData.get "created_by").or (JVal.str "system")),
    ⟨"contract_created", some contractData, none⟩, env.now⟩

/-- The outcome of the milestone step of `create`. -/
def createMilestoneStep (env : Env) (contractData : Obj) (db1 : Db) : Except Err Unit × Db :=
  if (contractData.get "expiration_date").truthy then
    createDefaultMilestones (fun k => env.uuid (k + 1)) (JVal.str (env.uuid 0))
      (contractData.get "expiration_date") db1
  else (.ok (), db1)

/-- What a soft delete of the contract `id` makes of a row: a row with that id
gets the status `terminated` and a new `updated_at`, any other row stays. -/
def terminateRow (now : Int) (id : String) (r : Row) : Row :=
  if r.get "id" = JVal.str id then
    (r.set "status" (JVal.str "terminated")).set "updated_at" (JVal.date now)
  else r

/-- The page of contracts the data query of `findAll` reads: of the rows that
satisfy the provided filters, newest first, at most `limit` rows from offset
`(page - 1) * limit` on. -/
def pageSpec (env : Env) (page limit : Int) (status type search : JVal) (db : Db) :
    List ContractView :=
  (((orderByCreatedDesc (db.contracts.filter (filterSpec env status type search))).drop
    ((page - 1) * limit).toNat).take limit.toNat).map (ContractView.ofRow env)

/-- What the `UPDATE` of `update` makes of a row it hits: the assignments of
the `SET` list, then `updated_at = NOW()`. -/
def updatedRow (now : Int) (fields : List SetItem) (values : List JVal) (r : Row) : Row :=
  (applySets values fields r).set "updated_at" (JVal.date now)

/-- The operation of the counterexample to C10: an `update` that writes the
status `terminated`. -/
def terminatingUpdate : Op :=
  Op.update (JVal.str "c1") [("status", JVal.str "terminated")] JVal.undefined

/-- The second operation of the counterexample to C10: a `create` whose data
has the status `terminated`. -/
def terminatedCreate : Op :=
  Op.create [("contract_number", JVal.str "CON-2025-0001"), ("title", JVal.str "MSA"),
    ("counterparty_name", JVal.str "Acme"), ("owner_user_id", JVal.str "u1"),
    ("status", JVal.str "terminated")]

/-- A body lacks a field: the field is missing, `null` or the empty string. -/
def lacksField (body : Obj) (k : String) : Prop :=
  body.get k = JVal.undefined ∨ body.get k = JVal.null ∨ body.get k = JVal.str ""

/-- Every call of a method of the repository throws. -/
def Repo.throws (repo : Repo) : Prop :=
  (∀ p l s t q db, ∃ e db1, repo.findAll p l s t q db = (.error e, db1))
    ∧ (∀ db, ∃ e db1, repo.getDashboardStats db = (.error e, db1))
    ∧ (∀ d db, ∃ e db1, repo.getExpiringSoon d db = (.error e, db1))
    ∧ (∀ id db, ∃ e db1, repo.findById id db = (.error e, db1))
    ∧ (∀ data db, ∃ e db1, repo.create data db = (.error e, db1))
    ∧ (∀ id patch u db, ∃ e db1, repo.update id patch u db = (.error e, db1))
    ∧ (∀ id u db, ∃ e db1, repo.delete id u db = (.error e, db1))

/-- A repository whose database is down: every call throws the error `e`. -/
def failingRepo (e : Err) : Repo :=
  ⟨fun _ _ _ _ _ db => (.error e, db), fun db => (.error e, db), fun _ db => (.error e, db),
    fun _ db => (.error e, db), fun _ db => (.error e, db), fun _ _ _ db => (.error e, db),
    fun _ _ db => (.error e, db)⟩

/-- The fixed message of the `catch` branch of each contract route, by the
position of the route in `modularRoutes`. -/
def failureMessage : Nat → String
  | 2 => "Failed to fetch contracts"
  | 3 => "Failed to fetch statistics"
  | 4 => "Failed to fetch expiring contracts"
  | 5 => "Failed to fetch contract"
  | 6 => "Failed to create contract"
  | 7 => "Failed to update contract"
  | 8 => "Failed to delete contract"
  | _ => ""

/-- A validator library for the examples: it takes `2025-12-31` for a date and
the one identifier below for a UUID. -/
def exampleLib : Lib :=
  ⟨fun s => decide (s = "2025-12-31"),
    fun s => decide (s = "123e4567-e89b-42d3-a456-426614174000"),
    fun _ _ s => s.isInt, fun s => s.toInt?.getD 0⟩

/-- A request with nothing but a method and a path. -/
def plainRequest (method : Method) (path : List String) : Request :=
  ⟨method, path, [], JVal.undefined, [], none⟩

/-- A database with one active contract whose id is a UUID. -/
def uuidDb : Db :=
  ⟨[[("id", JVal.str "123e4567-e89b-42d3-a456-426614174000"),
     ("title", JVal.str "MSA"), ("status", JVal.str "active"),
     ("updated_at", JVal.date 500)]], [], []⟩

/-- The shapes the responses of the contract routes have: a validation
failure (`{errors}` with status 400, no field `success`), a failure
(`success: false` with `error`), a success with `data`, or the success of
`DELETE`, which has a `message` and no `data`. -/
def contractResponseShape (r : Response) : Prop :=
  (r.status = 400 ∧ ∃ errors, r.body = ResBody.errors errors ∧ errors ≠ [])
    ∨ (r.body.success = some false ∧ "error" ∈ r.body.fields)
    ∨ (r.body.success = some true ∧ "data" ∈ r.body.fields)
    ∨ r.body = ResBody.message "Contract terminated successfully"

/-- A body that passes `validateContract`: the required fields, a type and the
expiration date `2025-12-31` as JSON carries it, a string. -/
def datedBody : Obj :=
  [("title", JVal.str "MSA"), ("counterparty_name", JVal.str "Acme"),
   ("owner_user_id", JVal.str "u1"), ("type", JVal.str "MSA"),
   ("expiration_date", JVal.str "2025-12-31")]

/-- The filter a condition of `findAll` tests: its value among the three
filter values. -/
def Cond.filterValue (status type search : JVal) : Cond → JVal
  | .status _ => status
  | .type _ => type
  | .search _ => search

/-- The conditions of the provided filters, in the order status, type, search,
each still waiting for its placeholder number. -/
def providedConds (status type search : JVal) : List (Nat → Cond) :=
  (if status.truthy then [Cond.status] else [])
    ++ (if type.truthy then [Cond.type] else [])
    ++ (if search.truthy then [Cond.search] else [])

/-- Conditions numbered `$(k+1)`, `$(k+2)`, ... in the order of the list. -/
def numberConds (k : Nat) : List (Nat → Cond) → List Cond
  | [] => []
  | f :: rest => f (k + 1) :: numberConds (k + 1) rest

/-- The lines of a text: the pieces between its line feeds. -/
def splitLines : List Char → List (List Char)
  | [] => [[]]
  | ch :: rest =>
    if ch = newlineChar then [] :: splitLines rest
    else
      match splitLines rest with
      | line :: lines => (ch :: line) :: lines
      | [] => [[ch]]

/-- The number of commas of a line that stand outside double quotes; `inside`
tells whether the reading starts within a quoted stretch. -/
def commasOutside : Bool → List Char → Nat
  | _, [] => 0
  | inside, ch :: rest =>
    if ch = quoteChar then commasOutside (!inside) rest
    else if ch = ',' ∧ inside = false then commasOutside inside rest + 1
    else commasOutside inside rest

/-- The number of fields of a line read by CSV rules: fields are separated by
the commas outside double quotes. -/
def csvFieldCount (line : List Char) : Nat := commasOutside false line + 1

/-- Whether the reading is within a quoted stretch after a piece of a line. -/
def insideAfter : Bool → List Char → Bool
  | inside, [] => inside
  | inside, ch :: rest => insideAfter (if ch = quoteChar then !inside else inside) rest

/-- A contract row whose title has a double quote in it (`5" disk`). -/
def quoteRow : Row :=
  [("id", JVal.str "c1"), ("contract_number", JVal.str "CON-2025-1234"),
   ("title", JVal.str ("5" ++ String.singleton quoteChar ++ " disk")),
   ("description", JVal.null),
   ("counterparty_name", JVal.str "Acme"), ("counterparty_email", JVal.null),
   ("counterparty_address", JVal.null), ("owner_user_id", JVal.str "u1"),
   ("owner_department", JVal.null), ("status", JVal.str "active"),
   ("type", JVal.str "MSA"), ("category", JVal.null), ("effective_date", JVal.null),
   ("expiration_date", JVal.null), ("contract_value", JVal.null),
   ("currency", JVal.str "USD"), ("payment_terms", JVal.null), ("tags", JVal.strs []),
   ("created_at", JVal.date 500), ("updated_at", JVal.date 500)]

/-- A contract row whose description has a line feed in it. -/
def twoLineRow : Row :=
  [("id", JVal.str "c2"), ("contract_number", JVal.str "CON-2025-1235"),
   ("title", JVal.str "MSA"),
   ("description", JVal.str ("first" ++ String.singleton newlineChar ++ "second")),
   ("counterparty_name", JVal.str "Acme"), ("counterparty_email", JVal.null),
   ("counterparty_address", JVal.null), ("owner_user_id", JVal.str "u1"),
   ("owner_department", JVal.null), ("status", JVal.str "active"),
   ("type", JVal.str "MSA"), ("category", JVal.null), ("effective_date", JVal.null),
   ("expiration_date", JVal.null), ("contract_value", JVal.null),
   ("currency", JVal.str "USD"), ("payment_terms", JVal.null), ("tags", JVal.strs []),
   ("created_at", JVal.date 500), ("updated_at", JVal.date 500)]

/-- What `Date.prototype.toString` gives in the examples (the time values of
the examples are within the first second of 1970, UTC). -/
def exampleDateText : Int → String :=
  fun _ => "Thu Jan 01 1970 00:00:00 GMT+0000 (Coordinated Universal Time)"

/-- The table of the database of `complete-server.js` with the first sample
row of `test-db.js`, which the database numbers 1. -/
def legacyDb : Db :=
  ⟨[[("id", JVal.num 1), ("contract_number", JVal.null),
     ("title", JVal.str "Software Development Agreement"), ("description", JVal.null),
     ("counterparty_name", JVal.str "TechCorp Inc."),
     ("counterparty_email", JVal.str "contact@techcorp.com"),
     ("owner_user_id", JVal.str "john.doe@company.com"), ("status", JVal.str "active"),
     ("type", JVal.str "MSA"), ("effective_date", JVal.date 1705276800000),
     ("expiration_date", JVal.date 1735603200000), ("contract_value", JVal.str "50000.00"),
     ("currency", JVal.str "USD"), ("document_url", JVal.null),
     ("created_at", JVal.date 500), ("updated_at", JVal.date 500)]], [], []⟩

/-! ## Example data -/

/-- The request body of the example of the specification. -/
def exampleBody : Obj :=
  [("title", JVal.str "MSA"), ("counterparty_name", JVal.str "Acme"),
   ("owner_user_id", JVal.str "u1"), ("expiration_date", JVal.str "2025-12-31")]

/-- A body with a status and a type, and no expiration date. -/
def exampleData : Obj :=
  [("contract_number", JVal.str "CON-2025-1234"), ("title", JVal.str "MSA"),
   ("counterparty_name", JVal.str "Acme"), ("owner_user_id", JVal.str "u1"),
   ("type", JVal.str "MSA"), ("status", JVal.str "active")]

/-- An environment for the examples. -/
def exampleEnv : Env :=
  ⟨fun k => "id-" ++ toString k, 1000, 0, 2025, 0, fun _ _ => false,
    fun _ _ _ _ => .error (.dbError "syntax error"),
    fun _ => none,
    fun _ _ _ => .error (.dbError "invalid input syntax"),
    fun _ => none⟩

/-- The database with no rows. -/
def emptyDb : Db := ⟨[], [], []⟩

/-- A database with one active contract, `c1`. -/
def exampleDb : Db :=
  ⟨[[("id", JVal.str "c1"), ("contract_number", JVal.str "CON-2025-1234"),
     ("title", JVal.str "MSA"), ("description", JVal.null),
     ("counterparty_name", JVal.str "Acme"), ("counterparty_email", JVal.null),
     ("counterparty_address", JVal.null), ("owner_user_id", JVal.str "u1"),
     ("owner_department", JVal.null), ("status", JVal.str "active"),
     ("type", JVal.str "MSA"), ("category", JVal.null), ("effective_date", JVal.null),
     ("expiration_date", JVal.null), ("contract_value", JVal.null),
     ("currency", JVal.str "USD"), ("payment_terms", JVal.null), ("tags", JVal.strs []),
     ("created_at", JVal.date 500), ("updated_at", JVal.date 500)]], [], []⟩

/-! ## Lemmas on rows -/

theorem lookup_map_set (r : List (String × JVal)) (c : String) (v : JVal) (k : String) :
    List.lookup k (r.map (fun p => if p.1 = c then (p.1, v) else p))
      = if k = c then (List.lookup k r).map (fun _ => v) else List.lookup k r := by
  induction r with
  | nil => simp
  | cons p r ih =>
    obtain ⟨a, b⟩ := p
    rw [List.map_cons, List.lookup_cons]
    by_cases hka : k = a
    · subst hka
      by_cases hkc : k = c
      · subst hkc; simp
      · simp [hkc]
    · have h2 : (k == a) = false := by simpa using hka
      by_cases hac : a = c
      · subst hac; simp [h2, hka, ih, List.lookup_cons]
      · simp [h2, hac, ih, List.lookup_cons]

theorem lookup_append_single (r : List (String × JVal)) (c : String) (v : JVal) (k : String) :
    List.lookup k (r ++ [(c, v)])
      = (List.lookup k r).or (if k = c then some v else none) := by
  induction r with
  | nil =>
    by_cases h : k = c
    · subst h; simp [List.lookup]
    · have : (k == c) = false := by simpa using h
      simp [List.lookup, this, h]
  | cons p r ih =>
    obtain ⟨a, b⟩ := p
    rw [List.cons_append, List.lookup_cons, List.lookup_cons]
    by_cases hka : k = a
    · subst hka; simp
    · have : (k == a) = false := by simpa using hka
      simp [this, ih]

theorem lookup_eq_none_of_not_any (r : List (String × JVal)) (c : String)
    (h : r.any (fun p => p.1 == c) = false) : List.lookup c r = none := by
  induction r with
  | nil => rfl
  | cons p r ih =>
    obtain ⟨a, b⟩ := p
    rw [List.any_cons, Bool.or_eq_false_iff] at h
    have hca : (c == a) = false := by
      have h1 : (a == c) = false := h.1
      rw [beq_eq_false_iff_ne] at h1 ⊢
      exact fun e => h1 e.symm
    rw [List.lookup_cons, hca]
    exact ih h.2

theorem lookup_isSome_of_any (r : List (String × JVal)) (c : String)
    (h : r.any (fun p => p.1 == c) = true) : (List.lookup c r).isSome = true := by
  induction r with
  | nil => simp at h
  | cons p r ih =>
    obtain ⟨a, b⟩ := p
    rw [List.lookup_cons]
    by_cases hca : c = a
    · subst hca; simp
    · have hca2 : (c == a) = false := by simpa using hca
      have hac : (a == c) = false := by
        rw [beq_eq_false_iff_ne]; exact fun e => hca e.symm
      rw [List.any_cons] at h
      have h3 : r.any (fun p => p.1 == c) = true := by
        simpa [hac] using h
      rw [hca2]
      exact ih h3

theorem Row.get_set_same (r : Row) (c : String) (v : JVal) : (r.set c v).get c = v := by
  unfold Row.get Row.set
  by_cases h : r.any (fun p => p.1 == c) = true
  · have hs := lookup_isSome_of_any r c h
    rw [if_pos h, lookup_map_set]
    cases hl : List.lookup c r with
    | none => simp [hl] at hs
    | some x => simp
  · have h2 : r.any (fun p => p.1 == c) = false := Bool.eq_false_iff.mpr h
    rw [if_neg h, lookup_append_single, lookup_eq_none_of_not_any r c h2]
    simp

theorem Row.get_set_other (r : Row) (c k : String) (v : JVal) (h : k ≠ c) :
    (r.set c v).get k = r.get k := by
  unfold Row.get Row.set
  by_cases ha : r.any (fun p => p.1 == c) = true
  · rw [if_pos ha, lookup_map_set]; simp [h]
  · rw [if_neg ha, lookup_append_single]
    simp [h]

/-! ## Lemmas on the mutations -/

theorem createMilestone_eq (uid : String) (d : Obj) (db : Db) :
    createMilestone uid d db =
      (.ok [⟨JVal.str uid, prepareValue (d.get "contract_id"),
              prepareValue (d.get "milestone_type"), prepareValue (d.get "name"),
              prepareValue (d.get "due_date"),
              prepareValue ((d.get "assignee_email").or JVal.null),
              prepareValue ((d.get "notes").or JVal.null)⟩],
       { db with contract_milestones := db.contract_milestones ++
          [⟨JVal.str uid, prepareValue (d.get "contract_id"),
              prepareValue (d.get "milestone_type"), prepareValue (d.get "name"),
              prepareValue (d.get "due_date"),
              prepareValue ((d.get "assignee_email").or JVal.null),
              prepareValue ((d.get "notes").or JVal.null)⟩] }) := by
  simp [createMilestone, Db.insertMilestone, prepareValue]

theorem createMilestones_frame (uuids : Nat → String) (c : JVal) (k : Nat) (ms : List Obj)
    (db : Db) :
    (createMilestones uuids c k ms db).2.contracts = db.contracts
      ∧ (createMilestones uuids c k ms db).2.audit_logs = db.audit_logs := by
  induction ms generalizing k db with
  | nil => simp [createMilestones]
  | cons m rest ih =>
    rw [createMilestones, createMilestone_eq]
    simpa using ih (k + 1) _

theorem createDefaultMilestones_frame (uuids : Nat → String) (c e : JVal) (db : Db) :
    (createDefaultMilestones uuids c e db).2.contracts = db.contracts
      ∧ (createDefaultMilestones uuids c e db).2.audit_logs = db.audit_logs := by
  unfold createDefaultMilestones
  cases e.getTime with
  | error err => simp
  | ok t => exact createMilestones_frame _ _ _ _ _

/-- The row `create` inserts. -/
theorem insertContract_createValues (env : Env) (contractData : Obj) (db : Db) :
    db.insertContract env.now (createValues env contractData)
      = (.ok [insertedRow env.now (createValues env contractData)],
         { db with contracts := db.contracts
            ++ [insertedRow env.now (createValues env contractData)] }) := by
  have h : (createValues env contractData).length = insertColumns.length := rfl
  unfold Db.insertContract
  rw [if_pos h]

theorem insertedRow_id (env : Env) (contractData : Obj) :
    (insertedRow env.now (createValues env contractData)).get "id" = JVal.str (env.uuid 0) := by
  simp [insertedRow, createValues, insertColumns, Row.get, List.lookup, prepareValue]

theorem insertedRow_status (env : Env) (contractData : Obj) :
    (insertedRow env.now (createValues env contractData)).get "status"
      = prepareValue ((contractData.get "status").or (JVal.str "draft")) := by
  simp [insertedRow, createValues, insertColumns, Row.get, List.lookup]

theorem create_eq (env : Env) (contractData : Obj) (db : Db) :
    create env contractData db =
      match createMilestoneStep env contractData
          { db with contracts := db.contracts
              ++ [insertedRow env.now (createValues env contractData)] } with
      | (.error e, db2) => (.error e, db2)
      | (.ok _, db2) =>
        (.ok (some (insertedRow env.now (createValues env contractData))),
          { db2 with audit_logs := db2.audit_logs ++ [createAudit env contractData] }) := by
  unfold create
  simp only [insertContract_createValues]
  change (match createMilestoneStep env contractData _ with
    | (.error e, db2) => _
    | (.ok _, db2) => _) = _
  rcases createMilestoneStep env contractData _ with ⟨e | u, db2⟩
  · rfl
  · simp [logAudit, Db.insertAudit, createAudit, prepareValue]

theorem createMilestoneStep_frame (env : Env) (contractData : Obj) (db1 : Db) :
    (createMilestoneStep env contractData db1).2.contracts = db1.contracts
      ∧ (createMilestoneStep env contractData db1).2.audit_logs = db1.audit_logs := by
  unfold createMilestoneStep
  split
  · exact createDefaultMilestones_frame _ _ _ _
  · exact ⟨rfl, rfl⟩

theorem delete_eq (env : Env) (id userId : JVal) (db : Db) :
    delete env id userId db =
      (.ok ((db.contracts.filter
              (fun r => prepareValue id != JVal.null && r.get "id" == prepareValue id)).map
              (fun r => (r.set "status" (JVal.str "terminated")).set "updated_at"
                (JVal.date env.now))).head?,
       { contracts := db.contracts.map
            (fun r => if (prepareValue id != JVal.null && r.get "id" == prepareValue id) = true
              then (r.set "status" (JVal.str "terminated")).set "updated_at" (JVal.date env.now)
              else r),
         contract_milestones := db.contract_milestones,
         audit_logs := db.audit_logs ++
           [⟨prepareValue id, JVal.str "DELETE", prepareValue (userId.or (JVal.str "system")),
             ⟨"contract_terminated", none, none⟩, env.now⟩] }) := by
  simp [delete, Db.terminateContract, logAudit, Db.insertAudit, prepareValue]

theorem assignColumns_frame (db : Db) (now : Int) (fields : List SetItem) (n : Nat)
    (values : List JVal) :
    (db.assignColumns now fields n values).2.contract_milestones = db.contract_milestones
      ∧ (db.assignColumns now fields n values).2.audit_logs = db.audit_logs := by
  unfold Db.assignColumns
  simp only
  split
  · exact ⟨rfl, rfl⟩
  · split
    · exact ⟨rfl, rfl⟩
    · split
      · exact ⟨rfl, rfl⟩
      · split <;> exact ⟨rfl, rfl⟩

/-- An `UPDATE` of `contracts` leaves the other two tables as they were,
whatever its `SET` list is. -/
theorem updateContracts_frame (db : Db) (env : Env) (fields : List SetItem) (n : Nat)
    (values : List JVal) :
    (db.updateContracts env fields n values).2.contract_milestones = db.contract_milestones
      ∧ (db.updateContracts env fields n values).2.audit_logs = db.audit_logs := by
  unfold Db.updateContracts
  split
  · exact assignColumns_frame db env.now _ n values
  · split <;> exact ⟨rfl, rfl⟩

/-- A statement the store rejects changes nothing. -/
theorem assignColumns_error (db : Db) (now : Int) (fields : List SetItem) (n : Nat)
    (values : List JVal) (e : Err) (db1 : Db)
    (h : db.assignColumns now fields n values = (.error e, db1)) : db1 = db := by
  unfold Db.assignColumns at h
  simp only at h
  split at h
  · exact (Prod.mk.inj h).2.symm
  · split at h
    · exact (Prod.mk.inj h).2.symm
    · split at h
      · exact (Prod.mk.inj h).2.symm
      · split at h
        · exact (Prod.mk.inj h).2.symm
        · simp at h

/-- An `UPDATE` that fails changes nothing. -/
theorem updateContracts_error (db : Db) (env : Env) (fields : List SetItem) (n : Nat)
    (values : List JVal) (e : Err) (db1 : Db)
    (h : db.updateContracts env fields n values = (.error e, db1)) : db1 = db := by
  unfold Db.updateContracts at h
  split at h
  · exact assignColumns_error db env.now _ n values e db1 h
  · split at h
    · exact (Prod.mk.inj h).2.symm
    · simp at h

theorem update_frame (env : Env) (id : JVal) (updateData : Obj) (userId : JVal) (db : Db) :
    (update env id updateData userId db).2.contract_milestones = db.contract_milestones := by
  unfold update
  simp only
  split
  · rfl
  · have h := updateContracts_frame db env (updateFields updateData).fields
      ((updateFields updateData).paramCount + 1) ((updateFields updateData).values ++ [id])
    rcases hq : db.updateContracts env (updateFields updateData).fields
      ((updateFields updateData).paramCount + 1) ((updateFields updateData).values ++ [id])
      with ⟨e | rows, db1⟩
    · rw [hq] at h; exact h.1
    · rw [hq] at h; simpa [logAudit, Db.insertAudit] using h.1

theorem update_audit (env : Env) (id : JVal) (updateData : Obj) (userId : JVal) (db : Db)
    (row : Option Row) (h : (update env id updateData userId db).1 = .ok row) :
    (update env id updateData userId db).2.audit_logs = db.audit_logs ++
      [⟨prepareValue id, JVal.str "UPDATE", prepareValue (userId.or (JVal.str "system")),
        ⟨"contract_updated", none, some updateData⟩, env.now⟩] := by
  unfold update at h ⊢
  simp only at h ⊢
  split at h
  · simp at h
  · rename_i hne
    rw [if_neg hne]
    have hf := updateContracts_frame db env (updateFields updateData).fields
      ((updateFields updateData).paramCount + 1) ((updateFields updateData).values ++ [id])
    rcases hq : db.updateContracts env (updateFields updateData).fields
      ((updateFields updateData).paramCount + 1) ((updateFields updateData).values ++ [id])
      with ⟨e | rows, db1⟩
    · rw [hq] at h; simp at h
    · rw [hq] at hf
      have h2 : db1.audit_logs = db.audit_logs := hf.2
      simp [logAudit, Db.insertAudit, h2, prepareValue]

theorem foldl_updateStep (l : Obj) (acc : UpdateAcc) :
    l.foldl updateStep acc =
      ⟨acc.fields ++ numberFrom acc.paramCount (eligible l),
        acc.values ++ (eligible l).map Prod.snd,
        acc.paramCount + (eligible l).length⟩ := by
  induction l generalizing acc with
  | nil => simp [eligible, numberFrom]
  | cons p rest ih =>
    rw [List.foldl_cons, ih]
    by_cases hp : p.1 ≠ "id" ∧ p.2 ≠ JVal.undefined
    · have he : eligible (p :: rest) = p :: eligible rest := by
        simp [eligible, List.filter_cons, hp]
      rw [he]
      simp [updateStep, hp, numberFrom, Nat.add_assoc, Nat.add_comm 1]
    · have he : eligible (p :: rest) = eligible rest := by
        simp only [eligible, List.filter_cons]
        rw [decide_eq_false hp]
        rfl
      rw [he]
      simp [updateStep, hp]

/-- The loop of `update` keeps exactly the entries of the patch whose key is
not `id` and whose value is defined, numbers them from 1 and collects their
values. -/
theorem updateFields_eq (updateData : Obj) :
    updateFields updateData =
      ⟨numberFrom 0 (eligible updateData), (eligible updateData).map Prod.snd,
        (eligible updateData).length⟩ := by
  unfold updateFields
  rw [foldl_updateStep]
  simp

theorem numberFrom_length (k : Nat) (l : Obj) : (numberFrom k l).length = l.length := by
  induction l generalizing k with
  | nil => rfl
  | cons p rest ih => simp [numberFrom, ih]

theorem delete_contracts (env : Env) (id : String) (userId : JVal) (db : Db) :
    (delete env (JVal.str id) userId db).2.contracts
      = db.contracts.map (terminateRow env.now id) := by
  rw [delete_eq]
  apply List.map_congr_left
  intro r _
  simp [terminateRow, prepareValue]

theorem terminateRow_id (now : Int) (id : String) (r : Row) :
    (terminateRow now id r).get "id" = r.get "id" := by
  unfold terminateRow
  split
  · rw [Row.get_set_other _ _ _ _ (by decide), Row.get_set_other _ _ _ _ (by decide)]
  · rfl

theorem terminateRow_hit (now : Int) (id : String) (r : Row) (h : r.get "id" = JVal.str id) :
    (terminateRow now id r).get "status" = JVal.str "terminated"
      ∧ ∀ c : String, c ≠ "status" → c ≠ "updated_at" →
          (terminateRow now id r).get c = r.get c := by
  unfold terminateRow
  rw [if_pos h]
  refine ⟨?_, ?_⟩
  · rw [Row.get_set_other _ _ _ _ (by decide), Row.get_set_same]
  · intro c h1 h2
    rw [Row.get_set_other _ _ _ _ h2, Row.get_set_other _ _ _ _ h1]

theorem filter_eq_cons_of_mem {α : Type} (p : α → Bool) (l : List α) (a : α) (ha : a ∈ l)
    (hp : p a = true) : ∃ b rest, l.filter p = b :: rest ∧ b ∈ l ∧ p b = true := by
  have hmem : a ∈ l.filter p := List.mem_filter.mpr ⟨ha, hp⟩
  cases hf : l.filter p with
  | nil => rw [hf] at hmem; cases hmem
  | cons b rest =>
    have hb : b ∈ l.filter p := by rw [hf]; exact List.mem_cons_self _ _
    exact ⟨b, rest, rfl, (List.mem_filter.mp hb).1, (List.mem_filter.mp hb).2⟩

theorem prepareValue_of_truthy (v : JVal) (h : v.truthy = true) : prepareValue v = v := by
  cases v <;> simp_all [prepareValue, JVal.truthy]

theorem prepareValue_num (n : Int) : prepareValue (JVal.num n) = JVal.num n := rfl

theorem ne_null_of_truthy (v : JVal) (h : v.truthy = true) : v ≠ JVal.null := by
  intro e; rw [e] at h; exact absurd h (by decide)

theorem bne_null_of_truthy (v : JVal) (h : v.truthy = true) : (v != JVal.null) = true := by
  simpa using ne_null_of_truthy v h

theorem findAllFilters_spec (env : Env) (s t q : JVal) (l o : Int) :
    (∀ r : Row, (findAllFilters s t q).whereClauses.all
        (fun c => c.holds env ((findAllFilters s t q).values ++ [JVal.num l, JVal.num o]) r)
        = filterSpec env s t q r)
      ∧ (∀ r : Row, (findAllFilters s t q).whereClauses.all
        (fun c => c.holds env
          (((findAllFilters s t q).values ++ [JVal.num l, JVal.num o]).take
            (findAllFilters s t q).paramCount) r)
        = filterSpec env s t q r)
      ∧ (findAllFilters s t q).whereClauses.all
        (fun c => (paramAt ((findAllFilters s t q).values ++ [JVal.num l, JVal.num o])
          c.param).isSome) = true
      ∧ (findAllFilters s t q).whereClauses.all
        (fun c => (paramAt (((findAllFilters s t q).values ++ [JVal.num l, JVal.num o]).take
            (findAllFilters s t q).paramCount) c.param).isSome) = true
      ∧ paramAt ((findAllFilters s t q).values ++ [JVal.num l, JVal.num o])
          ((findAllFilters s t q).paramCount + 1) = some (JVal.num l)
      ∧ paramAt ((findAllFilters s t q).values ++ [JVal.num l, JVal.num o])
          ((findAllFilters s t q).paramCount + 2) = some (JVal.num o) := by
  have hs1 := prepareValue_of_truthy s
  have hs2 := ne_null_of_truthy s
  have ht1 := prepareValue_of_truthy t
  have ht2 := ne_null_of_truthy t
  have hq1 := prepareValue_of_truthy q
  have hq2 := ne_null_of_truthy q
  have hs3 := bne_null_of_truthy s
  have ht3 := bne_null_of_truthy t
  have hq3 := bne_null_of_truthy q
  cases hs : s.truthy <;> cases ht : t.truthy <;> cases hq : q.truthy <;>
    simp only [findAllFilters, hs, ht, hq, if_true, if_false, Bool.false_eq_true,
      List.nil_append, List.cons_append, List.all_cons, List.all_nil, Cond.holds, Cond.param,
      paramAt, Nat.zero_add, Nat.add_eq_zero, one_ne_zero, and_false, if_false,
      List.get?, Nat.add_sub_cancel, List.take, Option.map_some', Bool.and_true,
      filterSpec, Bool.not_false, Bool.not_true, Bool.true_or, Bool.false_or, Bool.true_and,
      Option.isSome_some, and_self, implies_true]
  all_goals simp [hs1, hs2, ht1, ht2, hq1, hq2, hs3, ht3, hq3, hs, ht, hq, prepareValue_num,
    Bool.and_assoc]

theorem matching_eq (env : Env) (s t q : JVal) (l o : Int) (db : Db) :
    db.matching env (findAllFilters s t q).whereClauses
        ((findAllFilters s t q).values ++ [JVal.num l, JVal.num o])
        = db.contracts.filter (filterSpec env s t q)
      ∧ db.matching env (findAllFilters s t q).whereClauses
        (((findAllFilters s t q).values ++ [JVal.num l, JVal.num o]).take
          (findAllFilters s t q).paramCount)
        = db.contracts.filter (filterSpec env s t q) := by
  obtain ⟨h1, h2, _⟩ := findAllFilters_spec env s t q l o
  unfold Db.matching
  exact ⟨List.filter_congr (fun r _ => h1 r), List.filter_congr (fun r _ => h2 r)⟩

/-- With a non-negative limit and offset both queries of `findAll` succeed,
and they look at the same rows: those that satisfy the provided filters. -/
theorem findAll_eq (env : Env) (p l : Int) (s t q : JVal) (db : Db) (hp : 1 ≤ p)
    (hl : 1 ≤ l) :
    findAll env (some p) (some l) s t q db =
      (.ok ⟨pageSpec env p l s t q db,
        ⟨p, l, ((db.contracts.filter (filterSpec env s t q)).length : Nat),
          totalPagesOf (db.contracts.filter (filterSpec env s t q)).length l⟩⟩, db) := by
  obtain ⟨_, _, h3, h4, h5, h6⟩ := findAllFilters_spec env s t q l ((p - 1) * l)
  obtain ⟨m1, m2⟩ := matching_eq env s t q l ((p - 1) * l) db
  have ho : ¬ ((p - 1) * l < 0) := by
    have : 0 ≤ (p - 1) * l := mul_nonneg (by omega) (by omega)
    omega
  have hl0 : ¬ (l < 0) := by omega
  unfold findAll Db.countContracts Db.selectContracts
  simp only [Option.getD_some, h3, h4, h5, h6, m1, m2, if_true, if_neg ho, if_neg hl0, pageSpec]

theorem mem_pageSpec (env : Env) (p l : Int) (s t q : JVal) (db : Db) (v : ContractView)
    (hv : v ∈ pageSpec env p l s t q db) :
    v.row ∈ db.contracts ∧ filterSpec env s t q v.row = true := by
  unfold pageSpec at hv
  obtain ⟨r, hr, rfl⟩ := List.mem_map.mp hv
  have h1 := List.mem_of_mem_drop (List.mem_of_mem_take hr)
  unfold orderByCreatedDesc at h1
  have h2 := (List.perm_insertionSort _ _).mem_iff.mp h1
  exact List.mem_filter.mp h2

theorem pageSpec_length (env : Env) (p l : Int) (s t q : JVal) (db : Db) (hl : 0 ≤ l) :
    ((pageSpec env p l s t q db).length : Int) ≤ l := by
  unfold pageSpec
  rw [List.length_map, List.length_take]
  have h1 : min l.toNat
      (List.drop ((p - 1) * l).toNat
        (orderByCreatedDesc (List.filter (filterSpec env s t q) db.contracts))).length
      ≤ l.toNat := Nat.min_le_left _ _
  have h2 : (l.toNat : Int) = l := Int.toNat_of_nonneg hl
  omega

theorem totalPagesOf_spec (total : Nat) (l : Int) (hl : 1 ≤ l) :
    ∃ n : Int, totalPagesOf total l = some n ∧ (total : Int) ≤ n * l
      ∧ ∀ m : Int, (total : Int) ≤ m * l → n ≤ m := by
  have hl0 : l ≠ 0 := by omega
  have hlq : (0 : Rat) < (l : Rat) := by exact_mod_cast (by omega : (0 : Int) < l)
  refine ⟨Int.ceil ((total : Rat) / (l : Rat)), ?_, ?_, ?_⟩
  · unfold totalPagesOf; rw [if_neg hl0]
  · have h1 : (total : Rat) / (l : Rat) ≤ (Int.ceil ((total : Rat) / (l : Rat)) : Rat) :=
      Int.le_ceil _
    rw [div_le_iff₀ hlq] at h1
    exact_mod_cast h1
  · intro m hm
    rw [Int.ceil_le, div_le_iff₀ hlq]
    exact_mod_cast hm

theorem applySets_cons (values : List JVal) (f : SetItem) (fs : List SetItem) (r : Row) :
    applySets values (f :: fs) r
      = applySets values fs (r.set f.key ((paramAt values f.param).getD JVal.null)) := rfl

/-- A column no item names keeps its value. -/
theorem applySets_get_other (values : List JVal) (fs : List SetItem) (r : Row) (c : String)
    (h : c ∉ fs.map SetItem.key) : (applySets values fs r).get c = r.get c := by
  induction fs generalizing r with
  | nil => rfl
  | cons f fs ih =>
    rw [applySets_cons, ih]
    · apply Row.get_set_other
      intro e
      exact h (by simp [e])
    · intro hc
      exact h (by simp [hc])

/-- A column named once takes the value of its item. -/
theorem applySets_get_mem (values : List JVal) (fs : List SetItem) (r : Row) (f : SetItem)
    (hf : f ∈ fs) (hnd : (fs.map SetItem.key).Nodup) :
    (applySets values fs r).get f.key = (paramAt values f.param).getD JVal.null := by
  induction fs generalizing r with
  | nil => cases hf
  | cons g fs ih =>
    rw [List.map_cons, List.nodup_cons] at hnd
    rw [applySets_cons]
    rcases List.mem_cons.mp hf with e | hmem
    · subst e
      rw [applySets_get_other _ _ _ _ hnd.1, Row.get_set_same]
    · exact ih _ hmem hnd.2

/-- A column either keeps its value or takes the value of an item naming it. -/
theorem applySets_get_cases (values : List JVal) (fs : List SetItem) (r : Row) (c : String) :
    (applySets values fs r).get c = r.get c
      ∨ ∃ f ∈ fs, f.key = c
          ∧ (applySets values fs r).get c = (paramAt values f.param).getD JVal.null := by
  induction fs generalizing r with
  | nil => exact Or.inl rfl
  | cons g fs ih =>
    rw [applySets_cons]
    rcases ih (r.set g.key ((paramAt values g.param).getD JVal.null)) with h | ⟨f, hf, hk, hv⟩
    · by_cases hc : c = g.key
      · right
        refine ⟨g, List.mem_cons_self _ _, hc.symm, ?_⟩
        rw [h, hc, Row.get_set_same]
      · left
        rw [h, Row.get_set_other _ _ _ _ hc]
    · exact Or.inr ⟨f, List.mem_cons_of_mem _ hf, hk, hv⟩

theorem paramAt_append_mid (pre post : List JVal) (v : JVal) :
    paramAt (pre ++ v :: post) (pre.length + 1) = some (prepareValue v) := by
  unfold paramAt
  rw [if_neg (Nat.succ_ne_zero _), Nat.add_sub_cancel, List.get?_eq_getElem?,
    List.getElem?_append_right (le_refl _)]
  simp

/-- Each numbered item belongs to an entry of the list and its placeholder is
bound to the value of that entry. -/
theorem numberFrom_paramAt (pre : List JVal) (l : Obj) (post : List JVal) :
    ∀ f ∈ numberFrom pre.length l, ∃ p ∈ l, p.1 = f.key
      ∧ paramAt (pre ++ l.map Prod.snd ++ post) f.param = some (prepareValue p.2) := by
  induction l generalizing pre with
  | nil => intro f hf; cases hf
  | cons p rest ih =>
    intro f hf
    rw [numberFrom] at hf
    rcases List.mem_cons.mp hf with e | hmem
    · subst e
      refine ⟨p, List.mem_cons_self _ _, rfl, ?_⟩
      simp only [List.map_cons, List.append_assoc, List.cons_append]
      exact paramAt_append_mid pre _ p.2
    · have h := ih (pre ++ [p.2]) f (by simpa using hmem)
      obtain ⟨p', hp', hk, hv⟩ := h
      refine ⟨p', List.mem_cons_of_mem _ hp', hk, ?_⟩
      simpa using hv

theorem numberFrom_keys (k : Nat) (l : Obj) :
    (numberFrom k l).map SetItem.key = l.map Prod.fst := by
  induction l generalizing k with
  | nil => rfl
  | cons p rest ih => simp [numberFrom, ih]

theorem mem_eligible (updateData : Obj) (p : String × JVal) (h : p ∈ eligible updateData) :
    p ∈ updateData ∧ p.1 ≠ "id" ∧ p.2 ≠ JVal.undefined := by
  unfold eligible at h
  have := List.mem_filter.mp h
  exact ⟨this.1, by simpa using this.2⟩

theorem prepareValue_of_defined (v : JVal) (h : v ≠ JVal.undefined) : prepareValue v = v := by
  cases v <;> simp_all [prepareValue]

/-- What `update` does once the patch has an entry to assign: it sends one
`UPDATE` and, when the store accepts it, one audit entry. -/
theorem update_eq (env : Env) (id : JVal) (updateData : Obj) (userId : JVal) (db : Db)
    (h : eligible updateData ≠ []) :
    update env id updateData userId db =
      match db.updateContracts env (numberFrom 0 (eligible updateData))
          ((eligible updateData).length + 1) ((eligible updateData).map Prod.snd ++ [id]) with
      | (.error e, db1) => (.error e, db1)
      | (.ok rows, db1) =>
        (.ok rows.head?, { db1 with audit_logs := db1.audit_logs ++
          [⟨prepareValue id, JVal.str "UPDATE", prepareValue (userId.or (JVal.str "system")),
            ⟨"contract_updated", none, some updateData⟩, env.now⟩] }) := by
  have hlen : ¬ (numberFrom 0 (eligible updateData)).length = 0 := by
    rw [numberFrom_length]
    intro e
    exact h (List.length_eq_zero.mp e)
  unfold update
  simp only [updateFields_eq, if_neg hlen]
  rcases db.updateContracts env (numberFrom 0 (eligible updateData))
      ((eligible updateData).length + 1) ((eligible updateData).map Prod.snd ++ [id])
    with ⟨e | rows, db1⟩
  · rfl
  · simp [logAudit, Db.insertAudit, prepareValue]

/-- The outcome of the `UPDATE` statement of `update` when the store accepts
it. -/
theorem assignColumns_ok (db : Db) (now : Int) (fields : List SetItem) (n : Nat)
    (values : List JVal) (rows : List Row) (db1 : Db)
    (h : db.assignColumns now fields n values = (.ok rows, db1)) :
    (fields.map SetItem.key ++ ["updated_at"]).Nodup
      ∧ ∃ idv, paramAt values n = some idv
        ∧ rows = (db.contracts.filter
            (fun r => idv != JVal.null && r.get "id" == idv)).map (updatedRow now fields values)
        ∧ db1 = ⟨db.contracts.map
            (fun r => if (idv != JVal.null && r.get "id" == idv) = true
              then updatedRow now fields values r else r),
            db.contract_milestones, db.audit_logs⟩ := by
  unfold Db.assignColumns at h
  simp only at h
  split at h
  · simp at h
  · split at h
    · simp at h
    · rename_i hnd
      split at h
      · simp at h
      · split at h
        · simp at h
        · rename_i idv hid
          simp only [Prod.mk.injEq, Except.ok.injEq] at h
          refine ⟨not_not.mp hnd, idv, hid, ?_, ?_⟩
          · rw [← h.1]; rfl
          · rw [← h.2]; rfl

/-- The `UPDATE` statement of `update` is accepted when its targets are
distinct columns of the table, none of them `updated_at`, and every
placeholder has a value. -/
theorem assignColumns_accepts (db : Db) (now : Int) (fields : List SetItem) (n : Nat)
    (values : List JVal) (idv : JVal)
    (hcol : ∀ c ∈ fields.map SetItem.key, c ∈ contractColumns)
    (hnd : (fields.map SetItem.key ++ ["updated_at"]).Nodup)
    (hpar : ∀ f ∈ fields, (paramAt values f.param).isSome = true)
    (hid : paramAt values n = some idv) :
    ∃ rows db1, db.assignColumns now fields n values = (.ok rows, db1) := by
  have h1 : (fields.map SetItem.key ++ ["updated_at"]).all
      (fun c => contractColumns.contains c) = true := by
    rw [List.all_eq_true]
    intro c hc
    rcases List.mem_append.mp hc with hc | hc
    · simpa using hcol c hc
    · rw [List.mem_singleton.mp hc]; decide
  have h3 : fields.all (fun f => (paramAt values f.param).isSome) = true := by
    rw [List.all_eq_true]; exact hpar
  unfold Db.assignColumns
  simp only [h1, h3, hnd, hid, not_true_eq_false, if_false]
  exact ⟨_, _, rfl⟩

/-- A column of the table is written as a plain identifier in lower case. -/
theorem column_is_plain : ∀ c ∈ contractColumns,
    plainIdentifier c = true ∧ foldIdentifier c = c := by
  decide

/-- An item whose key is a column is its own reading. -/
theorem folded_of_column (f : SetItem) (h : f.key ∈ contractColumns) : f.folded = f := by
  unfold SetItem.folded
  rw [(column_is_plain f.key h).2]

/-- With targets spelled as the columns of the table, the `UPDATE` is the
assignment of these columns. -/
theorem updateContracts_of_columns (db : Db) (env : Env) (fields : List SetItem) (n : Nat)
    (values : List JVal) (h : ∀ f ∈ fields, f.key ∈ contractColumns) :
    db.updateContracts env fields n values = db.assignColumns env.now fields n values := by
  have hall : fields.all (fun f => plainIdentifier f.key) = true := by
    rw [List.all_eq_true]
    intro f hf
    exact (column_is_plain f.key (h f hf)).1
  have hmap : fields.map SetItem.folded = fields := by
    rw [List.map_congr_left (fun f hf => folded_of_column f (h f hf))]
    exact List.map_id'' (fun _ => rfl) _
  unfold Db.updateContracts
  rw [if_pos hall, hmap]

/-- With targets written as plain identifiers, the `UPDATE` is the assignment
of the columns the targets name in lower case. -/
theorem updateContracts_of_plain (db : Db) (env : Env) (fields : List SetItem) (n : Nat)
    (values : List JVal) (h : ∀ f ∈ fields, plainIdentifier f.key = true) :
    db.updateContracts env fields n values
      = db.assignColumns env.now (fields.map SetItem.folded) n values := by
  have hall : fields.all (fun f => plainIdentifier f.key) = true := by
    rw [List.all_eq_true]
    exact h
  unfold Db.updateContracts
  rw [if_pos hall]

/-- Each entry of the list has a numbered item whose placeholder is bound to
the value of the entry. -/
theorem numberFrom_paramAt_of_mem (pre : List JVal) (l : Obj) (post : List JVal) :
    ∀ p ∈ l, ∃ f ∈ numberFrom pre.length l, f.key = p.1
      ∧ paramAt (pre ++ l.map Prod.snd ++ post) f.param = some (prepareValue p.2) := by
  induction l generalizing pre with
  | nil => intro p hp; cases hp
  | cons a rest ih =>
    intro p hp
    rcases List.mem_cons.mp hp with e | hmem
    · subst e
      refine ⟨⟨p.1, pre.length + 1⟩, by simp [numberFrom], rfl, ?_⟩
      simp only [List.map_cons, List.append_assoc, List.cons_append]
      exact paramAt_append_mid pre _ p.2
    · obtain ⟨f, hf, hk, hv⟩ := ih (pre ++ [a.2]) p hmem
      refine ⟨f, ?_, hk, ?_⟩
      · rw [numberFrom]
        exact List.mem_cons_of_mem _ (by simpa using hf)
      · simpa using hv

/-- The row the `UPDATE` of `update` makes of a row it hits: every assigned
key has its patch value, `updated_at` the current time, any other column its
old value. -/
theorem updatedRow_spec (now : Int) (l : Obj) (id : JVal) (r : Row)
    (hnd : (l.map Prod.fst ++ ["updated_at"]).Nodup) (hdef : ∀ p ∈ l, p.2 ≠ JVal.undefined) :
    (∀ p ∈ l, (updatedRow now (numberFrom 0 l) (l.map Prod.snd ++ [id]) r).get p.1 = p.2)
      ∧ (updatedRow now (numberFrom 0 l) (l.map Prod.snd ++ [id]) r).get "updated_at"
          = JVal.date now
      ∧ ∀ c : String, c ∉ l.map Prod.fst → c ≠ "updated_at" →
          (updatedRow now (numberFrom 0 l) (l.map Prod.snd ++ [id]) r).get c = r.get c := by
  have hnd1 : (l.map Prod.fst).Nodup := (List.nodup_append.mp hnd).1
  have hnot : "updated_at" ∉ l.map Prod.fst := by
    intro hm
    exact (List.nodup_append.mp hnd).2.2 hm (List.mem_singleton.mpr rfl)
  refine ⟨?_, ?_, ?_⟩
  · intro p hp
    obtain ⟨f, hf, hk, hv⟩ := numberFrom_paramAt_of_mem [] l [id] p hp
    have hpk : p.1 ≠ "updated_at" := by
      intro e
      exact hnot (e ▸ List.mem_map_of_mem Prod.fst hp)
    have hf0 : f ∈ numberFrom 0 l := hf
    simp only [List.nil_append] at hv
    unfold updatedRow
    rw [Row.get_set_other _ _ _ _ hpk, ← hk,
      applySets_get_mem _ _ _ f hf0 (by rw [numberFrom_keys]; exact hnd1),
      hv, Option.getD_some, prepareValue_of_defined _ (hdef p hp)]
  · unfold updatedRow
    exact Row.get_set_same _ _ _
  · intro c hc hcu
    unfold updatedRow
    rw [Row.get_set_other _ _ _ _ hcu,
      applySets_get_other _ _ _ _ (by rw [numberFrom_keys]; exact hc)]

theorem create_contracts (env : Env) (contractData : Obj) (db : Db) :
    (create env contractData db).2.contracts
      = db.contracts ++ [insertedRow env.now (createValues env contractData)] := by
  rw [create_eq]
  have hf := createMilestoneStep_frame env contractData
    { db with contracts := db.contracts
        ++ [insertedRow env.now (createValues env contractData)] }
  rcases hs : createMilestoneStep env contractData
    { db with contracts := db.contracts
        ++ [insertedRow env.now (createValues env contractData)] } with ⟨e | u, db2⟩
  · rw [hs] at hf; exact hf.1
  · rw [hs] at hf; exact hf.1

theorem or_eq_of_ne_default (a b c : JVal) (h : prepareValue (a.or b) = c) (hb : b ≠ c)
    (hb2 : b ≠ JVal.undefined) : a = c := by
  unfold JVal.or at h
  split at h
  · rename_i ht
    rw [prepareValue_of_truthy a ht] at h
    exact h
  · rw [prepareValue_of_defined b hb2] at h
    exact absurd h hb

theorem numberFrom_folded (k : Nat) (l : Obj) :
    (numberFrom k l).map SetItem.folded = numberFrom k (foldKeys l) := by
  induction l generalizing k with
  | nil => rfl
  | cons p rest ih =>
    have := ih (k + 1)
    simp only [foldKeys] at this ⊢
    simp only [numberFrom, List.map_cons, this]
    rfl

theorem foldKeys_values (l : Obj) : (foldKeys l).map Prod.snd = l.map Prod.snd := by
  unfold foldKeys
  rw [List.map_map]
  rfl

theorem foldKeys_length (l : Obj) : (foldKeys l).length = l.length := by
  unfold foldKeys
  rw [List.length_map]

theorem numberFrom_plain (k : Nat) (l : Obj) (h : ∀ p ∈ l, plainIdentifier p.1 = true) :
    ∀ f ∈ numberFrom k l, plainIdentifier f.key = true := by
  intro f hf
  have hk : f.key ∈ (numberFrom k l).map SetItem.key := List.mem_map_of_mem _ hf
  rw [numberFrom_keys] at hk
  obtain ⟨p, hp, hpk⟩ := List.mem_map.mp hk
  rw [← hpk]
  exact h p hp

/-- The `UPDATE` of `update` for a patch whose keys are plain identifiers: the
assignment of the columns the keys name in lower case. -/
theorem update_query_of_plain (db : Db) (env : Env) (id : JVal) (updateData : Obj)
    (h : ∀ p ∈ eligible updateData, plainIdentifier p.1 = true) :
    db.updateContracts env (numberFrom 0 (eligible updateData))
        ((eligible updateData).length + 1) ((eligible updateData).map Prod.snd ++ [id])
      = db.assignColumns env.now (numberFrom 0 (foldKeys (eligible updateData)))
        ((foldKeys (eligible updateData)).length + 1)
        ((foldKeys (eligible updateData)).map Prod.snd ++ [id]) := by
  rw [updateContracts_of_plain db env _ _ _ (numberFrom_plain 0 _ h), numberFrom_folded,
    foldKeys_values, foldKeys_length]

/-- The contracts an `update` leaves behind: the table as it was; or, for a
patch whose keys are plain identifiers, the table with the rows of the given id
replaced by their updated rows, the targets of the statement being distinct;
or the patch has a key that is not a plain identifier. -/
theorem update_contracts_cases (env : Env) (id : JVal) (updateData : Obj) (userId : JVal)
    (db : Db) :
    (update env id updateData userId db).2.contracts = db.contracts
      ∨ ((∀ p ∈ eligible updateData, plainIdentifier p.1 = true)
        ∧ ((numberFrom 0 (foldKeys (eligible updateData))).map SetItem.key
            ++ ["updated_at"]).Nodup
        ∧ ∃ idv, (update env id updateData userId db).2.contracts
          = db.contracts.map (fun r => if (idv != JVal.null && r.get "id" == idv) = true
              then updatedRow env.now (numberFrom 0 (foldKeys (eligible updateData)))
                ((foldKeys (eligible updateData)).map Prod.snd ++ [id]) r else r))
      ∨ ∃ p ∈ eligible updateData, plainIdentifier p.1 = false := by
  by_cases hne : eligible updateData = []
  · left
    unfold update
    simp [updateFields_eq, hne, numberFrom]
  · by_cases hplain : ∀ p ∈ eligible updateData, plainIdentifier p.1 = true
    · rw [update_eq env id updateData userId db hne,
        update_query_of_plain db env id updateData hplain]
      rcases hq : db.assignColumns env.now (numberFrom 0 (foldKeys (eligible updateData)))
          ((foldKeys (eligible updateData)).length + 1)
          ((foldKeys (eligible updateData)).map Prod.snd ++ [id])
        with ⟨e | rows, db1⟩
      · left
        have hdb : db1 = db := assignColumns_error _ _ _ _ _ _ _ hq
        simp [hdb]
      · right; left
        obtain ⟨hnd, idv, _, _, hdb⟩ := assignColumns_ok _ _ _ _ _ _ _ hq
        exact ⟨hplain, hnd, idv, by simp [hdb]⟩
    · right; right
      push_neg at hplain
      obtain ⟨p, hp, hpp⟩ := hplain
      exact ⟨p, hp, by simpa using hpp⟩

theorem nullsLargeLe_total (a b : Option Int) :
    nullsLargeLe a b = true ∨ nullsLargeLe b a = true := by
  cases a <;> cases b <;> simp [nullsLargeLe]
  omega

theorem nullsLargeLe_trans (a b c : Option Int) (h1 : nullsLargeLe a b = true)
    (h2 : nullsLargeLe b c = true) : nullsLargeLe a c = true := by
  cases a <;> cases b <;> cases c <;> simp_all [nullsLargeLe]
  omega

/-- Sorting by a key in the order of `ORDER BY ... ASC` gives a sorted list. -/
theorem pairwise_insertionSort_key {α : Type} (key : α → Option Int) (l : List α) :
    (l.insertionSort (fun a b => nullsLargeLe (key a) (key b) = true)).Pairwise
      (fun a b => nullsLargeLe (key a) (key b) = true) := by
  haveI : IsTotal α (fun a b => nullsLargeLe (key a) (key b) = true) :=
    ⟨fun a b => nullsLargeLe_total _ _⟩
  haveI : IsTrans α (fun a b => nullsLargeLe (key a) (key b) = true) :=
    ⟨fun a b c => nullsLargeLe_trans _ _ _⟩
  exact List.sorted_insertionSort _ l

/-- Sorting audit entries newest first gives a list sorted newest first. -/
theorem pairwise_insertionSort_created (l : List AuditEntry) :
    (l.insertionSort (fun a b => b.created_at ≤ a.created_at)).Pairwise
      (fun a b => b.created_at ≤ a.created_at) := by
  haveI : IsTotal AuditEntry (fun a b => b.created_at ≤ a.created_at) :=
    ⟨fun a b => le_total _ _⟩
  haveI : IsTrans AuditEntry (fun a b => b.created_at ≤ a.created_at) :=
    ⟨fun a b c h1 h2 => le_trans h2 h1⟩
  exact List.sorted_insertionSort _ l

theorem filter_id_str {α : Type} (f : α → JVal) (id : String) (l : List α) :
    l.filter (fun x => prepareValue (JVal.str id) != JVal.null
        && f x == prepareValue (JVal.str id))
      = l.filter (fun x => f x == JVal.str id) := by
  apply List.filter_congr
  intro x _
  simp [prepareValue]

theorem expiresWithin_iff (env : Env) (n : Int) (r : Row) :
    expiresWithin env n r = true ↔
      r.get "status" = JVal.str "active"
        ∧ ∃ t : Int, r.get "expiration_date" = JVal.date t
            ∧ env.today ≤ t ∧ t ≤ env.today + n * 86400000 := by
  unfold expiresWithin
  cases h : r.get "expiration_date" <;> simp

theorem getExpiringSoon_num (env : Env) (n : Int) (db : Db) :
    getExpiringSoon env (JVal.num n) db =
      (.ok ((orderByExpirationAsc (db.contracts.filter (expiresWithin env n))).map
        (ContractView.ofRow env)), db) := by
  simp [getExpiringSoon, Db.selectExpiring, paramAt, prepareValue, daysParam]

theorem toDigitsCore_step (f n : Nat) (ds : List Char) (h : n / 10 ≠ 0) :
    Nat.toDigitsCore 10 (f + 1) n ds
      = Nat.toDigitsCore 10 f (n / 10) (Nat.digitChar (n % 10) :: ds) := by
  rw [Nat.toDigitsCore]
  simp only [h, if_false]

theorem toDigitsCore_last (f n : Nat) (ds : List Char) (h : n / 10 = 0) :
    Nat.toDigitsCore 10 (f + 1) n ds = Nat.digitChar (n % 10) :: ds := by
  rw [Nat.toDigitsCore]
  simp only [h, if_true]

theorem toDigits_four (n : Nat) (h1 : 1000 ≤ n) (h2 : n ≤ 9999) :
    (Nat.toDigits 10 n).length = 4 := by
  obtain ⟨f, hf⟩ : ∃ f, n + 1 = f + 1 + 1 + 1 + 1 := ⟨n - 3, by omega⟩
  unfold Nat.toDigits
  rw [hf, toDigitsCore_step _ _ _ (by omega), toDigitsCore_step _ _ _ (by omega),
    toDigitsCore_step _ _ _ (by omega), toDigitsCore_last _ _ _ (by omega)]
  rfl

theorem toString_four (n : Nat) (h1 : 1000 ≤ n) (h2 : n ≤ 9999) :
    (toString n).length = 4 := by
  show (Nat.repr n).length = 4
  unfold Nat.repr
  simp only [String.length, List.asString]
  exact toDigits_four n h1 h2

theorem floor_scaled (k D : Nat) (hD : 0 < D) :
    Int.floor (1000 + ((k : Rat) / (D : Rat)) * 9000)
      = (((1000 * D + k * 9000) / D : Nat) : Int) := by
  have hDq : (D : Rat) ≠ 0 := by exact_mod_cast hD.ne'
  have h : (1000 : Rat) + ((k : Rat) / (D : Rat)) * 9000
      = (((1000 * D + k * 9000 : Nat) : Rat)) / (D : Rat) := by
    push_cast
    field_simp
  rw [h, Rat.floor_natCast_div_natCast]
  norm_cast

theorem randomSuffix_bounds (r : Rat) (h0 : 0 ≤ r) (h1 : r < 1) :
    1000 ≤ randomSuffix r ∧ randomSuffix r ≤ 9999 := by
  unfold randomSuffix
  constructor
  · rw [Int.le_floor]; push_cast; nlinarith
  · have : Int.floor (1000 + r * 9000) < 10000 := by
      rw [Int.floor_lt]; push_cast; nlinarith
    omega

theorem insertedRow_contract_number (env : Env) (contractData : Obj) :
    (insertedRow env.now (createValues env contractData)).get "contract_number"
      = prepareValue ((contractData.get "contract_number").or
          (JVal.str (generateContractNumber env))) := by
  simp [insertedRow, createValues, insertColumns, Row.get, List.lookup]

theorem filter_length_le_of_imp {α : Type} (p q : α → Bool) (l : List α)
    (h : ∀ a, p a = true → q a = true) : (l.filter p).length ≤ (l.filter q).length := by
  induction l with
  | nil => simp
  | cons a l ih =>
    by_cases hp : p a = true
    · have hq := h a hp
      simp [List.filter_cons, hp, hq, ih]
    · by_cases hq : q a = true
      · simp [List.filter_cons, hp, hq]; omega
      · simp [List.filter_cons, hp, hq, ih]

theorem groupCount_sum (values : List JVal) :
    ((groupCount values).map Prod.snd).sum = values.length := by
  unfold groupCount
  rw [List.map_map]
  exact List.sum_map_count_dedup_eq_length values

theorem findAllFilters_of_truthy (s t q s' t' q' : JVal) (hs : s.truthy = s'.truthy)
    (ht : t.truthy = t'.truthy) (hq : q.truthy = q'.truthy) :
    (findAllFilters s t q).whereClauses = (findAllFilters s' t' q').whereClauses
      ∧ (findAllFilters s t q).paramCount = (findAllFilters s' t' q').paramCount := by
  unfold findAllFilters
  simp only [hs, ht, hq]
  cases s'.truthy <;> cases t'.truthy <;> cases q'.truthy <;> simp

theorem findAllFilters_values (s t q : JVal) :
    (findAllFilters s t q).values = [s, t, q].filter JVal.truthy
      ∧ (findAllFilters s t q).paramCount = ([s, t, q].filter JVal.truthy).length := by
  unfold findAllFilters
  cases hs : s.truthy <;> cases ht : t.truthy <;> cases hq : q.truthy <;>
    simp [List.filter_cons, hs, ht, hq]

theorem eligible_cons (p : String × JVal) (rest : Obj) :
    eligible (p :: rest)
      = if p.1 ≠ "id" ∧ p.2 ≠ JVal.undefined then p :: eligible rest else eligible rest := by
  unfold eligible
  rw [List.filter_cons]
  by_cases h : p.1 ≠ "id" ∧ p.2 ≠ JVal.undefined
  · rw [if_pos h, if_pos (decide_eq_true h)]
  · rw [if_neg h, if_neg (by rw [decide_eq_false h]; exact Bool.false_ne_true)]

/-- The keys `update` assigns depend only on the keys of the patch and on
which of its values are defined. -/
theorem eligible_keys_congr (l l' : Obj)
    (h : l.map (fun e => (e.1, decide (e.2 = JVal.undefined)))
      = l'.map (fun e => (e.1, decide (e.2 = JVal.undefined)))) :
    (eligible l).map Prod.fst = (eligible l').map Prod.fst := by
  induction l generalizing l' with
  | nil =>
    cases l' with
    | nil => rfl
    | cons _ _ => simp at h
  | cons p rest ih =>
    cases l' with
    | nil => simp at h
    | cons p' rest' =>
      simp only [List.map_cons, List.cons.injEq, Prod.mk.injEq] at h
      obtain ⟨⟨hk, hu⟩, hrest⟩ := h
      have hu2 : (p.2 = JVal.undefined) ↔ (p'.2 = JVal.undefined) := by
        simpa using hu
      have ih2 := ih rest' hrest
      rw [eligible_cons, eligible_cons]
      by_cases hc : p.1 ≠ "id" ∧ p.2 ≠ JVal.undefined
      · have hc' : p'.1 ≠ "id" ∧ p'.2 ≠ JVal.undefined :=
          ⟨hk ▸ hc.1, fun e => hc.2 (hu2.mpr e)⟩
        rw [if_pos hc, if_pos hc', List.map_cons, List.map_cons, hk, ih2]
      · have hc' : ¬ (p'.1 ≠ "id" ∧ p'.2 ≠ JVal.undefined) := by
          intro hx
          exact hc ⟨hk ▸ hx.1, fun e => hx.2 (hu2.mp e)⟩
        rw [if_neg hc, if_neg hc', ih2]

theorem numberFrom_of_keys (k : Nat) (l l' : Obj) (h : l.map Prod.fst = l'.map Prod.fst) :
    numberFrom k l = numberFrom k l' := by
  induction l generalizing k l' with
  | nil =>
    cases l' with
    | nil => rfl
    | cons _ _ => simp at h
  | cons p rest ih =>
    cases l' with
    | nil => simp at h
    | cons p' rest' =>
      simp only [List.map_cons, List.cons.injEq] at h
      simp only [numberFrom, h.1, ih (k + 1) rest' h.2]

theorem updateQuery_eq (id : JVal) (updateData : Obj) :
    updateQuery id updateData =
      if (eligible updateData).length = 0 then none
      else some ⟨updateQueryText (numberFrom 0 (eligible updateData))
        ((eligible updateData).length + 1), (eligible updateData).map Prod.snd ++ [id]⟩ := by
  unfold updateQuery
  simp only [updateFields_eq, numberFrom_length]

theorem checkNotEmpty_of_lacks (body : Obj) (k msg : String) (h : lacksField body k) :
    checkNotEmpty body k msg = [⟨k, msg⟩] := by
  unfold checkNotEmpty
  rcases h with h | h | h <;> rw [h] <;> rfl

theorem truthy_of_lacks (body : Obj) (k : String) (h : lacksField body k) :
    (body.get k).truthy = false := by
  rcases h with h | h | h <;> rw [h] <;> rfl

theorem validateContract_ne_nil (isDate : String → Bool) (body : Obj)
    (h : lacksField body "title" ∨ lacksField body "counterparty_name"
      ∨ lacksField body "owner_user_id") :
    ¬ (validateContract isDate body).isEmpty = true := by
  unfold validateContract
  rcases h with h | h | h
  · simp [checkNotEmpty_of_lacks _ _ _ h]
  · simp [checkNotEmpty_of_lacks _ _ _ h]
  · simp [checkNotEmpty_of_lacks _ _ _ h]

theorem failingRepo_throws (e : Err) : (failingRepo e).throws :=
  ⟨fun _ _ _ _ _ db => ⟨e, db, rfl⟩, fun db => ⟨e, db, rfl⟩, fun _ db => ⟨e, db, rfl⟩,
   fun _ db => ⟨e, db, rfl⟩, fun _ db => ⟨e, db, rfl⟩, fun _ _ _ db => ⟨e, db, rfl⟩,
   fun _ _ db => ⟨e, db, rfl⟩⟩

theorem isEmpty_cases (errors : List ValidationError) :
    errors.isEmpty = true ∨ (¬ errors.isEmpty = true ∧ errors ≠ []) := by
  cases errors with
  | nil => exact Or.inl rfl
  | cons a l => exact Or.inr ⟨fun h => Bool.noConfusion h, List.cons_ne_nil a l⟩

theorem create_returns_row (env : Env) (contractData : Obj) (db db1 : Db) (row : Option Row)
    (h : create env contractData db = (.ok row, db1)) : row.isSome = true := by
  rw [create_eq] at h
  rcases hs : createMilestoneStep env contractData
    { db with contracts := db.contracts
        ++ [insertedRow env.now (createValues env contractData)] } with ⟨e | u, db2⟩
  · rw [hs] at h; simp at h
  · rw [hs] at h
    simp only [Prod.mk.injEq, Except.ok.injEq] at h
    rw [← h.1]; rfl

theorem shape_errors (errors : List ValidationError) (hne : errors ≠ []) :
    contractResponseShape ⟨400, ResBody.errors errors⟩ :=
  Or.inl ⟨rfl, errors, rfl, hne⟩

theorem shape_failure (status : Nat) (msg : String) :
    contractResponseShape ⟨status, ResBody.failure msg⟩ :=
  Or.inr (Or.inl ⟨rfl, by simp [ResBody.fields]⟩)

theorem routeList_shape (lib : Lib) (repo : Repo) (req : Request) (db : Db) :
    contractResponseShape (routeList lib repo req db).1
      ∧ ∀ m, (routeList lib repo req db).1.body ≠ ResBody.message m := by
  simp only [routeList]
  rcases isEmpty_cases (checkOptionalInt lib req.query "page" (some 1) none
    ++ checkOptionalInt lib req.query "limit" (some 1) (some 100)
    ++ checkOptionalString req.query "status" ++ checkOptionalString req.query "type"
    ++ checkOptionalString req.query "search") with hv | ⟨hv, hne⟩
  · simp only [hv, not_true_eq_false, if_false]
    rcases repo.findAll (sanitizedInt lib req.query "page") (sanitizedInt lib req.query "limit")
      (req.query.get "status") (req.query.get "type") (req.query.get "search") db
      with ⟨e | v, db1⟩
    · exact ⟨shape_failure _ _, fun m h => by cases h⟩
    · exact ⟨Or.inr (Or.inr (Or.inl ⟨rfl, by simp [ResBody.fields]⟩)), fun m h => by cases h⟩
  · simp only [if_pos hv]
    exact ⟨shape_errors _ hne, fun m h => by cases h⟩

theorem routeStats_shape (repo : Repo) (req : Request) (db : Db) :
    contractResponseShape (routeStats repo req db).1
      ∧ ∀ m, (routeStats repo req db).1.body ≠ ResBody.message m := by
  simp only [routeStats]
  rcases repo.getDashboardStats db with ⟨e | v, db1⟩
  · exact ⟨shape_failure _ _, fun m h => by cases h⟩
  · exact ⟨Or.inr (Or.inr (Or.inl ⟨rfl, by simp [ResBody.fields]⟩)), fun m h => by cases h⟩

theorem routeExpiring_shape (repo : Repo) (req : Request) (db : Db) :
    contractResponseShape (routeExpiring repo req db).1
      ∧ ∀ m, (routeExpiring repo req db).1.body ≠ ResBody.message m := by
  simp only [routeExpiring]
  rcases repo.getExpiringSoon ((req.query.get "days").or (JVal.num 30)) db with ⟨e | v, db1⟩
  · exact ⟨shape_failure _ _, fun m h => by cases h⟩
  · exact ⟨Or.inr (Or.inr (Or.inl ⟨rfl, by simp [ResBody.fields]⟩)), fun m h => by cases h⟩

theorem routeGetById_shape (lib : Lib) (repo : Repo) (id : String) (req : Request) (db : Db) :
    contractResponseShape (routeGetById lib repo id req db).1
      ∧ ∀ m, (routeGetById lib repo id req db).1.body ≠ ResBody.message m := by
  simp only [routeGetById]
  rcases isEmpty_cases (checkId lib id) with hv | ⟨hv, hne⟩
  · simp only [hv, not_true_eq_false, if_false]
    rcases repo.findById (JVal.str id) db with ⟨e | v, db1⟩
    · exact ⟨shape_failure _ _, fun m h => by cases h⟩
    · cases v with
      | none => exact ⟨shape_failure _ _, fun m h => by cases h⟩
      | some c =>
        exact ⟨Or.inr (Or.inr (Or.inl ⟨rfl, by simp [ResBody.fields]⟩)), fun m h => by cases h⟩
  · simp only [if_pos hv]
    exact ⟨shape_errors _ hne, fun m h => by cases h⟩

theorem routePost_shape (lib : Lib) (repo : Repo) (req : Request) (db : Db)
    (hcreate : ∀ data db0 row db1, repo.create data db0 = (.ok row, db1) → row.isSome = true) :
    contractResponseShape (routePost lib repo req db).1
      ∧ ∀ m, (routePost lib repo req db).1.body ≠ ResBody.message m := by
  simp only [routePost]
  rcases isEmpty_cases (validateContract lib.isDate req.body) with hv | ⟨hv, hne⟩
  · simp only [hv, not_true_eq_false, if_false]
    rcases hres : repo.create (req.body.set "created_by" (req.xUserId.or (JVal.str "anonymous")))
      db with ⟨e | v, db1⟩
    · exact ⟨shape_failure _ _, fun m h => by cases h⟩
    · have hsome := hcreate _ _ _ _ hres
      exact ⟨Or.inr (Or.inr (Or.inl ⟨rfl, by simp [ResBody.fields, hsome]⟩)),
        fun m h => by cases h⟩
  · simp only [if_pos hv]
    exact ⟨shape_errors _ hne, fun m h => by cases h⟩

theorem routePut_shape (lib : Lib) (repo : Repo) (id : String) (req : Request) (db : Db) :
    contractResponseShape (routePut lib repo id req db).1
      ∧ ∀ m, (routePut lib repo id req db).1.body ≠ ResBody.message m := by
  simp only [routePut]
  rcases isEmpty_cases (checkId lib id) with hv | ⟨hv, hne⟩
  · simp only [hv, not_true_eq_false, if_false]
    rcases repo.update (JVal.str id) req.body (req.xUserId.or (JVal.str "anonymous")) db
      with ⟨e | v, db1⟩
    · exact ⟨shape_failure _ _, fun m h => by cases h⟩
    · cases v with
      | none => exact ⟨shape_failure _ _, fun m h => by cases h⟩
      | some c =>
        exact ⟨Or.inr (Or.inr (Or.inl ⟨rfl, by simp [ResBody.fields]⟩)), fun m h => by cases h⟩
  · simp only [if_pos hv]
    exact ⟨shape_errors _ hne, fun m h => by cases h⟩

theorem routeDelete_shape (lib : Lib) (repo : Repo) (id : String) (req : Request) (db : Db) :
    contractResponseShape (routeDelete lib repo id req db).1 := by
  simp only [routeDelete]
  rcases isEmpty_cases (checkId lib id) with hv | ⟨hv, hne⟩
  · simp only [hv, not_true_eq_false, if_false]
    rcases repo.delete (JVal.str id) (req.xUserId.or (JVal.str "anonymous")) db
      with ⟨e | v, db1⟩
    · exact shape_failure _ _
    · cases v with
      | none => exact shape_failure _ _
      | some c => exact Or.inr (Or.inr (Or.inr rfl))
  · simp only [if_pos hv]
    exact shape_errors _ hne

/-- A path segment fits one fixed word at most, up to case. -/
theorem fits_lit_ne (s t w : String) (h : (Seg.lit s).fits w = true)
    (hne : s.data.map Char.toLower ≠ t.data.map Char.toLower) :
    (Seg.lit t).fits w = false := by
  simp only [Seg.fits, beq_iff_eq] at h
  simp only [Seg.fits, beq_eq_false_iff_ne, ne_eq]
  intro e
  exact hne (h.trans e.symm)

/-- A path segment that fits a fixed word is not empty, so it fits `:id` too. -/
theorem fits_param_of_lit (s w : String) (h : (Seg.lit s).fits w = true) (hs : s ≠ "") :
    Seg.param.fits w = true := by
  simp only [Seg.fits, beq_iff_eq] at h
  simp only [Seg.fits, bne_iff_ne, ne_eq]
  intro e
  subst e
  apply hs
  have h0 : s.data = [] := by simpa using h
  exact String.ext h0

/-- A spread that sets one key leaves the value of any other key. -/
theorem Obj.get_spread_other (o : Obj) (c k : String) (v : JVal) (h : k ≠ c) :
    (o.set c v).get k = o.get k := by
  unfold Obj.get Obj.set
  have hmap : o.map (fun p => if (p.1 == c) = true then (p.1, v) else p)
      = o.map (fun p => if p.1 = c then (p.1, v) else p) := by
    apply List.map_congr_left
    intro p _
    simp only [beq_iff_eq]
  by_cases ha : o.any (fun p => p.1 == c) = true
  · rw [if_pos ha, hmap, lookup_map_set]; simp [h]
  · rw [if_neg ha, lookup_append_single]
    simp [h]

/-- With a date string for `expiration_date`, `create` inserts the contract
row and then throws from `createDefaultMilestones`. -/
theorem create_of_date_string (env : Env) (contractData : Obj) (db : Db) (s : String)
    (h : contractData.get "expiration_date" = JVal.str s) (hs : s ≠ "") :
    create env contractData db
      = (.error (.typeError "expirationDate.getTime is not a function"),
          { db with contracts := db.contracts
              ++ [insertedRow env.now (createValues env contractData)] }) := by
  rw [create_eq]
  have hstep : ∀ db1 : Db, createMilestoneStep env contractData db1
      = (.error (.typeError "expirationDate.getTime is not a function"), db1) := by
    intro db1
    simp [createMilestoneStep, h, JVal.truthy, hs, createDefaultMilestones, JVal.getTime]
  rw [hstep]

/-- No row is hit by a condition on an id that no contract has. -/
theorem map_hit_of_missing (rows : List Row) (id : String) (upd : Row → Row)
    (hno : ∀ r ∈ rows, r.get "id" ≠ JVal.str id) :
    rows.map (fun r => if (JVal.str id != JVal.null && r.get "id" == JVal.str id) = true
        then upd r else r) = rows
      ∧ rows.filter (fun r => JVal.str id != JVal.null && r.get "id" == JVal.str id) = [] := by
  refine ⟨?_, ?_⟩
  · have h : ∀ r ∈ rows, (fun r : Row =>
        if (JVal.str id != JVal.null && r.get "id" == JVal.str id) = true then upd r else r) r
        = (fun r : Row => r) r := by
      intro r hr
      have := hno r hr
      simp [this]
    rw [List.map_congr_left h]
    exact List.map_id'' (fun _ => rfl) _
  · rw [List.filter_eq_nil_iff]
    intro r hr
    have := hno r hr
    simp [this]

/-- On an id that no contract has, `update` with an acceptable patch changes
no contract, returns `undefined` and writes its audit entry. -/
theorem update_of_missing_id (env : Env) (id : String) (updateData : Obj) (userId : JVal)
    (db : Db) (hno : ∀ r ∈ db.contracts, r.get "id" ≠ JVal.str id)
    (hne : eligible updateData ≠ [])
    (hcol : ∀ p ∈ eligible updateData, p.1 ∈ contractColumns ∧ p.1 ≠ "updated_at")
    (hnd : ((eligible updateData).map Prod.fst).Nodup) :
    update env (JVal.str id) updateData userId db
      = (.ok none, ⟨db.contracts, db.contract_milestones, db.audit_logs ++
          [⟨JVal.str id, JVal.str "UPDATE", prepareValue (userId.or (JVal.str "system")),
            ⟨"contract_updated", none, some updateData⟩, env.now⟩]⟩) := by
  have hid : paramAt ((eligible updateData).map Prod.snd ++ [JVal.str id])
      ((eligible updateData).length + 1) = some (JVal.str id) := by
    have := paramAt_append_mid ((eligible updateData).map Prod.snd) [] (JVal.str id)
    rw [List.length_map] at this
    exact this
  have hitems : ∀ f ∈ numberFrom 0 (eligible updateData), ∃ p ∈ eligible updateData,
      p.1 = f.key ∧ paramAt ((eligible updateData).map Prod.snd ++ [JVal.str id]) f.param
        = some (prepareValue p.2) := by
    intro f hf
    have := numberFrom_paramAt [] (eligible updateData) [JVal.str id] f hf
    simpa using this
  have hnd2 : ((numberFrom 0 (eligible updateData)).map SetItem.key ++ ["updated_at"]).Nodup := by
    rw [numberFrom_keys, List.nodup_append]
    refine ⟨hnd, List.nodup_singleton _, ?_⟩
    intro c hc hc2
    obtain ⟨p, hp, rfl⟩ := List.mem_map.mp hc
    exact (hcol p hp).2 (List.mem_singleton.mp hc2)
  obtain ⟨rows, db1, hq⟩ := assignColumns_accepts db env.now
    (numberFrom 0 (eligible updateData)) ((eligible updateData).length + 1)
    ((eligible updateData).map Prod.snd ++ [JVal.str id]) (JVal.str id)
    (by
      intro c hc
      rw [numberFrom_keys] at hc
      obtain ⟨p, hp, rfl⟩ := List.mem_map.mp hc
      exact (hcol p hp).1)
    hnd2
    (by
      intro f hf
      obtain ⟨p, _, _, hv⟩ := hitems f hf
      rw [hv]; rfl)
    hid
  obtain ⟨_, idv, hidv, hrows, hdb⟩ := assignColumns_ok _ _ _ _ _ _ _ hq
  rw [hid] at hidv
  have hidv2 : idv = JVal.str id := (Option.some.inj hidv).symm
  subst hidv2
  obtain ⟨hmap, hfilt⟩ := map_hit_of_missing db.contracts id
    (updatedRow env.now (numberFrom 0 (eligible updateData))
      ((eligible updateData).map Prod.snd ++ [JVal.str id])) hno
  rw [hfilt] at hrows
  rw [hmap] at hdb
  have hcolf : ∀ f ∈ numberFrom 0 (eligible updateData), f.key ∈ contractColumns := by
    intro f hf
    have hk : f.key ∈ (numberFrom 0 (eligible updateData)).map SetItem.key :=
      List.mem_map_of_mem _ hf
    rw [numberFrom_keys] at hk
    obtain ⟨p, hp, hpk⟩ := List.mem_map.mp hk
    rw [← hpk]
    exact (hcol p hp).1
  rw [update_eq env _ updateData userId db hne, updateContracts_of_columns db env _ _ _ hcolf,
    hq, hrows, hdb]
  rfl

/-- On an id that no contract has, `delete` changes no contract, returns
`undefined` and writes its audit entry. -/
theorem delete_of_missing_id (env : Env) (id : String) (userId : JVal) (db : Db)
    (hno : ∀ r ∈ db.contracts, r.get "id" ≠ JVal.str id) :
    delete env (JVal.str id) userId db
      = (.ok none, ⟨db.contracts, db.contract_milestones, db.audit_logs ++
          [⟨JVal.str id, JVal.str "DELETE", prepareValue (userId.or (JVal.str "system")),
            ⟨"contract_terminated", none, none⟩, env.now⟩]⟩) := by
  obtain ⟨hmap, hfilt⟩ := map_hit_of_missing db.contracts id
    (fun r => (r.set "status" (JVal.str "terminated")).set "updated_at" (JVal.date env.now)) hno
  rw [delete_eq]
  have hp : prepareValue (JVal.str id) = JVal.str id := rfl
  rw [hp, hmap, hfilt]
  rfl

/-- A text without a line feed is one line. -/
theorem splitLines_of_no_newline (xs : List Char) (h : newlineChar ∉ xs) :
    splitLines xs = [xs] := by
  induction xs with
  | nil => rfl
  | cons ch rest ih =>
    have h1 : ch ≠ newlineChar := fun e => h (by rw [e]; exact List.mem_cons_self _ _)
    have h2 : newlineChar ∉ rest := fun e => h (List.mem_cons_of_mem _ e)
    rw [splitLines, if_neg h1, ih h2]

/-- The first line of a text ends at its first line feed. -/
theorem splitLines_append_newline (xs ys : List Char) (h : newlineChar ∉ xs) :
    splitLines (xs ++ newlineChar :: ys) = xs :: splitLines ys := by
  induction xs with
  | nil => simp [splitLines]
  | cons ch rest ih =>
    have h1 : ch ≠ newlineChar := fun e => h (by rw [e]; exact List.mem_cons_self _ _)
    have h2 : newlineChar ∉ rest := fun e => h (List.mem_cons_of_mem _ e)
    rw [List.cons_append, splitLines, if_neg h1, ih h2]

/-- Reading a line in two pieces. -/
theorem commasOutside_append (inside : Bool) (xs ys : List Char) :
    commasOutside inside (xs ++ ys)
      = commasOutside inside xs + commasOutside (insideAfter inside xs) ys := by
  induction xs generalizing inside with
  | nil => simp [commasOutside, insideAfter]
  | cons ch rest ih =>
    rw [List.cons_append, commasOutside, commasOutside, insideAfter]
    by_cases hq : ch = quoteChar
    · simp only [hq, if_true, ih]
    · simp only [hq, if_false, ih]
      by_cases hc : ch = ',' ∧ inside = false
      · simp only [hc, and_self, if_true]; omega
      · simp only [hc, if_false]

/-- Within a quoted stretch, a piece without a double quote separates nothing
and leaves the reading within the stretch. -/
theorem commasOutside_quoted (xs : List Char) (h : quoteChar ∉ xs) :
    commasOutside true xs = 0 ∧ insideAfter true xs = true := by
  induction xs with
  | nil => exact ⟨rfl, rfl⟩
  | cons ch rest ih =>
    have h1 : ch ≠ quoteChar := fun e => h (by rw [e]; exact List.mem_cons_self _ _)
    have h2 : quoteChar ∉ rest := fun e => h (List.mem_cons_of_mem _ e)
    rw [commasOutside, insideAfter]
    simp only [h1, if_false, Bool.true_eq_false, and_false]
    exact ih h2

set_option maxRecDepth 100000 in
/-- The CSV text of the table that holds `quoteRow` alone. -/
theorem csvText_quoteRow (dateText : Int → String) :
    (csvText dateText quoteRow [quoteRow]).data
      = (",".intercalate (quoteRow.map Prod.fst)).data
        ++ newlineChar :: ("c1,CON-2025-1234,5".data
          ++ quoteChar :: " disk,,Acme,,,u1,,active,MSA,,,,,USD,,,".data
          ++ (((dateText 500).data ++ [',']) ++ (dateText 500).data)) := by
  rfl

set_option maxRecDepth 100000 in
/-- The CSV text of the table that holds `twoLineRow` alone. -/
theorem csvText_twoLineRow (dateText : Int → String) :
    (csvText dateText twoLineRow [twoLineRow]).data
      = (",".intercalate (twoLineRow.map Prod.fst)).data
        ++ newlineChar :: ("c2,CON-2025-1235,MSA,first".data
          ++ newlineChar :: ("second,Acme,,,u1,,active,MSA,,,,,USD,,,".data
          ++ (((dateText 500).data ++ [',']) ++ (dateText 500).data))) := by
  rfl

theorem excessBits_le (j : Nat) : ∀ (fuel n : Nat), n < 2 ^ (53 + j) → excessBits fuel n ≤ j := by
  induction j with
  | zero =>
    intro fuel n h
    cases fuel with
    | zero => simp [excessBits]
    | succ f =>
      have h2 : n < 2 ^ 53 := by simpa using h
      rw [excessBits, if_pos h2]
  | succ j ih =>
    intro fuel n h
    cases fuel with
    | zero => simp [excessBits]
    | succ f =>
      rw [excessBits]
      split
      · omega
      · have h2 : n / 2 < 2 ^ (53 + j) := by
          rw [Nat.div_lt_iff_lt_mul (by norm_num)]
          calc n < 2 ^ (53 + (j + 1)) := h
            _ = 2 ^ (53 + j) * 2 := by rw [← Nat.add_assoc, pow_succ]
        have := ih f (n / 2) h2
        omega

theorem excessBits_ge (j : Nat) : ∀ (fuel n : Nat), 2 ^ (52 + j) ≤ n → j ≤ fuel →
    j ≤ excessBits fuel n := by
  induction j with
  | zero => intro fuel n _ _; exact Nat.zero_le _
  | succ j ih =>
    intro fuel n h hf
    cases fuel with
    | zero => omega
    | succ f =>
      rw [excessBits]
      have h53 : ¬ n < 2 ^ 53 := by
        have : 2 ^ 53 ≤ 2 ^ (52 + (j + 1)) := Nat.pow_le_pow_right (by norm_num) (by omega)
        omega
      rw [if_neg h53]
      have h2 : 2 ^ (52 + j) ≤ n / 2 := by
        rw [Nat.le_div_iff_mul_le (by norm_num)]
        calc 2 ^ (52 + j) * 2 = 2 ^ (52 + (j + 1)) := by rw [← Nat.add_assoc, pow_succ]
          _ ≤ n := h
      have := ih f (n / 2) h2 (by omega)
      omega

/-- Rounding does not pass a number of the grid that is nearer than half a step. -/
theorem roundDouble_le (n U : Nat) (hU : 2 ^ excessBits n n ∣ U)
    (h : 2 * n < 2 * U + 2 ^ excessBits n n) : roundDouble n ≤ U := by
  obtain ⟨u, rfl⟩ := hU
  unfold roundDouble
  simp only
  generalize 2 ^ excessBits n n = q at *
  have hq : 0 < q := by
    rcases Nat.eq_zero_or_pos q with h0 | h0
    · subst h0; simp at h
    · exact h0
  have hdm := Nat.div_add_mod n q
  have hml := Nat.mod_lt n hq
  split
  · rename_i hup
    have h2 : q ≤ 2 * (n % q) := by
      rcases hup with h1 | h1
      · omega
      · omega
    have : n / q < u := by
      by_contra hc
      push_neg at hc
      have : q * u ≤ q * (n / q) := Nat.mul_le_mul_left q hc
      nlinarith
    calc (n / q + 1) * q ≤ u * q := Nat.mul_le_mul_right q this
      _ = q * u := Nat.mul_comm _ _
  · have : n / q ≤ u := by
      by_contra hc
      push_neg at hc
      have : q * (u + 1) ≤ q * (n / q) := Nat.mul_le_mul_left q hc
      have e : q * (u + 1) = q * u + q := by ring
      have hA : q * (n / q) ≤ n := Nat.mul_div_le n q
      linarith
    calc n / q * q ≤ u * q := Nat.mul_le_mul_right q this
      _ = q * u := Nat.mul_comm _ _

theorem le_roundDouble (n L : Nat) (hL : 2 ^ excessBits n n ∣ L) (h : L ≤ n) :
    L ≤ roundDouble n := by
  obtain ⟨l, rfl⟩ := hL
  unfold roundDouble
  simp only
  generalize 2 ^ excessBits n n = q at *
  rcases Nat.eq_zero_or_pos q with h0 | hq
  · subst h0; simp
  have hl : l ≤ n / q := by
    rw [Nat.le_div_iff_mul_le hq, Nat.mul_comm]
    exact h
  have h1 : q * l ≤ n / q * q := by
    rw [Nat.mul_comm]
    exact Nat.mul_le_mul_right q hl
  split
  · calc q * l ≤ n / q * q := h1
      _ ≤ (n / q + 1) * q := Nat.mul_le_mul_right q (Nat.le_succ _)
  · exact h1

theorem roundDouble_near (n : Nat) :
    2 * roundDouble n ≤ 2 * n + 2 ^ excessBits n n := by
  unfold roundDouble
  simp only
  generalize 2 ^ excessBits n n = q
  rcases Nat.eq_zero_or_pos q with h0 | hq
  · subst h0; simp
  have hdm := Nat.div_add_mod n q
  have hml := Nat.mod_lt n hq
  split
  · rename_i hup
    have : (n / q + 1) * q = q * (n / q) + q := by ring
    rw [this]
    rcases hup with h1 | h1 <;> omega
  · have : n / q * q = q * (n / q) := Nat.mul_comm _ _
    rw [this]
    omega

theorem pow_dvd_of_le14 (s X : Nat) (hs : s ≤ 14) (hX : 2 ^ 14 ∣ X) : 2 ^ s ∣ X :=
  (Nat.pow_dvd_pow 2 hs).trans hX

theorem product_le (k : Nat) (hk : k < 2 ^ 53) :
    roundDouble (k * 9000) ≤ 9000 * 2 ^ 53 - 2 ^ 14 := by
  have hn : k * 9000 ≤ 9000 * 2 ^ 53 - 9000 := by omega
  have h67 : k * 9000 < 2 ^ (53 + 14) := by norm_num; omega
  have hs := excessBits_le 14 (k * 9000) (k * 9000) h67
  by_cases hc : k * 9000 < 2 ^ 66
  · have hs13 := excessBits_le 13 (k * 9000) (k * 9000) (by norm_num; omega)
    apply roundDouble_le
    · exact pow_dvd_of_le14 _ _ hs (by norm_num)
    · have hq : 0 < 2 ^ excessBits (k * 9000) (k * 9000) := Nat.two_pow_pos _
      generalize 2 ^ excessBits (k * 9000) (k * 9000) = q at hq ⊢
      norm_num at hc ⊢
      omega
  · have hge := excessBits_ge 14 (k * 9000) (k * 9000) (by norm_num at hc ⊢; omega)
      (by norm_num at hc; omega)
    have heq : excessBits (k * 9000) (k * 9000) = 14 := le_antisymm hs hge
    apply roundDouble_le
    · rw [heq]; norm_num
    · rw [heq]; norm_num; omega

theorem randomSuffixOf_bounds (k : Nat) (hk : k < 2 ^ 53) :
    1000 ≤ randomSuffixOf k ∧ randomSuffixOf k ≤ 9999 := by
  have hp := product_le k hk
  set p := roundDouble (k * 9000) with hpdef
  have h67 : 1000 * 2 ^ 53 + p < 2 ^ (53 + 14) := by norm_num at hp ⊢; omega
  have hs := excessBits_le 14 (1000 * 2 ^ 53 + p) (1000 * 2 ^ 53 + p) h67
  have hlo : 1000 * 2 ^ 53 ≤ roundDouble (1000 * 2 ^ 53 + p) :=
    le_roundDouble _ _ (pow_dvd_of_le14 _ _ hs (by norm_num)) (by omega)
  have hhi : roundDouble (1000 * 2 ^ 53 + p) ≤ 10000 * 2 ^ 53 - 2 ^ 14 := by
    apply roundDouble_le
    · exact pow_dvd_of_le14 _ _ hs (by norm_num)
    · have hq : 0 < 2 ^ excessBits (1000 * 2 ^ 53 + p) (1000 * 2 ^ 53 + p) :=
        Nat.two_pow_pos _
      generalize 2 ^ excessBits (1000 * 2 ^ 53 + p) (1000 * 2 ^ 53 + p) = q at hq ⊢
      norm_num at hp ⊢
      omega
  unfold randomSuffixOf
  rw [← hpdef]
  constructor
  · rw [Nat.le_div_iff_mul_le (by norm_num)]
    exact hlo
  · have : roundDouble (1000 * 2 ^ 53 + p) < 10000 * 2 ^ 53 := by norm_num at hhi ⊢; omega
    have := (Nat.div_lt_iff_lt_mul (by norm_num : 0 < 2 ^ 53)).mpr this
    omega

/-- The double arithmetic never falls below the exact value's floor and
exceeds it by one at most. -/
theorem randomSuffixOf_near (k : Nat) (hk : k < 2 ^ 53) :
    (1000 * 2 ^ 53 + k * 9000) / 2 ^ 53 ≤ randomSuffixOf k
      ∧ randomSuffixOf k ≤ (1000 * 2 ^ 53 + k * 9000) / 2 ^ 53 + 1 := by
  unfold randomSuffixOf
  have h67 : k * 9000 < 2 ^ (53 + 14) := by norm_num; omega
  have hs1 := excessBits_le 14 (k * 9000) (k * 9000) h67
  have hp := product_le k hk
  have hnear1 := roundDouble_near (k * 9000)
  have hq1 : 2 ^ excessBits (k * 9000) (k * 9000) ≤ 2 ^ 14 :=
    Nat.pow_le_pow_right (by norm_num) hs1
  have hlow1 : ∀ j : Nat, j * 2 ^ 53 ≤ k * 9000 → j * 2 ^ 53 ≤ roundDouble (k * 9000) := by
    intro j hj
    exact le_roundDouble _ _ (pow_dvd_of_le14 _ _ hs1
      (Dvd.dvd.mul_left (by norm_num) j)) hj
  generalize roundDouble (k * 9000) = p at hp hnear1 hlow1 ⊢
  have h67b : 1000 * 2 ^ 53 + p < 2 ^ (53 + 14) := by norm_num at hp ⊢; omega
  have hs2 := excessBits_le 14 (1000 * 2 ^ 53 + p) (1000 * 2 ^ 53 + p) h67b
  have hnear2 := roundDouble_near (1000 * 2 ^ 53 + p)
  have hq2 : 2 ^ excessBits (1000 * 2 ^ 53 + p) (1000 * 2 ^ 53 + p) ≤ 2 ^ 14 :=
    Nat.pow_le_pow_right (by norm_num) hs2
  have hlow2 : ∀ j : Nat, j * 2 ^ 53 ≤ 1000 * 2 ^ 53 + p →
      j * 2 ^ 53 ≤ roundDouble (1000 * 2 ^ 53 + p) := by
    intro j hj
    exact le_roundDouble _ _ (pow_dvd_of_le14 _ _ hs2
      (Dvd.dvd.mul_left (by norm_num) j)) hj
  generalize roundDouble (1000 * 2 ^ 53 + p) = s at hnear2 hlow2 ⊢
  generalize 2 ^ excessBits (1000 * 2 ^ 53 + p) (1000 * 2 ^ 53 + p) = q2 at hnear2 hq2
  generalize 2 ^ excessBits (k * 9000) (k * 9000) = q1 at hnear1 hq1
  constructor
  · rw [Nat.le_div_iff_mul_le (by norm_num)]
    have hj0 : (1000 * 2 ^ 53 + k * 9000) / 2 ^ 53 * 2 ^ 53 ≤ 1000 * 2 ^ 53 + k * 9000 :=
      Nat.div_mul_le_self _ _
    have hge : 1000 ≤ (1000 * 2 ^ 53 + k * 9000) / 2 ^ 53 := by
      rw [Nat.le_div_iff_mul_le (by norm_num)]
      omega
    obtain ⟨j, hj⟩ : ∃ j, (1000 * 2 ^ 53 + k * 9000) / 2 ^ 53 = 1000 + j :=
      ⟨_, (Nat.add_sub_cancel' hge).symm⟩
    rw [hj] at hj0 ⊢
    have h1 : j * 2 ^ 53 ≤ p := hlow1 j (by
      have : (1000 + j) * 2 ^ 53 = 1000 * 2 ^ 53 + j * 2 ^ 53 := by ring
      omega)
    exact hlow2 (1000 + j) (by
      have : (1000 + j) * 2 ^ 53 = 1000 * 2 ^ 53 + j * 2 ^ 53 := by ring
      omega)
  · norm_num at hq1 hq2 hnear1 hnear2 ⊢
    omega

/-! ## The claims -/

/-- C1: for every contract id and every expiration date `D`,
`createDefaultMilestones` inserts exactly three milestones after the ones
already stored and touches nothing else: first `review`, due 90 days
(`90 * 86400000` ms) before `D`, then `renewal`, due 60 days before `D`, then
`expiration`, due at `D`; each carries the contract id. -/
theorem createDefaultMilestones_three (uuids : Nat → String) (contractId : String) (D : Int)
    (db : Db) :
    createDefaultMilestones uuids (JVal.str contractId) (JVal.date D) db =
      (.ok (),
       { contracts := db.contracts,
         contract_milestones := db.contract_milestones ++
           [⟨JVal.str (uuids 0), JVal.str contractId, JVal.str "review",
              JVal.str "90-Day Review", JVal.date (D - 90 * 86400000), JVal.null, JVal.null⟩,
            ⟨JVal.str (uuids 1), JVal.str contractId, JVal.str "renewal",
              JVal.str "60-Day Renewal Notice", JVal.date (D - 60 * 86400000), JVal.null,
              JVal.null⟩,
            ⟨JVal.str (uuids 2), JVal.str contractId, JVal.str "expiration",
              JVal.str "Contract Expiration", JVal.date D, JVal.null, JVal.null⟩],
         audit_logs := db.audit_logs }) := by
  simp [createDefaultMilestones, JVal.getTime, createMilestones, createMilestone_eq, Obj.get,
    List.lookup, JVal.or, JVal.truthy, prepareValue]

/-- C2, refuted as stated: the handler of `POST /api/contracts` answers the
example body of the specification (no `type` field) with status 400, not 201,
and the database has no milestone afterwards. -/
theorem postContract_example_rejected :
    (postContract (fun s => decide (s = "2025-12-31")) exampleEnv JVal.undefined exampleBody
        emptyDb).1.status = 400
      ∧ (postContract (fun s => decide (s = "2025-12-31")) exampleEnv JVal.undefined
        exampleBody emptyDb).1.status ≠ 201
      ∧ (postContract (fun s => decide (s = "2025-12-31")) exampleEnv JVal.undefined
        exampleBody emptyDb).2.contract_milestones.length ≠ 3 := by
  decide

/-- C2, amended: whatever the date validator, the environment, the caller and
the database are, the example body of the specification (no `type` field) is
answered with status 400 and a validation error `Contract type is required`
for `type`, and the database is left as it was: no contract, no milestone and
no audit entry is written. -/
theorem postContract_example_400 (isDate : String → Bool) (env : Env) (xUserId : JVal)
    (db : Db) :
    (postContract isDate env xUserId exampleBody db).1.status = 400
      ∧ (∃ errors, (postContract isDate env xUserId exampleBody db).1.body = ResBody.errors errors
          ∧ (⟨"type", "Contract type is required"⟩ : ValidationError) ∈ errors)
      ∧ (postContract isDate env xUserId exampleBody db).2 = db := by
  have hv : validateContract isDate exampleBody
      = [⟨"type", "Contract type is required"⟩]
        ++ checkOptionalDate isDate exampleBody "expiration_date" "Invalid expiration date" := by
    simp [validateContract, checkNotEmpty, checkOptionalDate, exampleBody, Obj.get,
      List.lookup, validatorString, validatedValues]
  have hne : ¬ (validateContract isDate exampleBody).isEmpty = true := by
    rw [hv]; simp
  unfold postContract
  simp only [if_pos hne]
  refine ⟨trivial, ⟨_, rfl, ?_⟩, trivial⟩
  rw [hv]; simp

/-- C3: the milestone table changes only inside a `create` whose
`expiration_date` is present.  A `create` whose data has no `expiration_date`
or has it `null` leaves the milestone table as it was, and so do every
`update` (whatever the patch, one that sets `expiration_date` included) and
every `delete`, whether the call returns or throws. -/
theorem milestones_change_only_in_create (env : Env) (db : Db) :
    (∀ contractData : Obj,
        contractData.get "expiration_date" = JVal.undefined
          ∨ contractData.get "expiration_date" = JVal.null →
        (create env contractData db).2.contract_milestones = db.contract_milestones)
      ∧ (∀ (id : JVal) (updateData : Obj) (userId : JVal),
        (update env id updateData userId db).2.contract_milestones = db.contract_milestones)
      ∧ (∀ id userId : JVal,
        (delete env id userId db).2.contract_milestones = db.contract_milestones) := by
  refine ⟨?_, ?_, ?_⟩
  · intro contractData h
    have hf : (contractData.get "expiration_date").truthy = false := by
      rcases h with h | h <;> rw [h] <;> rfl
    rw [create_eq]
    simp [createMilestoneStep, hf]
  · intro id updateData userId
    exact update_frame env id updateData userId db
  · intro id userId
    rw [delete_eq]

/-- Witness for C3: a body without `expiration_date`. -/
theorem milestones_change_only_in_create_witness :
    (create exampleEnv exampleData emptyDb).2.contract_milestones = [] :=
  (milestones_change_only_in_create exampleEnv emptyDb).1 exampleData (Or.inl (by decide))

/-- C4: every successful `create`, `update` and `delete` leaves the audit log
as it was with exactly one entry appended; the entry carries the id of the
contract concerned (for `create` the id of the row it returns) and the action
`CREATE`, `UPDATE` or `DELETE`; the earlier entries are untouched. -/
theorem audit_appended_once (env : Env) (db : Db) :
    (∀ (contractData : Obj) (row : Option Row),
        (create env contractData db).1 = .ok row →
        ∃ e : AuditEntry,
          (create env contractData db).2.audit_logs = db.audit_logs ++ [e]
            ∧ e.action = JVal.str "CREATE"
            ∧ ∃ r : Row, row = some r ∧ e.contract_id = r.get "id")
      ∧ (∀ (id : String) (updateData : Obj) (userId : JVal) (row : Option Row),
        (update env (JVal.str id) updateData userId db).1 = .ok row →
        ∃ e : AuditEntry,
          (update env (JVal.str id) updateData userId db).2.audit_logs = db.audit_logs ++ [e]
            ∧ e.action = JVal.str "UPDATE" ∧ e.contract_id = JVal.str id)
      ∧ (∀ (id : String) (userId : JVal) (row : Option Row),
        (delete env (JVal.str id) userId db).1 = .ok row →
        ∃ e : AuditEntry,
          (delete env (JVal.str id) userId db).2.audit_logs = db.audit_logs ++ [e]
            ∧ e.action = JVal.str "DELETE" ∧ e.contract_id = JVal.str id) := by
  refine ⟨?_, ?_, ?_⟩
  · intro contractData row h
    rw [create_eq] at h ⊢
    have hf := createMilestoneStep_frame env contractData
      { db with contracts := db.contracts
          ++ [insertedRow env.now (createValues env contractData)] }
    rcases hs : createMilestoneStep env contractData
      { db with contracts := db.contracts
          ++ [insertedRow env.now (createValues env contractData)] } with ⟨e | u, db2⟩
    · rw [hs] at h; simp at h
    · rw [hs] at h hf
      have h2 : db2.audit_logs = db.audit_logs := hf.2
      refine ⟨createAudit env contractData, ?_, rfl, ?_⟩
      · simp [h2]
      · refine ⟨insertedRow env.now (createValues env contractData), ?_, ?_⟩
        · simp at h; exact h.symm
        · rw [insertedRow_id]; rfl
  · intro id updateData userId row h
    exact ⟨_, update_audit env _ updateData userId db row h, rfl, rfl⟩
  · intro id userId row _
    rw [delete_eq]
    exact ⟨_, rfl, rfl, rfl⟩

/-- Witness for C4: a `create`, an `update` and a `delete` that succeed. -/
theorem audit_appended_once_witness :
    (∃ e : AuditEntry,
        (create exampleEnv exampleData exampleDb).2.audit_logs = exampleDb.audit_logs ++ [e]
          ∧ e.action = JVal.str "CREATE"
          ∧ ∃ r : Row, (create exampleEnv exampleData exampleDb).1 = .ok (some r)
              ∧ e.contract_id = r.get "id")
      ∧ (∃ e : AuditEntry,
        (update exampleEnv (JVal.str "c1") [("title", JVal.str "NDA")] JVal.undefined
            exampleDb).2.audit_logs = exampleDb.audit_logs ++ [e]
          ∧ e.action = JVal.str "UPDATE" ∧ e.contract_id = JVal.str "c1")
      ∧ (∃ e : AuditEntry,
        (delete exampleEnv (JVal.str "c1") JVal.undefined exampleDb).2.audit_logs
            = exampleDb.audit_logs ++ [e]
          ∧ e.action = JVal.str "DELETE" ∧ e.contract_id = JVal.str "c1") := by
  refine ⟨?_, ?_, ?_⟩
  · obtain ⟨e, h1, h2, r, h3, h4⟩ :=
      (audit_appended_once exampleEnv exampleDb).1 exampleData
        (create exampleEnv exampleData exampleDb).1.toOption.join rfl
    exact ⟨e, h1, h2, r, by rw [← h3]; rfl, h4⟩
  · exact (audit_appended_once exampleEnv exampleDb).2.1 "c1" [("title", JVal.str "NDA")]
      JVal.undefined
      (update exampleEnv (JVal.str "c1") [("title", JVal.str "NDA")] JVal.undefined
        exampleDb).1.toOption.join rfl
  · exact (audit_appended_once exampleEnv exampleDb).2.2 "c1" JVal.undefined
      (delete exampleEnv (JVal.str "c1") JVal.undefined exampleDb).1.toOption.join rfl

/-- C5: a patch in which every key is `id` or has the value `undefined` (the
empty patch in particular) makes `update` throw `No fields to update`, and
the database is exactly as before the call: no statement was sent. -/
theorem update_without_fields (env : Env) (id : JVal) (updateData : Obj) (userId : JVal)
    (db : Db) (h : ∀ p ∈ updateData, p.1 = "id" ∨ p.2 = JVal.undefined) :
    update env id updateData userId db = (.error (.error "No fields to update"), db) := by
  have he : eligible updateData = [] := by
    unfold eligible
    rw [List.filter_eq_nil_iff]
    intro p hp
    rcases h p hp with h1 | h1 <;> simp [h1]
  unfold update
  simp [updateFields_eq, he, numberFrom]

/-- Witness for C5: the empty patch and a patch that only names `id`. -/
theorem update_without_fields_witness :
    update exampleEnv (JVal.str "c1") [] JVal.undefined exampleDb
        = (.error (.error "No fields to update"), exampleDb)
      ∧ update exampleEnv (JVal.str "c1") [("id", JVal.str "c2"), ("title", JVal.undefined)]
          JVal.undefined exampleDb
        = (.error (.error "No fields to update"), exampleDb) :=
  ⟨update_without_fields exampleEnv _ [] _ exampleDb (by simp),
   update_without_fields exampleEnv _ [("id", JVal.str "c2"), ("title", JVal.undefined)] _
     exampleDb (by simp)⟩

/-- C6: for every database and every id that matches a contract, `delete`
removes no row (the table keeps its length); row by row, a row with that id
gets the status `terminated` and keeps every column other than `status` and
`updated_at`, a row with another id is unchanged; and a following
`findById(id)` returns a contract: a row of the table with that id, the
status `terminated`, and all other columns (but `updated_at`) of a contract
that had the id before. -/
theorem delete_is_soft (env : Env) (id : String) (userId : JVal) (db : Db)
    (h : ∃ r ∈ db.contracts, r.get "id" = JVal.str id) :
    (delete env (JVal.str id) userId db).2.contracts.length = db.contracts.length
      ∧ (∀ (i : Nat) (r : Row), db.contracts[i]? = some r →
          ∃ r' : Row, (delete env (JVal.str id) userId db).2.contracts[i]? = some r'
            ∧ (r.get "id" = JVal.str id →
                r'.get "status" = JVal.str "terminated"
                  ∧ ∀ c : String, c ≠ "status" → c ≠ "updated_at" → r'.get c = r.get c)
            ∧ (r.get "id" ≠ JVal.str id → r' = r))
      ∧ ∃ d : ContractDetail,
          findById env (JVal.str id) (delete env (JVal.str id) userId db).2
              = (.ok (some d), (delete env (JVal.str id) userId db).2)
            ∧ d.row ∈ (delete env (JVal.str id) userId db).2.contracts
            ∧ d.row.get "id" = JVal.str id
            ∧ d.row.get "status" = JVal.str "terminated"
            ∧ ∃ r ∈ db.contracts, r.get "id" = JVal.str id
                ∧ ∀ c : String, c ≠ "status" → c ≠ "updated_at" → d.row.get c = r.get c := by
  have hc := delete_contracts env id userId db
  refine ⟨?_, ?_, ?_⟩
  · rw [hc, List.length_map]
  · intro i r hi
    refine ⟨terminateRow env.now id r, ?_, ?_, ?_⟩
    · rw [hc, List.getElem?_map, hi]; rfl
    · intro hid
      exact terminateRow_hit env.now id r hid
    · intro hid
      unfold terminateRow
      rw [if_neg hid]
  · obtain ⟨r0, hr0, hid0⟩ := h
    have hmem : terminateRow env.now id r0 ∈ (delete env (JVal.str id) userId db).2.contracts := by
      rw [hc]; exact List.mem_map_of_mem _ hr0
    have hhit : (fun r : Row => prepareValue (JVal.str id) != JVal.null
        && r.get "id" == prepareValue (JVal.str id)) (terminateRow env.now id r0) = true := by
      simp [prepareValue, terminateRow_id, hid0]
    obtain ⟨b, rest, hf, hb, hpb⟩ := filter_eq_cons_of_mem
      (fun r : Row => prepareValue (JVal.str id) != JVal.null
        && r.get "id" == prepareValue (JVal.str id)) _ _ hmem hhit
    have hbid : b.get "id" = JVal.str id := by
      simpa [prepareValue] using hpb
    refine ⟨⟨b, daysUntilExpiry env b,
      Db.milestonesOf (delete env (JVal.str id) userId db).2 (JVal.str id),
      Db.auditOf (delete env (JVal.str id) userId db).2 (JVal.str id)⟩, ?_, hb, hbid, ?_⟩
    · unfold findById Db.contractById
      rw [hf]
      rfl
    · rw [hc] at hb
      obtain ⟨r, hr, hrb⟩ := List.mem_map.mp hb
      have hrid : r.get "id" = JVal.str id := by
        rw [← terminateRow_id env.now id r, hrb]; exact hbid
      have ht := terminateRow_hit env.now id r hrid
      rw [hrb] at ht
      exact ⟨ht.1, r, hr, hrid, ht.2⟩

/-- Witness for C6: the contract `c1` of the example database. -/
theorem delete_is_soft_witness :
    (delete exampleEnv (JVal.str "c1") JVal.undefined exampleDb).2.contracts.length
        = exampleDb.contracts.length
      ∧ ∃ d : ContractDetail,
          findById exampleEnv (JVal.str "c1")
              (delete exampleEnv (JVal.str "c1") JVal.undefined exampleDb).2
              = (.ok (some d), (delete exampleEnv (JVal.str "c1") JVal.undefined exampleDb).2)
            ∧ d.row.get "status" = JVal.str "terminated" := by
  obtain ⟨h1, _, d, h3, _, _, h4, _⟩ :=
    delete_is_soft exampleEnv "c1" JVal.undefined exampleDb
      ⟨_, List.mem_singleton.mpr rfl, by decide⟩
  exact ⟨h1, d, h3, h4⟩

/-- C7: the `WHERE` clause `findAll` builds is, for each of the eight
combinations of provided filters (a filter is provided when its value is
truthy, as `if (status)` tests it), the `AND` of exactly the conditions of the
provided filters, and no `WHERE` clause when none is provided.  Hence, for a
page `p >= 1` and a limit `l >= 1`, `findAll` returns, and what it returns is
the page of the contracts that satisfy the provided filters; every returned
contract satisfies them; with `status` and `type` both provided every
returned contract has that status and that type; an omitted filter puts no
condition (with none provided every contract counts). -/
theorem findAll_where_is_conjunction (env : Env) (s t q : JVal) (db : Db) :
    whereClauseText (findAllFilters s t q).whereClauses
        = expectedWhere s.truthy t.truthy q.truthy
      ∧ ∀ p l : Int, 1 ≤ p → 1 ≤ l →
        ∃ res : FindAllResult, findAll env (some p) (some l) s t q db = (.ok res, db)
          ∧ res.contracts = pageSpec env p l s t q db
          ∧ res.pagination.total = (db.contracts.filter (filterSpec env s t q)).length
          ∧ (∀ v ∈ res.contracts, v.row ∈ db.contracts ∧ filterSpec env s t q v.row = true)
          ∧ (s.truthy = true → t.truthy = true →
              ∀ v ∈ res.contracts, v.row.get "status" = s ∧ v.row.get "type" = t)
          ∧ (s.truthy = false → t.truthy = false → q.truthy = false →
              res.pagination.total = db.contracts.length) := by
  refine ⟨?_, ?_⟩
  · cases hs : s.truthy <;> cases ht : t.truthy <;> cases hq : q.truthy <;>
      simp only [findAllFilters, hs, ht, hq, if_true, if_false, Bool.false_eq_true,
        List.nil_append, List.cons_append, Nat.zero_add] <;> rfl
  · intro p l hp hl
    refine ⟨_, findAll_eq env p l s t q db hp hl, rfl, rfl, ?_, ?_, ?_⟩
    · intro v hv
      exact mem_pageSpec env p l s t q db v hv
    · intro hs ht v hv
      have h := (mem_pageSpec env p l s t q db v hv).2
      simp only [filterSpec, hs, ht, Bool.not_true, Bool.false_or, Bool.and_eq_true,
        beq_iff_eq] at h
      exact ⟨h.1.1, h.1.2⟩
    · intro hs ht hq
      have hall : ∀ r ∈ db.contracts, filterSpec env s t q r = true := by
        intro r _
        simp [filterSpec, hs, ht, hq]
      simp only
      rw [List.filter_eq_self.mpr hall]

/-- Witness for C7: the first page of twenty, filtered by status and type. -/
theorem findAll_where_is_conjunction_witness :
    ∃ res : FindAllResult,
      findAll exampleEnv (some 1) (some 20) (JVal.str "active") (JVal.str "MSA")
          JVal.undefined exampleDb = (.ok res, exampleDb)
        ∧ ∀ v ∈ res.contracts,
            v.row.get "status" = JVal.str "active" ∧ v.row.get "type" = JVal.str "MSA" := by
  obtain ⟨res, h1, _, _, _, h5, _⟩ :=
    (findAll_where_is_conjunction exampleEnv (JVal.str "active") (JVal.str "MSA")
      JVal.undefined exampleDb).2 1 20 (by decide) (by decide)
  exact ⟨res, h1, h5 rfl rfl⟩

/-- C9: `findAll` defaults to page 1 and limit 20.  For every page `p >= 1`,
limit `l >= 1` and filters it returns; it reads at most `l` rows, those from
offset `(p - 1) * l` on among the matching contracts, newest first; the
pagination is `p`, `l`, `total` = the number of contracts that match the very
filters of the data query, and `totalPages` = the least `n` with
`n * l >= total`. -/
theorem findAll_pagination (env : Env) (s t q : JVal) (db : Db) :
    findAll env none none s t q db = findAll env (some 1) (some 20) s t q db
      ∧ (∀ l : Int, findAll env none (some l) s t q db = findAll env (some 1) (some l) s t q db)
      ∧ (∀ p : Int, findAll env (some p) none s t q db = findAll env (some p) (some 20) s t q db)
      ∧ ∀ p l : Int, 1 ≤ p → 1 ≤ l →
        ∃ res : FindAllResult, findAll env (some p) (some l) s t q db = (.ok res, db)
          ∧ (res.contracts.length : Int) ≤ l
          ∧ res.contracts =
              (((orderByCreatedDesc (db.contracts.filter (filterSpec env s t q))).drop
                ((p - 1) * l).toNat).take l.toNat).map (ContractView.ofRow env)
          ∧ res.pagination.page = p
          ∧ res.pagination.limit = l
          ∧ res.pagination.total = (db.contracts.filter (filterSpec env s t q)).length
          ∧ ∃ n : Int, res.pagination.totalPages = some n
              ∧ res.pagination.total ≤ n * l
              ∧ ∀ m : Int, res.pagination.total ≤ m * l → n ≤ m := by
  refine ⟨rfl, fun _ => rfl, fun _ => rfl, ?_⟩
  intro p l hp hl
  refine ⟨_, findAll_eq env p l s t q db hp hl, ?_, rfl, rfl, rfl, rfl, ?_⟩
  · exact pageSpec_length env p l s t q db (by omega)
  · exact totalPagesOf_spec _ l hl

/-- Witness for C9: page 2 with limit 5. -/
theorem findAll_pagination_witness :
    ∃ res : FindAllResult,
      findAll exampleEnv (some 2) (some 5) JVal.undefined JVal.undefined JVal.undefined
          exampleDb = (.ok res, exampleDb)
        ∧ (res.contracts.length : Int) ≤ 5
        ∧ res.pagination.page = 2
        ∧ res.pagination.limit = 5 := by
  obtain ⟨res, h1, h2, _, h4, h5, _⟩ :=
    (findAll_pagination exampleEnv JVal.undefined JVal.undefined JVal.undefined
      exampleDb).2.2.2 2 5 (by decide) (by decide)
  exact ⟨res, h1, h2, h4, h5⟩

/-- C8, refuted as stated: the key of a patch is pasted into the statement as
it is written and only the exact key `id` is left out.  A patch with the key
`ID` makes a statement that assigns the column `id`: the contract of the
example gets another id; and a patch with the key `STATUS` assigns the column
`status`, which is no key of the patch. -/
theorem update_assigns_id :
    uuidDb.contracts.map (fun r => r.get "id")
        = [JVal.str "123e4567-e89b-42d3-a456-426614174000"]
      ∧ (update exampleEnv (JVal.str "123e4567-e89b-42d3-a456-426614174000")
          [("ID", JVal.str "223e4567-e89b-42d3-a456-426614174000")] JVal.undefined
          uuidDb).2.contracts.map (fun r => r.get "id")
        = [JVal.str "223e4567-e89b-42d3-a456-426614174000"]
      ∧ uuidDb.contracts.map (fun r => r.get "status") = [JVal.str "active"]
      ∧ (update exampleEnv (JVal.str "123e4567-e89b-42d3-a456-426614174000")
          [("STATUS", JVal.str "draft")] JVal.undefined
          uuidDb).2.contracts.map (fun r => r.get "status")
        = [JVal.str "draft"] := by
  decide

/-- C8, amended: for every id and every patch with a key other than `id`
whose value is defined, the `UPDATE` statement of `update` has one `SET` item
per such key, written as the key is, in patch order and numbered from `$1`,
each bound to its own patch value; no item has the key `id` itself; the text
ends the `SET` list with `updated_at = NOW()` and restricts to `id = $(n+1)`,
which is bound to the given id.  When every such key is a plain identifier,
the statement assigns the columns these keys name in lower case (the keys
themselves when they are spelled as the columns are): when the call returns,
it returns the first updated row, or `undefined` when no row has that id; a
row with that id has every assigned column at its patch value, `updated_at`
at the current time and every other column as before; rows with another id
are unchanged.  The call returns whenever the assigned columns are distinct
columns of the table other than `updated_at`. -/
theorem update_assigns_patch (env : Env) (id : String) (updateData : Obj) (userId : JVal)
    (db : Db) (h : ∃ p ∈ updateData, p.1 ≠ "id" ∧ p.2 ≠ JVal.undefined) :
    (updateFields updateData).fields = numberFrom 0 (eligible updateData)
      ∧ (updateFields updateData).fields.map SetItem.key = (eligible updateData).map Prod.fst
      ∧ (∀ f ∈ (updateFields updateData).fields, f.key ≠ "id"
          ∧ ∃ p ∈ updateData, p.1 = f.key
              ∧ paramAt ((updateFields updateData).values ++ [JVal.str id]) f.param = some p.2)
      ∧ updateQueryText (updateFields updateData).fields
            ((updateFields updateData).paramCount + 1)
          = "\n            UPDATE contracts \n            SET "
            ++ ", ".intercalate ((numberFrom 0 (eligible updateData)).map SetItem.text)
            ++ ", updated_at = NOW()\n            WHERE id = $"
            ++ toString ((eligible updateData).length + 1)
            ++ "\n            RETURNING *\n        "
      ∧ paramAt ((updateFields updateData).values ++ [JVal.str id])
            ((updateFields updateData).paramCount + 1) = some (JVal.str id)
      ∧ ((∀ p ∈ eligible updateData, p.1 ∈ contractColumns) →
          foldKeys (eligible updateData) = eligible updateData)
      ∧ ((∀ p ∈ eligible updateData, plainIdentifier p.1 = true) →
          ∀ res : Option Row, (update env (JVal.str id) updateData userId db).1 = .ok res →
          res = ((db.contracts.filter (fun r => r.get "id" == JVal.str id)).map
                  (updatedRow env.now (numberFrom 0 (foldKeys (eligible updateData)))
                    ((eligible updateData).map Prod.snd ++ [JVal.str id]))).head?
            ∧ ((∀ r ∈ db.contracts, r.get "id" ≠ JVal.str id) → res = none)
            ∧ (update env (JVal.str id) updateData userId db).2.contracts
                = db.contracts.map (fun r => if r.get "id" = JVal.str id then
                    updatedRow env.now (numberFrom 0 (foldKeys (eligible updateData)))
                      ((eligible updateData).map Prod.snd ++ [JVal.str id]) r else r)
            ∧ ∀ r : Row,
                (∀ p ∈ foldKeys (eligible updateData),
                  (updatedRow env.now (numberFrom 0 (foldKeys (eligible updateData)))
                    ((eligible updateData).map Prod.snd ++ [JVal.str id]) r).get p.1 = p.2)
                ∧ (updatedRow env.now (numberFrom 0 (foldKeys (eligible updateData)))
                    ((eligible updateData).map Prod.snd ++ [JVal.str id]) r).get "updated_at"
                    = JVal.date env.now
                ∧ ∀ c : String, c ∉ (foldKeys (eligible updateData)).map Prod.fst →
                    c ≠ "updated_at" →
                    (updatedRow env.now (numberFrom 0 (foldKeys (eligible updateData)))
                      ((eligible updateData).map Prod.snd ++ [JVal.str id]) r).get c = r.get c)
      ∧ ((∀ p ∈ eligible updateData, plainIdentifier p.1 = true) →
          (∀ p ∈ foldKeys (eligible updateData), p.1 ∈ contractColumns ∧ p.1 ≠ "updated_at") →
          ((foldKeys (eligible updateData)).map Prod.fst).Nodup →
          ∃ res : Option Row, (update env (JVal.str id) updateData userId db).1 = .ok res) := by
  have hne : eligible updateData ≠ [] := by
    obtain ⟨p, hp, h1, h2⟩ := h
    have : p ∈ eligible updateData := by
      unfold eligible
      exact List.mem_filter.mpr ⟨hp, by simp [h1, h2]⟩
    exact List.ne_nil_of_mem this
  have hid : paramAt ((eligible updateData).map Prod.snd ++ [JVal.str id])
      ((eligible updateData).length + 1) = some (JVal.str id) := by
    have := paramAt_append_mid ((eligible updateData).map Prod.snd) [] (JVal.str id)
    rw [List.length_map] at this
    exact this
  have hitems : ∀ f ∈ numberFrom 0 (eligible updateData), ∃ p ∈ eligible updateData,
      p.1 = f.key ∧ paramAt ((eligible updateData).map Prod.snd ++ [JVal.str id]) f.param
        = some (prepareValue p.2) := by
    intro f hf
    have := numberFrom_paramAt [] (eligible updateData) [JVal.str id] f hf
    simpa using this
  have hfitems : ∀ f ∈ numberFrom 0 (foldKeys (eligible updateData)),
      (paramAt ((foldKeys (eligible updateData)).map Prod.snd ++ [JVal.str id])
        f.param).isSome = true := by
    intro f hf
    have := numberFrom_paramAt [] (foldKeys (eligible updateData)) [JVal.str id] f hf
    obtain ⟨p, _, _, hv⟩ := this
    simp only [List.nil_append] at hv
    rw [hv]; rfl
  have hdef : ∀ p ∈ foldKeys (eligible updateData), p.2 ≠ JVal.undefined := by
    intro p hp
    unfold foldKeys at hp
    obtain ⟨p0, hp0, rfl⟩ := List.mem_map.mp hp
    exact (mem_eligible updateData p0 hp0).2.2
  refine ⟨?_, ?_, ?_, ?_, ?_, ?_, ?_, ?_⟩
  · rw [updateFields_eq]
  · rw [updateFields_eq]; exact numberFrom_keys 0 _
  · rw [updateFields_eq]
    intro f hf
    obtain ⟨p, hp, hk, hv⟩ := hitems f hf
    obtain ⟨hp1, hp2, hp3⟩ := mem_eligible updateData p hp
    refine ⟨by rw [← hk]; exact hp2, p, hp1, hk, ?_⟩
    rw [hv, prepareValue_of_defined _ hp3]
  · rw [updateFields_eq]; rfl
  · rw [updateFields_eq]; exact hid
  · intro hcol
    unfold foldKeys
    rw [List.map_congr_left (g := fun p => p)]
    · exact List.map_id'' (fun _ => rfl) _
    · intro p hp
      rw [(column_is_plain p.1 (hcol p hp)).2]
  · intro hplain res hres
    rw [update_eq env _ updateData userId db hne,
      update_query_of_plain db env _ updateData hplain] at hres ⊢
    rw [foldKeys_values, foldKeys_length] at hres ⊢
    rcases hq : db.assignColumns env.now (numberFrom 0 (foldKeys (eligible updateData)))
        ((eligible updateData).length + 1) ((eligible updateData).map Prod.snd ++ [JVal.str id])
      with ⟨e | rows, db1⟩
    · rw [hq] at hres; simp at hres
    · rw [hq] at hres
      obtain ⟨hnd, idv, hidv, hrows, hdb⟩ := assignColumns_ok _ _ _ _ _ _ _ hq
      rw [hid] at hidv
      have hidv2 : idv = JVal.str id := (Option.some.inj hidv).symm
      subst hidv2
      have hres2 : res = rows.head? := by
        simp only [Except.ok.injEq] at hres
        exact hres.symm
      have hfilt : (fun r : Row => JVal.str id != JVal.null && r.get "id" == JVal.str id)
          = (fun r : Row => r.get "id" == JVal.str id) := by
        funext r; simp
      rw [hfilt] at hrows
      refine ⟨by rw [hres2, hrows], ?_, ?_, ?_⟩
      · intro hno
        rw [hres2, hrows]
        have : db.contracts.filter (fun r => r.get "id" == JVal.str id) = [] := by
          rw [List.filter_eq_nil_iff]
          intro r hr
          simpa using hno r hr
        rw [this]; rfl
      · simp only [hdb]
        apply List.map_congr_left
        intro r _
        simp
      · intro r
        rw [numberFrom_keys] at hnd
        have := updatedRow_spec env.now (foldKeys (eligible updateData)) (JVal.str id) r hnd
          hdef
        rw [foldKeys_values] at this
        exact this
  · intro hplain hcol hnd
    have hnd2 : ((numberFrom 0 (foldKeys (eligible updateData))).map SetItem.key
        ++ ["updated_at"]).Nodup := by
      rw [numberFrom_keys, List.nodup_append]
      refine ⟨hnd, List.nodup_singleton _, ?_⟩
      intro c hc hc2
      obtain ⟨p, hp, rfl⟩ := List.mem_map.mp hc
      exact (hcol p hp).2 (List.mem_singleton.mp hc2)
    have hid2 : paramAt ((foldKeys (eligible updateData)).map Prod.snd ++ [JVal.str id])
        ((foldKeys (eligible updateData)).length + 1) = some (JVal.str id) := by
      rw [foldKeys_values, foldKeys_length]
      exact hid
    obtain ⟨rows, db1, hq⟩ := assignColumns_accepts db env.now
      (numberFrom 0 (foldKeys (eligible updateData)))
      ((foldKeys (eligible updateData)).length + 1)
      ((foldKeys (eligible updateData)).map Prod.snd ++ [JVal.str id]) (JVal.str id)
      (by
        intro c hc
        rw [numberFrom_keys] at hc
        obtain ⟨p, hp, rfl⟩ := List.mem_map.mp hc
        exact (hcol p hp).1)
      hnd2 hfitems hid2
    rw [update_eq env _ updateData userId db hne,
      update_query_of_plain db env _ updateData hplain, hq]
    exact ⟨_, rfl⟩

/-- Witness for C8 (amended): a patch that carries the id and a new title. -/
theorem update_assigns_patch_witness :
    (updateFields [("id", JVal.str "c9"), ("title", JVal.str "NDA")]).fields = [⟨"title", 1⟩]
      ∧ ∃ res : Option Row,
          (update exampleEnv (JVal.str "c1") [("id", JVal.str "c9"), ("title", JVal.str "NDA")]
            JVal.undefined exampleDb).1 = .ok res := by
  obtain ⟨h1, _, _, _, _, _, _, h8⟩ :=
    update_assigns_patch exampleEnv "c1" [("id", JVal.str "c9"), ("title", JVal.str "NDA")]
      JVal.undefined exampleDb ⟨("title", JVal.str "NDA"), by simp, by decide, by decide⟩
  exact ⟨h1, h8 (by decide) (by decide) (by decide)⟩

/-- C10, refuted as stated: in the example database the contract `c1` is
`active`; after an `update` with the patch `status: 'terminated'` it is
`terminated`, and that operation is not a `delete`.  Likewise a `create`
whose data has the status `terminated` makes a contract that did not exist
before and is `terminated` afterwards. -/
theorem terminated_by_update :
    ((∀ r ∈ exampleDb.contracts, r.get "id" = JVal.str "c1" →
        r.get "status" ≠ JVal.str "terminated")
      ∧ (∃ r ∈ (terminatingUpdate.run exampleEnv exampleDb).contracts,
          r.get "id" = JVal.str "c1" ∧ r.get "status" = JVal.str "terminated")
      ∧ terminatingUpdate.isDelete = false)
    ∧ ((∀ r ∈ exampleDb.contracts, r.get "id" = JVal.str "id-0" →
        r.get "status" ≠ JVal.str "terminated")
      ∧ (∃ r ∈ (terminatedCreate.run exampleEnv exampleDb).contracts,
          r.get "id" = JVal.str "id-0" ∧ r.get "status" = JVal.str "terminated")
      ∧ terminatedCreate.isDelete = false) := by
  decide

/-- C10, amended: over the operations `create`, `update` and `delete`,
whenever no contract with a given id has the status `terminated` before an
operation (there may be no such contract) and one has it afterwards, the
operation was a `delete`, or a `create` whose data has the status
`terminated`, or an `update` that writes it: its patch has the value
`terminated` under a key that names the column `status` (in any letter case),
or the given id under a key that names the column `id` (in a letter case
other than `id` itself), or a defined value under a key that is not a plain
identifier. -/
theorem terminated_only_by (env : Env) (db : Db) (op : Op) (c : JVal)
    (hpre : ∀ r ∈ db.contracts, r.get "id" = c → r.get "status" ≠ JVal.str "terminated")
    (hpost : ∃ r ∈ (op.run env db).contracts,
      r.get "id" = c ∧ r.get "status" = JVal.str "terminated") :
    op.isDelete = true
      ∨ (∃ id updateData userId, op = Op.update id updateData userId
          ∧ ((∃ p ∈ updateData, foldIdentifier p.1 = "status" ∧ p.2 = JVal.str "terminated")
            ∨ (∃ p ∈ updateData, p.1 ≠ "id" ∧ foldIdentifier p.1 = "id" ∧ p.2 = c)
            ∨ (∃ p ∈ updateData, p.1 ≠ "id" ∧ p.2 ≠ JVal.undefined
                ∧ plainIdentifier p.1 = false)))
      ∨ (∃ contractData, op = Op.create contractData
          ∧ contractData.get "status" = JVal.str "terminated") := by
  obtain ⟨r', hr', hid', hst'⟩ := hpost
  cases op with
  | delete id userId => exact Or.inl rfl
  | create contractData =>
    right; right
    refine ⟨contractData, rfl, ?_⟩
    simp only [Op.run] at hr'
    rw [create_contracts] at hr'
    rcases List.mem_append.mp hr' with hold | hnew
    · exact absurd hst' (hpre r' hold hid')
    · rw [List.mem_singleton.mp hnew, insertedRow_status] at hst'
      exact or_eq_of_ne_default _ _ _ hst' (by decide) (by decide)
  | update id updateData userId =>
    right; left
    refine ⟨id, updateData, userId, rfl, ?_⟩
    simp only [Op.run] at hr'
    rcases update_contracts_cases env id updateData userId db with
      hsame | ⟨_, hnd, idv, hmap⟩ | ⟨p, hp, hpp⟩
    · rw [hsame] at hr'
      exact absurd hst' (hpre r' hr' hid')
    · rw [hmap] at hr'
      obtain ⟨r, hr, hrr⟩ := List.mem_map.mp hr'
      have hitem : ∀ f ∈ numberFrom 0 (foldKeys (eligible updateData)),
          ∃ p0 ∈ updateData, p0.1 ≠ "id" ∧ foldIdentifier p0.1 = f.key
            ∧ (paramAt ((foldKeys (eligible updateData)).map Prod.snd ++ [id])
                f.param).getD JVal.null = p0.2 := by
        intro f hf
        obtain ⟨q, hq, hqk, hqv⟩ :=
          numberFrom_paramAt [] (foldKeys (eligible updateData)) [id] f hf
        simp only [List.nil_append] at hqv
        unfold foldKeys at hq
        obtain ⟨p0, hp0, rfl⟩ := List.mem_map.mp hq
        obtain ⟨hp1, hp2, hp3⟩ := mem_eligible updateData p0 hp0
        refine ⟨p0, hp1, hp2, hqk, ?_⟩
        rw [hqv, Option.getD_some, prepareValue_of_defined _ hp3]
      split at hrr
      · subst hrr
        unfold updatedRow at hst' hid'
        rw [Row.get_set_other _ _ _ _ (by decide)] at hst' hid'
        rcases applySets_get_cases ((foldKeys (eligible updateData)).map Prod.snd ++ [id])
            (numberFrom 0 (foldKeys (eligible updateData))) r "status" with
          hkeep | ⟨f, hf, hk, hv⟩
        · rw [hkeep] at hst'
          rcases applySets_get_cases ((foldKeys (eligible updateData)).map Prod.snd ++ [id])
              (numberFrom 0 (foldKeys (eligible updateData))) r "id" with
            hkeepid | ⟨g, hg, hgk, hgv⟩
          · rw [hkeepid] at hid'
            exact absurd hst' (hpre r hr hid')
          · right; left
            obtain ⟨p0, hp0, hne0, hfold0, hval0⟩ := hitem g hg
            refine ⟨p0, hp0, hne0, by rw [hfold0, hgk], ?_⟩
            rw [← hval0, ← hgv, hid']
        · left
          obtain ⟨p0, hp0, _, hfold0, hval0⟩ := hitem f hf
          refine ⟨p0, hp0, by rw [hfold0, hk], ?_⟩
          rw [← hval0, ← hv, hst']
      · subst hrr
        exact absurd hst' (hpre r hr hid')
    · right; right
      obtain ⟨hp1, hp2, hp3⟩ := mem_eligible updateData p hp
      exact ⟨p, hp1, hp2, hp3, hpp⟩

/-- Witness for C10 (amended): the update of the counterexample. -/
theorem terminated_only_by_witness :
    ∃ id updateData userId, terminatingUpdate = Op.update id updateData userId
      ∧ ∃ p ∈ updateData, foldIdentifier p.1 = "status" ∧ p.2 = JVal.str "terminated" := by
  rcases terminated_only_by exampleEnv exampleDb terminatingUpdate (JVal.str "c1")
    (by decide) (by decide) with h | ⟨id, updateData, userId, hop, h⟩ | ⟨d, hop, _⟩
  · exact absurd h (by decide)
  · refine ⟨id, updateData, userId, hop, ?_⟩
    have hu : updateData = [("status", JVal.str "terminated")] := by
      unfold terminatingUpdate at hop
      cases hop
      rfl
    subst hu
    rcases h with h | ⟨p, hp, hne, hfold, _⟩ | ⟨p, hp, _, _, hpl⟩
    · exact h
    · rw [List.mem_singleton.mp hp] at hfold
      exact absurd hfold (by decide)
    · rw [List.mem_singleton.mp hp] at hpl
      exact absurd hpl (by decide)
  · unfold terminatingUpdate at hop
    cases hop

/-- C12: `findById` returns `null` when no contract has the id.  Otherwise it
returns a contract of the table with that id, with `milestones` = the
milestones of that contract (a rearrangement of all of them) in ascending
order of `due_date` (`NULL` last), and `audit_logs` = the first ten, or all
when there are fewer, of the audit entries of that contract arranged newest
first. -/
theorem findById_spec (env : Env) (id : String) (db : Db) :
    ((∀ r ∈ db.contracts, r.get "id" ≠ JVal.str id) →
        findById env (JVal.str id) db = (.ok none, db))
      ∧ ((∃ r ∈ db.contracts, r.get "id" = JVal.str id) →
        ∃ (d : ContractDetail) (rest : List AuditEntry),
          findById env (JVal.str id) db = (.ok (some d), db)
            ∧ d.row ∈ db.contracts
            ∧ d.row.get "id" = JVal.str id
            ∧ d.milestones.Perm
                (db.contract_milestones.filter (fun m => m.contract_id == JVal.str id))
            ∧ d.milestones.Pairwise
                (fun a b => nullsLargeLe a.due_date.sortKey b.due_date.sortKey = true)
            ∧ (d.audit_logs ++ rest).Perm
                (db.audit_logs.filter (fun e => e.contract_id == JVal.str id))
            ∧ (d.audit_logs ++ rest).Pairwise (fun a b => b.created_at ≤ a.created_at)
            ∧ d.audit_logs.length
                = min 10 (db.audit_logs.filter (fun e => e.contract_id == JVal.str id)).length) := by
  refine ⟨?_, ?_⟩
  · intro hno
    have hnil : db.contracts.filter (fun r => r.get "id" == JVal.str id) = [] := by
      rw [List.filter_eq_nil_iff]
      intro r hr
      simpa using hno r hr
    unfold findById Db.contractById
    rw [filter_id_str (fun r : Row => r.get "id"), hnil]
    rfl
  · rintro ⟨r0, hr0, hid0⟩
    obtain ⟨b, tl, hf, hb, hpb⟩ := filter_eq_cons_of_mem
      (fun r : Row => r.get "id" == JVal.str id) db.contracts r0 hr0 (by simpa using hid0)
    refine ⟨⟨b, daysUntilExpiry env b, db.milestonesOf (JVal.str id),
      db.auditOf (JVal.str id)⟩,
      ((db.audit_logs.filter (fun e => e.contract_id == JVal.str id)).insertionSort
        (fun a b => b.created_at ≤ a.created_at)).drop 10, ?_, hb, by simpa using hpb,
      ?_, ?_, ?_, ?_, ?_⟩
    · unfold findById Db.contractById
      rw [filter_id_str (fun r : Row => r.get "id"), hf]
      rfl
    · unfold Db.milestonesOf
      rw [filter_id_str (fun m : Milestone => m.contract_id)]
      exact List.perm_insertionSort _ _
    · unfold Db.milestonesOf
      exact pairwise_insertionSort_key (fun m : Milestone => m.due_date.sortKey) _
    · unfold Db.auditOf
      rw [filter_id_str (fun e : AuditEntry => e.contract_id), List.take_append_drop]
      exact List.perm_insertionSort _ _
    · unfold Db.auditOf
      rw [filter_id_str (fun e : AuditEntry => e.contract_id), List.take_append_drop]
      exact pairwise_insertionSort_created _
    · unfold Db.auditOf
      rw [filter_id_str (fun e : AuditEntry => e.contract_id), List.length_take,
        List.length_insertionSort]

/-- Witness for C12: the contract `c1` of the example database, and an id no
contract has. -/
theorem findById_spec_witness :
    findById exampleEnv (JVal.str "c7") exampleDb = (.ok none, exampleDb)
      ∧ ∃ d : ContractDetail,
          findById exampleEnv (JVal.str "c1") exampleDb = (.ok (some d), exampleDb)
            ∧ d.row.get "id" = JVal.str "c1" := by
  refine ⟨(findById_spec exampleEnv "c7" exampleDb).1 (by decide), ?_⟩
  obtain ⟨d, _, h1, _, h3, _⟩ :=
    (findById_spec exampleEnv "c1" exampleDb).2 ⟨_, List.mem_singleton.mpr rfl, by decide⟩
  exact ⟨d, h1, h3⟩

/-- C13: `getExpiringSoon` takes 30 days when it is given none.  For every
database and every number of days `n` it returns exactly the contracts (each
once, with its `days_until_expiry`) whose status is `active` and whose
`expiration_date` `d` has `today <= d <= today + n days`, in ascending order
of `expiration_date`; a contract without an expiration date, one that expired
before today, or one that is not active is not among them. -/
theorem getExpiringSoon_spec (env : Env) (db : Db) :
    getExpiringSoon env JVal.undefined db = getExpiringSoon env (JVal.num 30) db
      ∧ ∀ n : Int, ∃ res : List ContractView,
          getExpiringSoon env (JVal.num n) db = (.ok res, db)
            ∧ (res.map ContractView.row).Perm (db.contracts.filter (expiresWithin env n))
            ∧ (∀ r : Row, r ∈ res.map ContractView.row ↔
                r ∈ db.contracts ∧ r.get "status" = JVal.str "active"
                  ∧ ∃ t : Int, r.get "expiration_date" = JVal.date t
                      ∧ env.today ≤ t ∧ t ≤ env.today + n * 86400000)
            ∧ (res.map ContractView.row).Pairwise
                (fun a b => ∃ x y : Int, a.get "expiration_date" = JVal.date x
                  ∧ b.get "expiration_date" = JVal.date y ∧ x ≤ y)
            ∧ ∀ v ∈ res, v = ContractView.ofRow env v.row := by
  refine ⟨rfl, ?_⟩
  intro n
  have hmap : ((orderByExpirationAsc (db.contracts.filter (expiresWithin env n))).map
      (ContractView.ofRow env)).map ContractView.row
      = orderByExpirationAsc (db.contracts.filter (expiresWithin env n)) := by
    rw [List.map_map]
    exact List.map_id'' (fun _ => rfl) _
  have hperm : (orderByExpirationAsc (db.contracts.filter (expiresWithin env n))).Perm
      (db.contracts.filter (expiresWithin env n)) := List.perm_insertionSort _ _
  refine ⟨_, getExpiringSoon_num env n db, ?_, ?_, ?_, ?_⟩
  · rw [hmap]; exact hperm
  · intro r
    rw [hmap, hperm.mem_iff, List.mem_filter, expiresWithin_iff]
  · rw [hmap]
    have hs := pairwise_insertionSort_key (fun r : Row => (r.get "expiration_date").sortKey)
      (db.contracts.filter (expiresWithin env n))
    refine List.Pairwise.imp_of_mem ?_ hs
    intro a b ha hb hab
    have ha2 := (expiresWithin_iff env n a).mp (List.mem_filter.mp (hperm.mem_iff.mp ha)).2
    have hb2 := (expiresWithin_iff env n b).mp (List.mem_filter.mp (hperm.mem_iff.mp hb)).2
    obtain ⟨_, x, hx, _⟩ := ha2
    obtain ⟨_, y, hy, _⟩ := hb2
    refine ⟨x, y, hx, hy, ?_⟩
    simpa [hx, hy, JVal.sortKey, nullsLargeLe] using hab
  · intro v hv
    obtain ⟨r, _, rfl⟩ := List.mem_map.mp hv
    rfl

/-- C14: the row `create` stores has the supplied `contract_number`
unchanged when one is supplied (a truthy value, as `||` tests it), and the
generated number otherwise.  The generated number is `CON-<year>-<n>` with
`n = floor(1000 + 9000 * r)` for the draw `r`, as the code computes it: in
double arithmetic, the product and the sum each rounded.  For every draw
`0 <= r < 1` this `n` is between 1000 and 9999 and its decimal text has
exactly four digits; it is the floor of the exact value `1000 + 9000 * r` or
that floor plus one, and the exact floor is between 1000 and 9999 too. -/
theorem create_contract_number (env : Env) (contractData : Obj) (db : Db) :
    (create env contractData db).2.contracts
        = db.contracts ++ [insertedRow env.now (createValues env contractData)]
      ∧ ((contractData.get "contract_number").truthy = true →
          (insertedRow env.now (createValues env contractData)).get "contract_number"
            = contractData.get "contract_number")
      ∧ ((contractData.get "contract_number").truthy = false →
          (insertedRow env.now (createValues env contractData)).get "contract_number"
            = JVal.str (generateContractNumber env))
      ∧ (env.random < 2 ^ 53 →
          ∃ n : Nat,
            generateContractNumber env = "CON" ++ "-" ++ toString env.year ++ "-" ++ toString n
              ∧ n = roundDouble (1000 * 2 ^ 53 + roundDouble (env.random * 9000)) / 2 ^ 53
              ∧ 1000 ≤ n ∧ n ≤ 9999 ∧ (toString n).length = 4
              ∧ randomSuffix ((env.random : Rat) / ((2 ^ 53 : Nat) : Rat)) ≤ (n : Int)
              ∧ (n : Int) ≤ randomSuffix ((env.random : Rat) / ((2 ^ 53 : Nat) : Rat)) + 1)
      ∧ (∀ r : Rat, 0 ≤ r → r < 1 → 1000 ≤ randomSuffix r ∧ randomSuffix r ≤ 9999) := by
  refine ⟨create_contracts env contractData db, ?_, ?_, ?_, randomSuffix_bounds⟩
  · intro ht
    rw [insertedRow_contract_number]
    unfold JVal.or
    rw [if_pos ht, prepareValue_of_truthy _ ht]
  · intro hf
    rw [insertedRow_contract_number]
    unfold JVal.or
    rw [if_neg (by simp [hf])]
    rfl
  · intro hr
    have hfl := floor_scaled env.random (2 ^ 53) (by positivity)
    have hn : randomSuffix ((env.random : Rat) / ((2 ^ 53 : Nat) : Rat))
        = ((((1000 * 2 ^ 53 + env.random * 9000) / 2 ^ 53 : Nat)) : Int) := by
      unfold randomSuffix
      rw [hfl]
    obtain ⟨hb1, hb2⟩ := randomSuffixOf_bounds env.random hr
    obtain ⟨hx1, hx2⟩ := randomSuffixOf_near env.random hr
    refine ⟨randomSuffixOf env.random, rfl, rfl, hb1, hb2, toString_four _ hb1 hb2, ?_, ?_⟩
    · rw [hn]
      exact_mod_cast hx1
    · rw [hn]
      exact_mod_cast hx2

/-- Witness for C14: a supplied number is stored, and the number generated in
the example environment has four digits. -/
theorem create_contract_number_witness :
    (insertedRow exampleEnv.now (createValues exampleEnv exampleData)).get "contract_number"
        = JVal.str "CON-2025-1234"
      ∧ ∃ n : Nat, generateContractNumber exampleEnv
            = "CON" ++ "-" ++ toString exampleEnv.year ++ "-" ++ toString n
          ∧ 1000 ≤ n ∧ n ≤ 9999 := by
  obtain ⟨_, h2, _, h4, _⟩ := create_contract_number exampleEnv exampleData emptyDb
  obtain ⟨n, hn, _, h5, h6, _⟩ := h4 (by decide)
  exact ⟨h2 rfl, n, hn, h5, h6⟩

/-- C20: for every database `getDashboardStats` returns `total` = the number
of contracts, `active` = the number of contracts with status `active` and
`expiringSoon` = the number of contracts `getExpiringSoon(30)` returns on the
same database; so `expiringSoon <= active <= total`; and the counts of
`byStatus`, and those of `byType`, add up to `total`. -/
theorem getDashboardStats_spec (env : Env) (db : Db) :
    ∃ st : DashboardStats, getDashboardStats env db = (.ok st, db)
      ∧ st.total = db.contracts.length
      ∧ st.active
          = (db.contracts.filter (fun r => r.get "status" == JVal.str "active")).length
      ∧ (∃ res : List ContractView, getExpiringSoon env (JVal.num 30) db = (.ok res, db)
          ∧ st.expiringSoon = res.length)
      ∧ st.expiringSoon ≤ st.active
      ∧ st.active ≤ st.total
      ∧ ((st.byStatus.map Prod.snd).sum : Int) = st.total
      ∧ ((st.byType.map Prod.snd).sum : Int) = st.total := by
  refine ⟨_, rfl, rfl, rfl, ⟨_, getExpiringSoon_num env 30 db, ?_⟩, ?_, ?_, ?_, ?_⟩
  · simp only [List.length_map]
    unfold orderByExpirationAsc
    rw [List.length_insertionSort]
  · have := filter_length_le_of_imp (expiresWithin env 30)
      (fun r => r.get "status" == JVal.str "active") db.contracts
      (by
        intro r hr
        have := ((expiresWithin_iff env 30 r).mp hr).1
        simp [this])
    simp only
    exact_mod_cast this
  · have := List.length_filter_le (fun r : Row => r.get "status" == JVal.str "active")
      db.contracts
    simp only
    exact_mod_cast this
  · simp only
    rw [groupCount_sum, List.length_map]
  · simp only
    rw [groupCount_sum, List.length_map]

/-- C15, refuted as stated: two patches with the same keys in the same order,
`title` and `status`, one with `title` undefined and one with `title`
defined, make `update` send different query texts. -/
theorem update_text_depends_on_undefined :
    ([("title", JVal.undefined), ("status", JVal.str "active")] : Obj).map Prod.fst
        = ([("title", JVal.str "MSA"), ("status", JVal.str "active")] : Obj).map Prod.fst
      ∧ (updateQuery (JVal.str "c1")
            [("title", JVal.undefined), ("status", JVal.str "active")]).map Query.text
          ≠ (updateQuery (JVal.str "c1")
            [("title", JVal.str "MSA"), ("status", JVal.str "active")]).map Query.text := by
  decide

/-- C15, amended: two calls of `findAll` that provide the same filters (a
filter is provided when its value is truthy) send the same count text and the
same data text, whatever the filter values, the page and the limit are; two
calls of `update` whose patches have the same keys in the same order, with
defined values at the same keys, send the same text (or both send none),
whatever the values and the ids are.  The values are in the parameter arrays:
the provided filter values, then limit and offset; the defined patch values
of the keys other than `id`, then the id. -/
theorem query_text_independent_of_values :
    (∀ (page limit page' limit' : Option Int) (s t q s' t' q' : JVal),
        s.truthy = s'.truthy → t.truthy = t'.truthy → q.truthy = q'.truthy →
        (findAllQueries page limit s t q).1.text = (findAllQueries page' limit' s' t' q').1.text
          ∧ (findAllQueries page limit s t q).2.text
              = (findAllQueries page' limit' s' t' q').2.text)
      ∧ (∀ (page limit : Option Int) (s t q : JVal),
          (findAllQueries page limit s t q).1.values = [s, t, q].filter JVal.truthy
            ∧ (findAllQueries page limit s t q).2.values
                = [s, t, q].filter JVal.truthy
                  ++ [JVal.num (limit.getD 20),
                      JVal.num ((page.getD 1 - 1) * limit.getD 20)])
      ∧ (∀ (id id' : JVal) (p p' : Obj),
          p.map (fun e => (e.1, decide (e.2 = JVal.undefined)))
            = p'.map (fun e => (e.1, decide (e.2 = JVal.undefined))) →
          (updateQuery id p).map Query.text = (updateQuery id' p').map Query.text)
      ∧ (∀ (id : JVal) (p : Obj) (query : Query), updateQuery id p = some query →
          query.values = (eligible p).map Prod.snd ++ [id]) := by
  refine ⟨?_, ?_, ?_, ?_⟩
  · intro page limit page' limit' s t q s' t' q' hs ht hq
    obtain ⟨h1, h2⟩ := findAllFilters_of_truthy s t q s' t' q' hs ht hq
    simp only [findAllQueries, h1, h2, and_self]
  · intro page limit s t q
    obtain ⟨h1, h2⟩ := findAllFilters_values s t q
    simp only [findAllQueries, h1, h2]
    refine ⟨?_, trivial⟩
    rw [List.take_append_of_le_length (le_refl _), List.take_length]
  · intro id id' p p' h
    have hk : (eligible p).map Prod.fst = (eligible p').map Prod.fst :=
      eligible_keys_congr p p' h
    have hl : (eligible p).length = (eligible p').length := by
      have := congrArg List.length hk
      simpa using this
    rw [updateQuery_eq, updateQuery_eq, hl, numberFrom_of_keys 0 _ _ hk]
    split <;> rfl
  · intro id p query h
    rw [updateQuery_eq] at h
    split at h
    · cases h
    · cases h
      rfl

/-- Witness for C15 (amended): the same filters with other values, and the
same patch keys with other values. -/
theorem query_text_independent_of_values_witness :
    (findAllQueries (some 1) (some 20) (JVal.str "active") JVal.undefined
          (JVal.str "acme")).2.text
        = (findAllQueries (some 3) (some 5) (JVal.str "draft") JVal.null (JVal.str "x")).2.text
      ∧ (updateQuery (JVal.str "c1") [("title", JVal.str "MSA")]).map Query.text
        = (updateQuery (JVal.str "c2") [("title", JVal.str "NDA")]).map Query.text := by
  obtain ⟨h1, _, h3, _⟩ := query_text_independent_of_values
  exact ⟨(h1 (some 1) (some 20) (some 3) (some 5) (JVal.str "active") JVal.undefined
      (JVal.str "acme") (JVal.str "draft") JVal.null (JVal.str "x") rfl rfl rfl).2,
    h3 (JVal.str "c1") (JVal.str "c2") [("title", JVal.str "MSA")] [("title", JVal.str "NDA")]
      rfl⟩

/-- C11: in each of the three servers a `POST /api/contracts` whose body lacks
`title`, `counterparty_name` or `owner_user_id` (missing, `null` or empty) is
answered with status 400, and the database is as it was: the modular server
answers before it calls the repository, whatever the repository is, and the
other two before they send their `INSERT`. -/
theorem post_without_required_fields (lib : Lib) (repo : Repo) (ping : Except Err Unit)
    (nodeEnv : JVal) (now : Int) (env : Env) (others : Nat → Handler) (query : Obj)
    (xUserId : JVal) (body : Obj) (db : Db)
    (h : lacksField body "title" ∨ lacksField body "counterparty_name"
      ∨ lacksField body "owner_user_id") :
    ((modularServer lib repo ping nodeEnv now
          ⟨.POST, ["api", "contracts"], query, xUserId, body, none⟩ db).1.status = 400
        ∧ (modularServer lib repo ping nodeEnv now
          ⟨.POST, ["api", "contracts"], query, xUserId, body, none⟩ db).2 = db)
      ∧ ((completeServer env others
          ⟨.POST, ["api", "contracts"], query, xUserId, body, none⟩ db).1.status = 400
        ∧ (completeServer env others
          ⟨.POST, ["api", "contracts"], query, xUserId, body, none⟩ db).2 = db)
      ∧ ((minimalServer env nodeEnv others
          ⟨.POST, ["api", "contracts"], query, xUserId, body, none⟩ db).1.status = 400
        ∧ (minimalServer env nodeEnv others
          ⟨.POST, ["api", "contracts"], query, xUserId, body, none⟩ db).2 = db) := by
  have hm : firstMatch modularRoutes .POST ["api", "contracts"] = some 6 := by decide
  have hc : firstMatch completeRoutes .POST ["api", "contracts"] = some 2 := by decide
  have hn : firstMatch minimalRoutes .POST ["api", "contracts"] = some 2 := by decide
  have hv := validateContract_ne_nil lib.isDate body h
  have ht : (!(body.get "title").truthy || !(body.get "counterparty_name").truthy
      || !(body.get "owner_user_id").truthy) = true := by
    rcases h with h | h | h <;> simp [truthy_of_lacks _ _ h]
  refine ⟨?_, ?_, ?_⟩
  · simp only [modularServer, serve, hm, modularHandlers, contractHandlers, routePost,
      if_pos hv, and_self]
  · simp only [completeServer, serve, hc, completeHandlers, completePost, ht, if_true,
      and_self]
  · simp only [minimalServer, serve, hn, minimalHandlers, minimalPost, ht, if_true,
      and_self]

/-- Witness for C11: the empty body. -/
theorem post_without_required_fields_witness :
    (modularServer exampleLib (contractModel exampleEnv) (.ok ()) JVal.undefined 0
        ⟨.POST, ["api", "contracts"], [], JVal.undefined, [], none⟩ exampleDb).1.status = 400
      ∧ (completeServer exampleEnv (fun _ => notFoundComplete)
        ⟨.POST, ["api", "contracts"], [], JVal.undefined, [], none⟩ exampleDb).2 = exampleDb
      ∧ (minimalServer exampleEnv JVal.undefined (fun _ => notFoundMinimal)
        ⟨.POST, ["api", "contracts"], [], JVal.undefined, [], none⟩ exampleDb).2 = exampleDb := by
  obtain ⟨h1, h2, h3⟩ := post_without_required_fields exampleLib (contractModel exampleEnv)
    (.ok ()) JVal.undefined 0 exampleEnv (fun _ => notFoundComplete) [] JVal.undefined []
    exampleDb (Or.inl (Or.inl rfl))
  exact ⟨h1.1, h2.2, by
    have h := (post_without_required_fields exampleLib (contractModel exampleEnv)
      (.ok ()) JVal.undefined 0 exampleEnv (fun _ => notFoundMinimal) [] JVal.undefined []
      exampleDb (Or.inl (Or.inl rfl))).2.2.2
    exact h⟩

/-- C16, refuted as stated: in the modular server, in production mode, a
`GET /health` during which the database probe fails with the message
`connection refused` is answered with status 200, not 500, and the body
carries that message. -/
theorem health_reports_error_in_production :
    (modularServer exampleLib (contractModel exampleEnv)
        (.error (.dbError "connection refused")) (JVal.str "production") 0
        (plainRequest .GET ["health"]) emptyDb).1.status = 200
      ∧ (modularServer exampleLib (contractModel exampleEnv)
        (.error (.dbError "connection refused")) (JVal.str "production") 0
        (plainRequest .GET ["health"]) emptyDb).1.body.error = some "connection refused" := by
  decide

/-- C16, amended: in the modular server, a request that a contract route
handles while every repository call throws is answered either with the
validation failure (status 400, before any call) or with status 500 and the
fixed message of that route, whatever the error is; an error that reaches the
error handler of the application (a body the parser cannot read) is answered
with status 500 and carries the error's message only when `NODE_ENV` is
`development`, so never in production; `GET /health` is answered with status
200 and, when the database probe fails, carries the probe's message in every
mode. -/
theorem failures_of_modular_server (lib : Lib) (repo : Repo) (ping : Except Err Unit)
    (nodeEnv : JVal) (now : Int) (db : Db) :
    (repo.throws → ∀ (i : Nat) (req : Request), 2 ≤ i → i ≤ 8 →
        (∃ errors, (contractHandlers lib repo i req db).1 = ⟨400, ResBody.errors errors⟩
            ∧ (contractHandlers lib repo i req db).2 = db ∧ errors ≠ [])
          ∨ (contractHandlers lib repo i req db).1 = ⟨500, ResBody.failure (failureMessage i)⟩)
      ∧ (∀ (req : Request) (err : Err), req.parseError = some err →
          modularServer lib repo ping nodeEnv now req db
              = (⟨500, ResBody.failure (if nodeEnv = JVal.str "development" then err.message
                  else "Internal server error")⟩, db)
            ∧ (nodeEnv = JVal.str "production" →
                (modularServer lib repo ping nodeEnv now req db).1
                  = ⟨500, ResBody.failure "Internal server error"⟩))
      ∧ (∀ (query : Obj) (xUserId : JVal) (body : Obj) (e : Err), ping = .error e →
          modularServer lib repo ping nodeEnv now ⟨.GET, ["health"], query, xUserId, body, none⟩
              db
            = (⟨200, ResBody.health "healthy" now "disconnected" "1.0.0" (some e.message)⟩,
                db)) := by
  refine ⟨?_, ?_, ?_⟩
  · intro ht i req h2 h8
    obtain ⟨t1, t2, t3, t4, t5, t6, t7⟩ := ht
    interval_cases i
    · obtain ⟨e, db1, he⟩ := t1 (sanitizedInt lib req.query "page")
        (sanitizedInt lib req.query "limit") (req.query.get "status") (req.query.get "type")
        (req.query.get "search") db
      simp only [contractHandlers, routeList]
      rcases isEmpty_cases (checkOptionalInt lib req.query "page" (some 1) none
        ++ checkOptionalInt lib req.query "limit" (some 1) (some 100)
        ++ checkOptionalString req.query "status" ++ checkOptionalString req.query "type"
        ++ checkOptionalString req.query "search") with hv | ⟨hv, hne⟩
      · right; simp only [hv, not_true_eq_false, if_false, he]; rfl
      · left; exact ⟨_, by simp only [if_pos hv], by simp only [if_pos hv], hne⟩
    · obtain ⟨e, db1, he⟩ := t2 db
      right; simp only [contractHandlers, routeStats, he]; rfl
    · obtain ⟨e, db1, he⟩ := t3 ((req.query.get "days").or (JVal.num 30)) db
      right; simp only [contractHandlers, routeExpiring, he]; rfl
    · obtain ⟨e, db1, he⟩ := t4 (JVal.str (req.path.getLastD "")) db
      simp only [contractHandlers, routeGetById]
      rcases isEmpty_cases (checkId lib (req.path.getLastD "")) with hv | ⟨hv, hne⟩
      · right; simp only [hv, not_true_eq_false, if_false, he]; rfl
      · left; exact ⟨_, by simp only [if_pos hv], by simp only [if_pos hv], hne⟩
    · obtain ⟨e, db1, he⟩ := t5
        (req.body.set "created_by" (req.xUserId.or (JVal.str "anonymous"))) db
      simp only [contractHandlers, routePost]
      rcases isEmpty_cases (validateContract lib.isDate req.body) with hv | ⟨hv, hne⟩
      · right; simp only [hv, not_true_eq_false, if_false, he]; rfl
      · left; exact ⟨_, by simp only [if_pos hv], by simp only [if_pos hv], hne⟩
    · obtain ⟨e, db1, he⟩ := t6 (JVal.str (req.path.getLastD "")) req.body
        (req.xUserId.or (JVal.str "anonymous")) db
      simp only [contractHandlers, routePut]
      rcases isEmpty_cases (checkId lib (req.path.getLastD "")) with hv | ⟨hv, hne⟩
      · right; simp only [hv, not_true_eq_false, if_false, he]; rfl
      · left; exact ⟨_, by simp only [if_pos hv], by simp only [if_pos hv], hne⟩
    · obtain ⟨e, db1, he⟩ := t7 (JVal.str (req.path.getLastD ""))
        (req.xUserId.or (JVal.str "anonymous")) db
      simp only [contractHandlers, routeDelete]
      rcases isEmpty_cases (checkId lib (req.path.getLastD "")) with hv | ⟨hv, hne⟩
      · right; simp only [hv, not_true_eq_false, if_false, he]; rfl
      · left; exact ⟨_, by simp only [if_pos hv], by simp only [if_pos hv], hne⟩
  · intro req err hp
    refine ⟨?_, ?_⟩
    · simp only [modularServer, hp, errorHandler]
    · intro hprod
      simp only [modularServer, hp, errorHandler, hprod]
      rfl
  · intro query xUserId body e hping
    have hm : firstMatch modularRoutes .GET ["health"] = some 0 := by decide
    simp only [modularServer, serve, hm, modularHandlers, routeHealth, healthCheck, hping]
    rfl

/-- Witness for C16 (amended): a repository that is down, a body that cannot
be parsed in production, and a failing probe. -/
theorem failures_of_modular_server_witness :
    (contractHandlers exampleLib (failingRepo (.dbError "connection refused")) 3
          (plainRequest .GET ["api", "contracts", "stats"]) emptyDb).1
        = ⟨500, ResBody.failure "Failed to fetch statistics"⟩
      ∧ (modularServer exampleLib (failingRepo (.dbError "connection refused"))
          (.error (.dbError "connection refused")) (JVal.str "production") 0
          ⟨.POST, ["api", "contracts"], [], JVal.undefined, [],
            some (.error "Unexpected token")⟩ emptyDb).1
        = ⟨500, ResBody.failure "Internal server error"⟩ := by
  obtain ⟨h1, h2, _⟩ := failures_of_modular_server exampleLib
    (failingRepo (.dbError "connection refused")) (.error (.dbError "connection refused"))
    (JVal.str "production") 0 emptyDb
  refine ⟨?_, (h2 _ (.error "Unexpected token") rfl).2 rfl⟩
  rcases h1 (failingRepo_throws _) 3 (plainRequest .GET ["api", "contracts", "stats"])
    (by decide) (by decide) with ⟨errors, he, _, hne⟩ | h
  · have hst : (contractHandlers exampleLib (failingRepo (.dbError "connection refused")) 3
        (plainRequest .GET ["api", "contracts", "stats"]) emptyDb).1.status = 400 := by
      rw [he]
    exact absurd hst (by decide)
  · exact h

/-- C17, refuted as stated: a `GET /api/contracts/abc` fails validation and is
answered with a body that has no field `success`; a `DELETE` of an existing
contract is answered with `success: true` and a body whose fields are
`success` and `message`, without `data`. -/
theorem contract_responses_without_envelope :
    (contractRouter exampleLib (contractModel exampleEnv)
        (plainRequest .GET ["api", "contracts", "abc"]) exampleDb).map
        (fun r => (r.1.status, r.1.body.success, r.1.body.fields))
        = some (400, none, ["errors"])
      ∧ (contractRouter exampleLib (contractModel exampleEnv)
        (plainRequest .DELETE ["api", "contracts", "123e4567-e89b-42d3-a456-426614174000"])
        uuidDb).map (fun r => (r.1.status, r.1.body.success, r.1.body.fields))
        = some (200, some true, ["success", "message"]) := by
  decide

/-- C17, amended: every response of the contract routes is of one of four
shapes: the validation failure, status 400 with the body `errors: [...]` and
no field `success`; `success: false` with a field `error`; `success: true`
with a field `data`; or `success: true` with the message `Contract terminated
successfully` and no `data`, which only a `DELETE` gets.  (`create` returns
the inserted row whenever it returns, as `ContractModel.create` does.) -/
theorem contract_responses_shape (lib : Lib) (repo : Repo) (req : Request) (db : Db)
    (r : Response × Db)
    (hcreate : ∀ data db0 row db1, repo.create data db0 = (.ok row, db1) → row.isSome = true)
    (h : contractRouter lib repo req db = some r) :
    contractResponseShape r.1
      ∧ (r.1.body = ResBody.message "Contract terminated successfully" →
          req.method = Method.DELETE) := by
  unfold contractRouter at h
  cases hfm : firstMatch modularRoutes req.method req.path with
  | none => rw [hfm] at h; cases h
  | some i =>
    rw [hfm] at h
    rcases i with _ | _ | _ | _ | _ | _ | _ | _ | _ | i
    · cases h
    · cases h
    · simp only [Option.some.injEq] at h
      rw [← h]
      exact ⟨(routeList_shape lib repo req db).1,
        fun hb => absurd hb ((routeList_shape lib repo req db).2 _)⟩
    · simp only [Option.some.injEq] at h
      rw [← h]
      exact ⟨(routeStats_shape repo req db).1,
        fun hb => absurd hb ((routeStats_shape repo req db).2 _)⟩
    · simp only [Option.some.injEq] at h
      rw [← h]
      exact ⟨(routeExpiring_shape repo req db).1,
        fun hb => absurd hb ((routeExpiring_shape repo req db).2 _)⟩
    · simp only [Option.some.injEq] at h
      rw [← h]
      exact ⟨(routeGetById_shape lib repo _ req db).1,
        fun hb => absurd hb ((routeGetById_shape lib repo _ req db).2 _)⟩
    · simp only [Option.some.injEq] at h
      rw [← h]
      exact ⟨(routePost_shape lib repo req db hcreate).1,
        fun hb => absurd hb ((routePost_shape lib repo req db hcreate).2 _)⟩
    · simp only [Option.some.injEq] at h
      rw [← h]
      exact ⟨(routePut_shape lib repo _ req db).1,
        fun hb => absurd hb ((routePut_shape lib repo _ req db).2 _)⟩
    · simp only [Option.some.injEq] at h
      rw [← h]
      refine ⟨routeDelete_shape lib repo _ req db, fun _ => ?_⟩
      have ht := List.findIdx?_of_eq_some hfm
      simp only [modularRoutes, Route.takes] at ht
      cases hm : req.method <;> simp [hm] at ht
      rfl
    · simp only [Option.some.injEq] at h
      rw [← h]
      have hnf : contractHandlers lib repo (i + 1 + 1 + 1 + 1 + 1 + 1 + 1 + 1 + 1) req db
          = notFoundModular req db := rfl
      rw [hnf]
      exact ⟨Or.inr (Or.inl ⟨rfl, by simp [notFoundModular, ResBody.fields]⟩),
        fun hb => by cases hb⟩

/-- Witness for C17 (amended): the listing of the example database. -/
theorem contract_responses_shape_witness :
    ∃ r : Response × Db,
      contractRouter exampleLib (contractModel exampleEnv)
          (plainRequest .GET ["api", "contracts", "stats"]) exampleDb = some r
        ∧ contractResponseShape r.1 := by
  refine ⟨_, rfl, (contract_responses_shape exampleLib (contractModel exampleEnv)
    (plainRequest .GET ["api", "contracts", "stats"]) exampleDb _
    (fun data db0 row db1 h => create_returns_row exampleEnv data db0 db1 row h) rfl).1⟩

/-- C18, refuted as stated: `complete-server.js` does not look at the form of
the id; it sends its statement and answers by what the statement does.  In
its database the ids are integers (`test-db.js`).  With the id `c1`, which is
no UUID, `GET` and `DELETE /api/contracts/c1` send their statement, which the
database rejects, and answer with status 500, not 400.  With the id `1`,
which is no UUID either, `GET /api/contracts/1` is answered with status 200
and `DELETE /api/contracts/1` with status 200 after it has changed the
table. -/
theorem complete_server_takes_any_id :
    (completeServer exampleEnv (fun _ => notFoundComplete)
        (plainRequest .GET ["api", "contracts", "c1"]) legacyDb).1
        = ⟨500, ResBody.failure "Failed to fetch contract"⟩
      ∧ (completeServer exampleEnv (fun _ => notFoundComplete)
        (plainRequest .DELETE ["api", "contracts", "c1"]) legacyDb).1
        = ⟨500, ResBody.failure "Failed to delete contract"⟩
      ∧ (completeServer exampleEnv (fun _ => notFoundComplete)
        (plainRequest .GET ["api", "contracts", "1"]) legacyDb).1.status = 200
      ∧ (completeServer exampleEnv (fun _ => notFoundComplete)
        (plainRequest .DELETE ["api", "contracts", "1"]) legacyDb).1.status = 200
      ∧ (completeServer exampleEnv (fun _ => notFoundComplete)
        (plainRequest .DELETE ["api", "contracts", "1"]) legacyDb).2 ≠ legacyDb := by
  decide

/-- C18, amended: in the modular server (`contractRoutes.js`) the handlers of
`GET`, `PUT` and `DELETE /api/contracts/:id` answer an id that is not a UUID
with status 400 and the validation error `Invalid contract ID`, whatever the
repository is, and leave the database as it was: no repository call is made.
The server sends every `PUT` and `DELETE` on `/api/contracts/<id>` to these
handlers, and every `GET` whose last segment is not one of the fixed words
`stats` and `expiring-soon`. -/
theorem invalid_id_rejected (lib : Lib) (repo : Repo) (id : String) (db : Db)
    (h : lib.isUUID id = false) :
    (∀ req : Request,
        routeGetById lib repo id req db
            = (⟨400, ResBody.errors [⟨"id", "Invalid contract ID"⟩]⟩, db)
          ∧ routePut lib repo id req db
            = (⟨400, ResBody.errors [⟨"id", "Invalid contract ID"⟩]⟩, db)
          ∧ routeDelete lib repo id req db
            = (⟨400, ResBody.errors [⟨"id", "Invalid contract ID"⟩]⟩, db))
      ∧ (id ≠ "" → ∀ (ping : Except Err Unit) (nodeEnv : JVal) (now : Int) (query : Obj)
          (xUserId : JVal) (body : Obj),
          modularServer lib repo ping nodeEnv now
              ⟨.PUT, ["api", "contracts", id], query, xUserId, body, none⟩ db
              = (⟨400, ResBody.errors [⟨"id", "Invalid contract ID"⟩]⟩, db)
            ∧ modularServer lib repo ping nodeEnv now
              ⟨.DELETE, ["api", "contracts", id], query, xUserId, body, none⟩ db
              = (⟨400, ResBody.errors [⟨"id", "Invalid contract ID"⟩]⟩, db)
            ∧ ((Seg.lit "stats").fits id = false → (Seg.lit "expiring-soon").fits id = false →
                modularServer lib repo ping nodeEnv now
                  ⟨.GET, ["api", "contracts", id], query, xUserId, body, none⟩ db
                  = (⟨400, ResBody.errors [⟨"id", "Invalid contract ID"⟩]⟩, db))) := by
  have hg : ∀ req : Request, routeGetById lib repo id req db
      = (⟨400, ResBody.errors [⟨"id", "Invalid contract ID"⟩]⟩, db) := by
    intro req
    simp [routeGetById, checkId, h]
  have hp : ∀ req : Request, routePut lib repo id req db
      = (⟨400, ResBody.errors [⟨"id", "Invalid contract ID"⟩]⟩, db) := by
    intro req
    simp [routePut, checkId, h]
  have hd : ∀ req : Request, routeDelete lib repo id req db
      = (⟨400, ResBody.errors [⟨"id", "Invalid contract ID"⟩]⟩, db) := by
    intro req
    simp [routeDelete, checkId, h]
  refine ⟨fun req => ⟨hg req, hp req, hd req⟩, ?_⟩
  intro hid ping nodeEnv now query xUserId body
  have hne : (id != "") = true := by simpa using hid
  have hput : firstMatch modularRoutes .PUT ["api", "contracts", id] = some 7 := by
    simp [firstMatch, modularRoutes, Route.takes, fitsAll, Seg.fits, hne, List.findIdx?_cons]
  have hdel : firstMatch modularRoutes .DELETE ["api", "contracts", id] = some 8 := by
    simp [firstMatch, modularRoutes, Route.takes, fitsAll, Seg.fits, hne, List.findIdx?_cons]
  refine ⟨?_, ?_, ?_⟩
  · simp only [modularServer, serve, hput, modularHandlers, contractHandlers]
    exact hp _
  · simp only [modularServer, serve, hdel, modularHandlers, contractHandlers]
    exact hd _
  · intro h1 h2
    have hget : firstMatch modularRoutes .GET ["api", "contracts", id] = some 5 := by
      simp [Seg.fits] at h1 h2
      simp [firstMatch, modularRoutes, Route.takes, fitsAll, Seg.fits, hne, h1, h2,
        List.findIdx?_cons]
    simp only [modularServer, serve, hget, modularHandlers, contractHandlers]
    exact hg _

/-- Witness for C18 (amended): the id `abc`. -/
theorem invalid_id_rejected_witness :
    modularServer exampleLib (contractModel exampleEnv) (.ok ()) JVal.undefined 0
        ⟨.DELETE, ["api", "contracts", "abc"], [], JVal.undefined, [], none⟩ exampleDb
      = (⟨400, ResBody.errors [⟨"id", "Invalid contract ID"⟩]⟩, exampleDb) :=
  ((invalid_id_rejected exampleLib (contractModel exampleEnv) "abc" exampleDb (by decide)).2
    (by decide) (.ok ()) JVal.undefined 0 [] JVal.undefined []).2.1

/-- C19, refuted as stated: the modular server answers a request for an
unknown path with status 404 and a body whose fields are `success` and
`error`: it lists no routes. -/
theorem modular_404_lists_no_routes :
    (modularServer exampleLib (contractModel exampleEnv) (.ok ()) JVal.undefined 0
        (plainRequest .GET ["nope"]) emptyDb).1
        = ⟨404, ResBody.notFound "Route not found" none⟩
      ∧ (modularServer exampleLib (contractModel exampleEnv) (.ok ()) JVal.undefined 0
        (plainRequest .GET ["nope"]) emptyDb).1.body.fields = ["success", "error"] := by
  decide

/-- C19, amended: a request that no registered route takes is answered with
status 404, `success: false` and the error `Route not found` by each of the
three servers; `complete-server.js` and `minimal-server.js` add the list
`availableRoutes`, the modular server (`app.js`) does not. -/
theorem unmatched_requests (lib : Lib) (repo : Repo) (ping : Except Err Unit) (nodeEnv : JVal)
    (now : Int) (env : Env) (others : Nat → Handler) (req : Request) (db : Db) :
    (req.parseError = none → firstMatch modularRoutes req.method req.path = none →
        modularServer lib repo ping nodeEnv now req db
          = (⟨404, ResBody.notFound "Route not found" none⟩, db))
      ∧ (firstMatch completeRoutes req.method req.path = none →
        ∃ routes : List String,
          completeServer env others req db
              = (⟨404, ResBody.notFound "Route not found" (some routes)⟩, db)
            ∧ routes.length = 13)
      ∧ (firstMatch minimalRoutes req.method req.path = none →
        minimalServer env nodeEnv others req db
          = (⟨404, ResBody.notFound "Route not found"
              (some ["/health", "/api/contracts", "/api/contracts/stats"])⟩, db))
      ∧ (ResBody.notFound "Route not found" none).success = some false
      ∧ (ResBody.notFound "Route not found" none).fields = ["success", "error"]
      ∧ ∀ routes : List String,
          (ResBody.notFound "Route not found" (some routes)).success = some false
            ∧ (ResBody.notFound "Route not found" (some routes)).fields
                = ["success", "error", "availableRoutes"] := by
  refine ⟨?_, ?_, ?_, rfl, rfl, fun _ => ⟨rfl, rfl⟩⟩
  · intro hp hm
    simp only [modularServer, hp, serve, hm, notFoundModular]
  · intro hm
    simp only [completeServer, serve, hm, notFoundComplete]
    exact ⟨_, rfl, rfl⟩
  · intro hm
    simp only [minimalServer, serve, hm, notFoundMinimal]

/-- Witness for C19 (amended): a `GET /nope` in each server. -/
theorem unmatched_requests_witness :
    modularServer exampleLib (contractModel exampleEnv) (.ok ()) JVal.undefined 0
        (plainRequest .GET ["nope"]) emptyDb
        = (⟨404, ResBody.notFound "Route not found" none⟩, emptyDb)
      ∧ minimalServer exampleEnv JVal.undefined (fun _ => notFoundMinimal)
        (plainRequest .GET ["nope"]) emptyDb
        = (⟨404, ResBody.notFound "Route not found"
            (some ["/health", "/api/contracts", "/api/contracts/stats"])⟩, emptyDb) := by
  obtain ⟨h1, _, h3, _⟩ := unmatched_requests exampleLib (contractModel exampleEnv) (.ok ())
    JVal.undefined 0 exampleEnv (fun _ => notFoundMinimal) (plainRequest .GET ["nope"]) emptyDb
  exact ⟨h1 rfl (by decide), h3 (by decide)⟩

/-- C21: a `GET` whose path is `/api/contracts/stats` or
`/api/contracts/expiring-soon` (in any spelling of upper and lower case) goes
to the route registered for that path, in the modular server and in
`complete-server.js`, and so do `/search`, `/filter` and `/upcoming-reviews` in
`complete-server.js`.  The route `GET /api/contracts/:id` would take each of
these paths too; it is registered after them (position 5 of the modular
routes, position 10 of those of `complete-server.js`), so the first match is
never the `:id` route, and the servers answer with the handler of the
specific route. -/
theorem specific_routes_before_id (a c w : String)
    (ha : (Seg.lit "api").fits a = true) (hc : (Seg.lit "contracts").fits c = true) :
    (((Seg.lit "stats").fits w = true →
          firstMatch modularRoutes .GET [a, c, w] = some 3
            ∧ firstMatch completeRoutes .GET [a, c, w] = some 3)
        ∧ ((Seg.lit "expiring-soon").fits w = true →
          firstMatch modularRoutes .GET [a, c, w] = some 4
            ∧ firstMatch completeRoutes .GET [a, c, w] = some 4)
        ∧ ((Seg.lit "search").fits w = true →
          firstMatch completeRoutes .GET [a, c, w] = some 5)
        ∧ ((Seg.lit "filter").fits w = true →
          firstMatch completeRoutes .GET [a, c, w] = some 6)
        ∧ ((Seg.lit "upcoming-reviews").fits w = true →
          firstMatch completeRoutes .GET [a, c, w] = some 7))
      ∧ (modularRoutes.get? 3 = some ⟨.GET, [.lit "api", .lit "contracts", .lit "stats"]⟩
        ∧ modularRoutes.get? 4
            = some ⟨.GET, [.lit "api", .lit "contracts", .lit "expiring-soon"]⟩
        ∧ modularRoutes.get? 5 = some ⟨.GET, [.lit "api", .lit "contracts", .param]⟩
        ∧ completeRoutes.get? 3 = some ⟨.GET, [.lit "api", .lit "contracts", .lit "stats"]⟩
        ∧ completeRoutes.get? 4
            = some ⟨.GET, [.lit "api", .lit "contracts", .lit "expiring-soon"]⟩
        ∧ completeRoutes.get? 5 = some ⟨.GET, [.lit "api", .lit "contracts", .lit "search"]⟩
        ∧ completeRoutes.get? 6 = some ⟨.GET, [.lit "api", .lit "contracts", .lit "filter"]⟩
        ∧ completeRoutes.get? 7
            = some ⟨.GET, [.lit "api", .lit "contracts", .lit "upcoming-reviews"]⟩
        ∧ completeRoutes.get? 10 = some ⟨.GET, [.lit "api", .lit "contracts", .param]⟩)
      ∧ (((Seg.lit "stats").fits w = true ∨ (Seg.lit "expiring-soon").fits w = true
            ∨ (Seg.lit "search").fits w = true ∨ (Seg.lit "filter").fits w = true
            ∨ (Seg.lit "upcoming-reviews").fits w = true) →
          (⟨.GET, [.lit "api", .lit "contracts", .param]⟩ : Route).takes .GET [a, c, w] = true)
      ∧ (∀ (lib : Lib) (repo : Repo) (ping : Except Err Unit) (nodeEnv : JVal) (now : Int)
          (query : Obj) (xUserId : JVal) (body : Obj) (db : Db),
          ((Seg.lit "stats").fits w = true →
              modularServer lib repo ping nodeEnv now
                  ⟨.GET, [a, c, w], query, xUserId, body, none⟩ db
                = routeStats repo ⟨.GET, [a, c, w], query, xUserId, body, none⟩ db)
            ∧ ((Seg.lit "expiring-soon").fits w = true →
              modularServer lib repo ping nodeEnv now
                  ⟨.GET, [a, c, w], query, xUserId, body, none⟩ db
                = routeExpiring repo ⟨.GET, [a, c, w], query, xUserId, body, none⟩ db))
      ∧ (∀ (env : Env) (others : Nat → Handler) (query : Obj) (xUserId : JVal) (body : Obj)
          (db : Db) (i : Nat),
          firstMatch completeRoutes .GET [a, c, w] = some i → 3 ≤ i → i ≤ 7 →
            completeServer env others ⟨.GET, [a, c, w], query, xUserId, body, none⟩ db
              = others i ⟨.GET, [a, c, w], query, xUserId, body, none⟩ db) := by
  have hm3 : (Seg.lit "stats").fits w = true →
      firstMatch modularRoutes .GET [a, c, w] = some 3 := by
    intro hw
    simp [firstMatch, modularRoutes, Route.takes, fitsAll, ha, hc, hw, List.findIdx?_cons]
  have hm4 : (Seg.lit "expiring-soon").fits w = true →
      firstMatch modularRoutes .GET [a, c, w] = some 4 := by
    intro hw
    have h1 := fits_lit_ne "expiring-soon" "stats" w hw (by decide)
    simp [firstMatch, modularRoutes, Route.takes, fitsAll, ha, hc, hw, h1, List.findIdx?_cons]
  refine ⟨⟨?_, ?_, ?_, ?_, ?_⟩, ?_, ?_, ?_, ?_⟩
  · intro hw
    refine ⟨hm3 hw, ?_⟩
    simp [firstMatch, completeRoutes, Route.takes, fitsAll, ha, hc, hw, List.findIdx?_cons]
  · intro hw
    refine ⟨hm4 hw, ?_⟩
    have h1 := fits_lit_ne "expiring-soon" "stats" w hw (by decide)
    simp [firstMatch, completeRoutes, Route.takes, fitsAll, ha, hc, hw, h1, List.findIdx?_cons]
  · intro hw
    have h1 := fits_lit_ne "search" "stats" w hw (by decide)
    have h2 := fits_lit_ne "search" "expiring-soon" w hw (by decide)
    simp [firstMatch, completeRoutes, Route.takes, fitsAll, ha, hc, hw, h1, h2,
      List.findIdx?_cons]
  · intro hw
    have h1 := fits_lit_ne "filter" "stats" w hw (by decide)
    have h2 := fits_lit_ne "filter" "expiring-soon" w hw (by decide)
    have h3 := fits_lit_ne "filter" "search" w hw (by decide)
    simp [firstMatch, completeRoutes, Route.takes, fitsAll, ha, hc, hw, h1, h2, h3,
      List.findIdx?_cons]
  · intro hw
    have h1 := fits_lit_ne "upcoming-reviews" "stats" w hw (by decide)
    have h2 := fits_lit_ne "upcoming-reviews" "expiring-soon" w hw (by decide)
    have h3 := fits_lit_ne "upcoming-reviews" "search" w hw (by decide)
    have h4 := fits_lit_ne "upcoming-reviews" "filter" w hw (by decide)
    simp [firstMatch, completeRoutes, Route.takes, fitsAll, ha, hc, hw, h1, h2, h3, h4,
      List.findIdx?_cons]
  · exact ⟨rfl, rfl, rfl, rfl, rfl, rfl, rfl, rfl, rfl⟩
  · intro hw
    have hp : Seg.param.fits w = true := by
      rcases hw with h | h | h | h | h
      · exact fits_param_of_lit _ w h (by decide)
      · exact fits_param_of_lit _ w h (by decide)
      · exact fits_param_of_lit _ w h (by decide)
      · exact fits_param_of_lit _ w h (by decide)
      · exact fits_param_of_lit _ w h (by decide)
    simp [Route.takes, fitsAll, ha, hc, hp]
  · intro lib repo ping nodeEnv now query xUserId body db
    refine ⟨?_, ?_⟩
    · intro hw
      simp only [modularServer, serve, hm3 hw, modularHandlers, contractHandlers]
    · intro hw
      simp only [modularServer, serve, hm4 hw, modularHandlers, contractHandlers]
  · intro env others query xUserId body db i hi h3 h7
    simp only [completeServer, serve, hi]
    rcases i with _ | _ | _ | _ | _ | _ | _ | _ | i
    · omega
    · omega
    · omega
    · rfl
    · rfl
    · rfl
    · rfl
    · rfl
    · omega

/-- Witness for C21: `GET /api/contracts/stats` and, in capitals,
`GET /API/Contracts/SEARCH`. -/
theorem specific_routes_before_id_witness :
    firstMatch modularRoutes .GET ["api", "contracts", "stats"] = some 3
      ∧ firstMatch completeRoutes .GET ["API", "Contracts", "SEARCH"] = some 5 :=
  ⟨((specific_routes_before_id "api" "contracts" "stats" (by decide) (by decide)).1.1
      (by decide)).1,
    (specific_routes_before_id "API" "Contracts" "SEARCH" (by decide) (by decide)).1.2.2.1
      (by decide)⟩

/-- C22, where the code breaks the claim: a body that passes `validateContract`
and carries its `expiration_date` as a date string makes `create` throw an
error of its own.  `createDefaultMilestones` calls `getTime()` on the string,
so after the contract row is inserted `create` throws a `TypeError`; no
milestone and no audit entry is written, nothing is returned, and the route
answers with status 500 while the contract row stays in the table. -/
theorem create_throws_on_date_string (lib : Lib) (env : Env) (req : Request) (db : Db)
    (s : String) (hv : validateContract lib.isDate req.body = [])
    (h : req.body.get "expiration_date" = JVal.str s) (hs : s ≠ "") :
    create env (req.body.set "created_by" (req.xUserId.or (JVal.str "anonymous"))) db
        = (.error (.typeError "expirationDate.getTime is not a function"),
            ⟨db.contracts ++ [insertedRow env.now (createValues env
                (req.body.set "created_by" (req.xUserId.or (JVal.str "anonymous"))))],
              db.contract_milestones, db.audit_logs⟩)
      ∧ routePost lib (contractModel env) req db
        = (⟨500, ResBody.failure "Failed to create contract"⟩,
            ⟨db.contracts ++ [insertedRow env.now (createValues env
                (req.body.set "created_by" (req.xUserId.or (JVal.str "anonymous"))))],
              db.contract_milestones, db.audit_logs⟩) := by
  have hget : (req.body.set "created_by" (req.xUserId.or (JVal.str "anonymous"))).get
      "expiration_date" = JVal.str s := by
    rw [Obj.get_spread_other _ _ _ _ (by decide), h]
  have hc := create_of_date_string env
    (req.body.set "created_by" (req.xUserId.or (JVal.str "anonymous"))) db s hget hs
  refine ⟨hc, ?_⟩
  simp only [routePost, hv, contractModel, hc]
  rfl

/-- Witness for C22: the body `datedBody` posted to the modular server with an
empty database: status 500, one contract row, no milestone, no audit entry. -/
theorem create_throws_on_date_string_witness :
    validateContract exampleLib.isDate datedBody = []
      ∧ (modularServer exampleLib (contractModel exampleEnv) (.ok ()) JVal.undefined 0
          ⟨.POST, ["api", "contracts"], [], JVal.undefined, datedBody, none⟩ emptyDb).1
        = ⟨500, ResBody.failure "Failed to create contract"⟩
      ∧ (modularServer exampleLib (contractModel exampleEnv) (.ok ()) JVal.undefined 0
          ⟨.POST, ["api", "contracts"], [], JVal.undefined, datedBody, none⟩ emptyDb).2.contracts.length
        = 1
      ∧ (modularServer exampleLib (contractModel exampleEnv) (.ok ()) JVal.undefined 0
          ⟨.POST, ["api", "contracts"], [], JVal.undefined, datedBody, none⟩ emptyDb).2.contract_milestones
        = []
      ∧ (modularServer exampleLib (contractModel exampleEnv) (.ok ()) JVal.undefined 0
          ⟨.POST, ["api", "contracts"], [], JVal.undefined, datedBody, none⟩ emptyDb).2.audit_logs
        = [] := by
  have hv : validateContract exampleLib.isDate datedBody = [] := by decide
  have h := (create_throws_on_date_string exampleLib exampleEnv
    ⟨.POST, ["api", "contracts"], [], JVal.undefined, datedBody, none⟩ emptyDb "2025-12-31"
    hv rfl (by decide)).2
  have hm : modularServer exampleLib (contractModel exampleEnv) (.ok ()) JVal.undefined 0
      ⟨.POST, ["api", "contracts"], [], JVal.undefined, datedBody, none⟩ emptyDb
      = routePost exampleLib (contractModel exampleEnv)
        ⟨.POST, ["api", "contracts"], [], JVal.undefined, datedBody, none⟩ emptyDb := rfl
  rw [hm, h]
  exact ⟨hv, rfl, rfl, rfl, rfl⟩

/-- C23: for an id that no contract has, `delete`, and `update` with a patch
that assigns something (a key other than `id` with a defined value) and that
the store accepts (distinct columns of the table other than `updated_at`),
leave `contracts` and the milestones as they were, return `undefined`, and
still append one audit entry, with the action `DELETE` or `UPDATE` and that
id as `contract_id`; the routes `PUT` and `DELETE /api/contracts/:id` then
answer with status 404 and `Contract not found`. -/
theorem missing_id_still_audited (env : Env) (id : String) (userId : JVal) (db : Db)
    (hno : ∀ r ∈ db.contracts, r.get "id" ≠ JVal.str id) :
    (∀ patch : Obj, eligible patch ≠ [] →
        (∀ p ∈ eligible patch, p.1 ∈ contractColumns ∧ p.1 ≠ "updated_at") →
        ((eligible patch).map Prod.fst).Nodup →
        update env (JVal.str id) patch userId db
            = (.ok none, ⟨db.contracts, db.contract_milestones, db.audit_logs ++
                [⟨JVal.str id, JVal.str "UPDATE", prepareValue (userId.or (JVal.str "system")),
                  ⟨"contract_updated", none, some patch⟩, env.now⟩]⟩)
          ∧ ∀ (lib : Lib) (req : Request), lib.isUUID id = true → req.body = patch →
              routePut lib (contractModel env) id req db
                = (⟨404, ResBody.failure "Contract not found"⟩,
                    ⟨db.contracts, db.contract_milestones, db.audit_logs ++
                      [⟨JVal.str id, JVal.str "UPDATE",
                        prepareValue ((req.xUserId.or (JVal.str "anonymous")).or
                          (JVal.str "system")),
                        ⟨"contract_updated", none, some patch⟩, env.now⟩]⟩))
      ∧ delete env (JVal.str id) userId db
          = (.ok none, ⟨db.contracts, db.contract_milestones, db.audit_logs ++
              [⟨JVal.str id, JVal.str "DELETE", prepareValue (userId.or (JVal.str "system")),
                ⟨"contract_terminated", none, none⟩, env.now⟩]⟩)
      ∧ ∀ (lib : Lib) (req : Request), lib.isUUID id = true →
          routeDelete lib (contractModel env) id req db
            = (⟨404, ResBody.failure "Contract not found"⟩,
                ⟨db.contracts, db.contract_milestones, db.audit_logs ++
                  [⟨JVal.str id, JVal.str "DELETE",
                    prepareValue ((req.xUserId.or (JVal.str "anonymous")).or
                      (JVal.str "system")),
                    ⟨"contract_terminated", none, none⟩, env.now⟩]⟩) := by
  refine ⟨?_, delete_of_missing_id env id userId db hno, ?_⟩
  · intro patch hne hcol hnd
    refine ⟨update_of_missing_id env id patch userId db hno hne hcol hnd, ?_⟩
    intro lib req hu hb
    have hup := update_of_missing_id env id patch (req.xUserId.or (JVal.str "anonymous")) db
      hno hne hcol hnd
    simp only [routePut, checkId, hu, if_true, List.isEmpty_nil, not_true_eq_false, if_false,
      contractModel, hb, hup]
  · intro lib req hu
    have hdel := delete_of_missing_id env id (req.xUserId.or (JVal.str "anonymous")) db hno
    simp only [routeDelete, checkId, hu, if_true, List.isEmpty_nil, not_true_eq_false, if_false,
      contractModel, hdel]

/-- Witness for C23: the example database has no contract `c9`. -/
theorem missing_id_still_audited_witness :
    (update exampleEnv (JVal.str "c9") [("title", JVal.str "NDA")] JVal.undefined exampleDb).2
        = ⟨exampleDb.contracts, [],
            [⟨JVal.str "c9", JVal.str "UPDATE", JVal.str "system",
              ⟨"contract_updated", none, some [("title", JVal.str "NDA")]⟩, 1000⟩]⟩
      ∧ (delete exampleEnv (JVal.str "c9") JVal.undefined exampleDb).2
        = ⟨exampleDb.contracts, [],
            [⟨JVal.str "c9", JVal.str "DELETE", JVal.str "system",
              ⟨"contract_terminated", none, none⟩, 1000⟩]⟩ := by
  obtain ⟨h1, h2, _⟩ := missing_id_still_audited exampleEnv "c9" JVal.undefined exampleDb
    (by decide)
  have h3 := (h1 [("title", JVal.str "NDA")] (by decide) (by decide) (by decide)).1
  rw [h3, h2]
  exact ⟨rfl, rfl⟩

/-- C24: in `findAll`, with `k` the number of provided filters (a filter is
provided when its value is truthy): the conditions of the `WHERE` clause are
those of the provided filters in the order status, type, search, with the
placeholders `$1`, ..., `$k` in that order (the text is the one listed for
each of the eight combinations); the element of the parameter array at the
place of a condition's placeholder is the value of that condition's filter;
the count query receives exactly the `k` filter values; the data query
receives `k + 2` values, its text binds `LIMIT` to `$(k+1)` and `OFFSET` to
`$(k+2)`, and these are `limit` and `(page - 1) * limit`. -/
theorem findAll_placeholders (page limit : Option Int) (s t q : JVal) :
    (findAllFilters s t q).paramCount = ([s, t, q].filter JVal.truthy).length
      ∧ (findAllFilters s t q).whereClauses = numberConds 0 (providedConds s t q)
      ∧ (findAllFilters s t q).whereClauses.map Cond.param
          = List.range' 1 ([s, t, q].filter JVal.truthy).length
      ∧ whereClauseText (findAllFilters s t q).whereClauses
          = expectedWhere s.truthy t.truthy q.truthy
      ∧ (∀ c ∈ (findAllFilters s t q).whereClauses,
          (findAllQueries page limit s t q).1.values.get? (c.param - 1)
              = some (c.filterValue s t q)
            ∧ (findAllQueries page limit s t q).2.values.get? (c.param - 1)
              = some (c.filterValue s t q))
      ∧ (findAllQueries page limit s t q).1.text
          = countQueryText (findAllFilters s t q).whereClauses
      ∧ (findAllQueries page limit s t q).1.values = [s, t, q].filter JVal.truthy
      ∧ (findAllQueries page limit s t q).2.values
          = [s, t, q].filter JVal.truthy
            ++ [JVal.num (limit.getD 20), JVal.num ((page.getD 1 - 1) * limit.getD 20)]
      ∧ (findAllQueries page limit s t q).2.values.length
          = ([s, t, q].filter JVal.truthy).length + 2
      ∧ (findAllQueries page limit s t q).2.text
          = "\n            SELECT *,\n            EXTRACT(EPOCH FROM (expiration_date - CURRENT_DATE)) / 86400 as days_until_expiry\n            FROM contracts \n            "
            ++ whereClauseText (findAllFilters s t q).whereClauses
            ++ "\n            ORDER BY created_at DESC\n            LIMIT $"
            ++ toString (([s, t, q].filter JVal.truthy).length + 1)
            ++ " OFFSET $" ++ toString (([s, t, q].filter JVal.truthy).length + 2)
            ++ "\n        "
      ∧ paramAt (findAllQueries page limit s t q).2.values
          (([s, t, q].filter JVal.truthy).length + 1) = some (JVal.num (limit.getD 20))
      ∧ paramAt (findAllQueries page limit s t q).2.values
          (([s, t, q].filter JVal.truthy).length + 2)
          = some (JVal.num ((page.getD 1 - 1) * limit.getD 20)) := by
  obtain ⟨hvals, hcount⟩ := findAllFilters_values s t q
  have hq1 : (findAllQueries page limit s t q).1.values = [s, t, q].filter JVal.truthy := by
    simp only [findAllQueries, hvals, hcount]
    rw [List.take_append_of_le_length (le_refl _), List.take_length]
  have hq2 : (findAllQueries page limit s t q).2.values
      = [s, t, q].filter JVal.truthy
        ++ [JVal.num (limit.getD 20), JVal.num ((page.getD 1 - 1) * limit.getD 20)] := by
    simp only [findAllQueries, hvals]
  refine ⟨hcount, ?_, ?_, ?_, ?_, rfl, hq1, hq2, ?_, ?_, ?_, ?_⟩
  · cases hs : s.truthy <;> cases ht : t.truthy <;> cases hq : q.truthy <;>
      simp [findAllFilters, providedConds, numberConds, hs, ht, hq]
  · cases hs : s.truthy <;> cases ht : t.truthy <;> cases hq : q.truthy <;>
      simp [findAllFilters, List.filter_cons, Cond.param, hs, ht, hq, List.range']
  · cases hs : s.truthy <;> cases ht : t.truthy <;> cases hq : q.truthy <;>
      simp only [findAllFilters, hs, ht, hq, if_true, if_false, Bool.false_eq_true,
        List.nil_append, List.cons_append, Nat.zero_add] <;> rfl
  · rw [hq1, hq2]
    cases hs : s.truthy <;> cases ht : t.truthy <;> cases hq : q.truthy <;>
      simp [findAllFilters, List.filter_cons, Cond.param, Cond.filterValue, hs, ht, hq]
  · rw [hq2]
    simp
  · simp only [findAllQueries, dataQueryText, hcount]
  · rw [hq2]
    have := paramAt_append_mid ([s, t, q].filter JVal.truthy)
      [JVal.num ((page.getD 1 - 1) * limit.getD 20)] (JVal.num (limit.getD 20))
    simpa [prepareValue_num] using this
  · rw [hq2]
    have := paramAt_append_mid ([s, t, q].filter JVal.truthy ++ [JVal.num (limit.getD 20)])
      [] (JVal.num ((page.getD 1 - 1) * limit.getD 20))
    simpa [prepareValue_num] using this

set_option maxRecDepth 100000 in
/-- C25, where the code breaks the claim: the export wraps a string in double
quotes only when it holds a comma and writes every other value as it is.
For the table that holds one contract whose title is `5" disk`, the text has
a header line with 20 columns and one data line that, read by CSV rules, has
3 fields: the double quote of the title opens a quoted stretch that never
ends.  For the table that holds one contract whose description has a line
feed, the text has three lines for one row.  (`dateText` is how dates are
written; it writes no double quote and no line feed.)  The server answers
both requests with status 200 and that text; with no contract it answers
404, as the claim says. -/
theorem csv_export_malformed (dateText : Int → String)
    (hd : ∀ t : Int, quoteChar ∉ (dateText t).data ∧ newlineChar ∉ (dateText t).data) :
    (∃ header line : List Char,
        splitLines (csvText dateText quoteRow [quoteRow]).data = [header, line]
          ∧ header = (",".intercalate (quoteRow.map Prod.fst)).data
          ∧ csvFieldCount header = 20 ∧ csvFieldCount line = 3)
      ∧ (splitLines (csvText dateText twoLineRow [twoLineRow]).data).length = 3
      ∧ (∀ env : Env,
          completeServer env (fun _ => completeExportCsv dateText)
              (plainRequest .GET ["api", "contracts", "export", "csv"]) ⟨[quoteRow], [], []⟩
            = (⟨200, ResBody.csv (csvText dateText quoteRow [quoteRow])⟩, ⟨[quoteRow], [], []⟩)
          ∧ completeServer env (fun _ => completeExportCsv dateText)
              (plainRequest .GET ["api", "contracts", "export", "csv"]) ⟨[twoLineRow], [], []⟩
            = (⟨200, ResBody.csv (csvText dateText twoLineRow [twoLineRow])⟩,
                ⟨[twoLineRow], [], []⟩)
          ∧ completeServer env (fun _ => completeExportCsv dateText)
              (plainRequest .GET ["api", "contracts", "export", "csv"]) emptyDb
            = (⟨404, ResBody.failure "No contracts to export"⟩, emptyDb)) := by
  have hq := (hd 500).1
  have hn := (hd 500).2
  have hm : firstMatch completeRoutes .GET ["api", "contracts", "export", "csv"] = some 8 := by
    decide
  refine ⟨⟨(",".intercalate (quoteRow.map Prod.fst)).data,
    "c1,CON-2025-1234,5".data ++ quoteChar :: " disk,,Acme,,,u1,,active,MSA,,,,,USD,,,".data
      ++ (((dateText 500).data ++ [',']) ++ (dateText 500).data),
    ?_, rfl, by decide, ?_⟩, ?_, ?_⟩
  · rw [csvText_quoteRow, splitLines_append_newline _ _ (by decide),
      splitLines_of_no_newline]
    intro hmem
    simp only [List.mem_append, List.mem_cons, List.mem_singleton, hn, or_self, or_false,
      false_or, List.not_mem_nil] at hmem
    revert hmem
    decide
  · have hx : quoteChar ∉ ((dateText 500).data ++ [',']) ++ (dateText 500).data := by
      intro hmem
      simp only [List.mem_append, List.mem_singleton, hq, or_false, false_or] at hmem
      revert hmem
      decide
    have h1 : commasOutside false ("c1,CON-2025-1234,5".data
        ++ quoteChar :: " disk,,Acme,,,u1,,active,MSA,,,,,USD,,,".data) = 2 := by decide
    have h2 : insideAfter false ("c1,CON-2025-1234,5".data
        ++ quoteChar :: " disk,,Acme,,,u1,,active,MSA,,,,,USD,,,".data) = true := by decide
    unfold csvFieldCount
    rw [commasOutside_append, h1, h2, (commasOutside_quoted _ hx).1]
  · rw [csvText_twoLineRow, splitLines_append_newline _ _ (by decide),
      splitLines_append_newline _ _ (by decide), splitLines_of_no_newline]
    · rfl
    · intro hmem
      simp only [List.mem_append, List.mem_singleton, hn, or_self, or_false,
        false_or] at hmem
      revert hmem
      decide
  · intro env
    simp only [completeServer, serve, plainRequest, hm, completeHandlers]
    exact ⟨rfl, rfl, rfl⟩

/-- Witness for C25: dates written as the JavaScript runtime writes the first
second of 1970. -/
theorem csv_export_malformed_witness :
    (splitLines (csvText exampleDateText twoLineRow [twoLineRow]).data).length = 3 :=
  (csv_export_malformed exampleDateText (fun _ => by
    simp only [exampleDateText]
    decide)).2.1

end CLM
